import Mathlib

/-! Warm-boot reconciliation cache (fboss/agent/hw/bcm/BcmWarmBootCache.cpp)

A shallow embedding of the parts of `BcmWarmBootCache` that the verified
properties talk about, followed by the properties themselves.

* Containers (`boost::container::flat_map`, `std::map`, `flat_set`) are
  embedded as duplicate-free association lists (`FlatMap`) and finite sets.
  The entry list is the iteration sequence of the container; no property
  below depends on the order of entries inside one container.
* Hardware (the Broadcom SDK) is an environment `Hw`: every SDK primitive
  that `clear()` invokes is recorded in a call trace and its return code is
  chosen by the environment, possibly depending on all calls issued before.
* A C++ computation that may throw or abort is a function that returns an
  `Except Failure _` together with the state it leaves behind.
-/

namespace BcmWarmBootCache

/-! ## Scalar types of the SDK and of the agent -/

abbrev EgressId := Int
/-- The C++ `EgressIds`, a `boost::container::flat_set<EgressId>`. -/
abbrev EgressIds := Finset EgressId
abbrev bcm_vrf_t := Int
abbrev bcm_if_t := Int
abbrev bcm_vlan_t := Nat
abbrev VlanID := Nat
abbrev bcm_gport_t := Int
abbrev bcm_mpls_label_t := Nat
abbrev bcm_pbmp_t := Nat
abbrev bcm_switch_control_t := Int
abbrev BcmAclEntryHandle := Int
abbrev BcmAclStatHandle := Int
abbrev BcmMirrorHandle := Int
abbrev MacAddress := Nat
abbrev AggregatePortID := Nat
abbrev InterfaceID := Nat
abbrev SwitchState := Nat

/-- The value `BcmEgressBase::INVALID`. -/
def INVALID : EgressId := -1

/-- An address as `folly::IPAddress`: a v4 or a v6 address. -/
inductive IPAddress where
  | v4 (addr : Nat)
  | v6 (addr : Nat)
deriving DecidableEq, Repr

structure bcm_l3_route_t where
  l3a_flags : Nat := 0
  l3a_vrf : bcm_vrf_t := 0
  l3a_subnet : Nat := 0
  l3a_ip_mask : Nat := 0
  l3a_ip6_net : Nat := 0
  l3a_ip6_mask : Nat := 0
  l3a_intf : bcm_if_t := 0
deriving DecidableEq, Repr

structure bcm_l3_host_t where
  l3a_flags : Nat := 0
  l3a_vrf : bcm_vrf_t := 0
  l3a_ip_addr : Nat := 0
  l3a_ip6_addr : Nat := 0
  l3a_intf : bcm_if_t := 0
deriving DecidableEq, Repr

structure bcm_l3_egress_t where
  flags : Nat := 0
  vlan : bcm_vlan_t := 0
  intf : bcm_if_t := 0
  mpls_label : Nat := 0
deriving DecidableEq, Repr

structure bcm_l3_egress_ecmp_t where
  ecmp_intf : bcm_if_t := 0
  flags : Nat := 0
  max_paths : Int := 0
deriving DecidableEq, Repr

/-- The SDK interface record; `bcm_l3_intf_t_init` yields the all-zero record. -/
structure bcm_l3_intf_t where
  l3a_flags : Nat := 0
  l3a_vid : bcm_vlan_t := 0
  l3a_intf_id : bcm_if_t := 0
  l3a_mac_addr : MacAddress := 0
deriving DecidableEq, Repr

/-- The SDK flag `BCM_L3_WITH_ID`. -/
def BCM_L3_WITH_ID : Nat := 64

structure bcm_l2_station_t where
  dst_mac : MacAddress := 0
  vlan : bcm_vlan_t := 0
deriving DecidableEq, Repr

structure bcm_mpls_tunnel_switch_t where
  label : bcm_mpls_label_t := 0
  action : Nat := 0
  egress_if : bcm_if_t := 0
deriving DecidableEq, Repr

structure VlanInfo where
  vlan : VlanID
  untagged : bcm_pbmp_t
  allPorts : bcm_pbmp_t
deriving DecidableEq, Repr

/-- The C++ `AclStatStatus`: the stat attached to an ACL entry and its claim mark. -/
structure AclStatStatus where
  stat : BcmAclStatHandle := -1
  claimed : Bool := false
deriving DecidableEq, Repr

structure MirrorTunnel where
  srcIp : IPAddress
  dstIp : IPAddress
  srcMac : MacAddress
  dstMac : MacAddress
  udpPorts : Option (Nat × Nat)
  ttl : Nat
deriving DecidableEq, Repr

inductive MirrorDirection where
  | INGRESS
  | EGRESS
deriving DecidableEq, Repr

inductive BcmQosMapType where
  | IP_INGRESS
  | IP_EGRESS
  | MPLS_INGRESS
  | MPLS_EGRESS
deriving DecidableEq, Repr

/-- A scanned `BcmQosMap`: its flags, hardware handle and (traffic class, attribute) rules. -/
structure BcmQosMap where
  flags : Int
  handle : Int
  rules : List (Nat × Nat)
deriving DecidableEq, Repr

inductive L2LearningMode where
  | HARDWARE
  | SOFTWARE
deriving DecidableEq, Repr

/-- The key of an MPLS next hop, `BcmLabeledHostKey`: labelled or tunnelled. -/
structure BcmLabeledHostKey where
  vrf : bcm_vrf_t
  label : Option bcm_mpls_label_t
  stack : List bcm_mpls_label_t
  addr : IPAddress
  intfID : InterfaceID
deriving DecidableEq, Repr

/-! ## Containers -/

/-- A map container (`flat_map` / `std::map`): its entries in iteration order,
with pairwise distinct keys. -/
structure FlatMap (K V : Type) where
  entries : List (K × V) := []
  nodup : (entries.map Prod.fst).Nodup := by simp

namespace FlatMap

variable {K V : Type}

/-- The empty container. -/
def empty : FlatMap K V := ⟨[], List.nodup_nil⟩

instance : Inhabited (FlatMap K V) := ⟨empty⟩

theorem ext_entries {a b : FlatMap K V} (h : a.entries = b.entries) : a = b := by
  cases a; cases b; cases h; rfl

instance [DecidableEq K] [DecidableEq V] : DecidableEq (FlatMap K V) := fun a b =>
  if h : a.entries = b.entries then isTrue (ext_entries h)
  else isFalse (fun e => h (by rw [e]))

/-- The C++ `size()`. -/
def size (m : FlatMap K V) : Nat := m.entries.length

/-- The C++ `empty()` test. -/
def isEmpty (m : FlatMap K V) : Bool := m.entries.isEmpty

/-- Lookup in an association list. -/
def lookup [DecidableEq K] (k : K) : List (K × V) → Option V
  | [] => none
  | (a, b) :: rest => if a = k then some b else lookup k rest

/-- The C++ `find(key)`: `none` stands for the `end()` iterator. -/
def find [DecidableEq K] (m : FlatMap K V) (k : K) : Option V := lookup k m.entries

theorem nodup_filter (m : FlatMap K V) (p : K × V → Bool) :
    ((m.entries.filter p).map Prod.fst).Nodup :=
  List.Nodup.sublist (List.Sublist.map _ (List.filter_sublist _)) m.nodup

/-- Keeps the entries that satisfy `p`. -/
def filter (m : FlatMap K V) (p : K × V → Bool) : FlatMap K V :=
  ⟨m.entries.filter p, nodup_filter m p⟩

/-- The C++ `erase(key)` (also `erase(iterator)` for the iterator at `key`). -/
def erase [DecidableEq K] (m : FlatMap K V) (k : K) : FlatMap K V :=
  m.filter (fun e => decide (e.1 ≠ k))

theorem nodup_insert [DecidableEq K] (m : FlatMap K V) (k : K) (v : V) :
    (((m.entries.filter (fun e => decide (e.1 ≠ k))) ++ [(k, v)]).map Prod.fst).Nodup := by
  rw [List.map_append, List.nodup_append]
  refine ⟨nodup_filter m _, by simp, ?_⟩
  intro a ha hb
  simp only [List.map_cons, List.map_nil, List.mem_singleton] at hb
  subst hb
  simp only [List.mem_map, List.mem_filter] at ha
  obtain ⟨e, ⟨_, he⟩, rfl⟩ := ha
  simp at he

/-- The C++ `m[key] = value`: binds `key` to `value`, replacing an older binding. -/
def insert [DecidableEq K] (m : FlatMap K V) (k : K) (v : V) : FlatMap K V :=
  ⟨(m.entries.filter (fun e => decide (e.1 ≠ k))) ++ [(k, v)], nodup_insert m k v⟩

/-- The C++ `emplace(key, value)`: binds `key` only when it is not bound yet. -/
def emplace [DecidableEq K] (m : FlatMap K V) (k : K) (v : V) : FlatMap K V :=
  match m.find k with
  | some _ => m
  | none => m.insert k v

/-- The keys of the container, in iteration order. -/
def keys (m : FlatMap K V) : List K := m.entries.map Prod.fst

theorem nodup_modify [DecidableEq K] (m : FlatMap K V) (k : K) (f : V → V) :
    ((m.entries.map (fun e => if e.1 = k then (e.1, f e.2) else e)).map Prod.fst).Nodup := by
  have h : (m.entries.map (fun e => if e.1 = k then (e.1, f e.2) else e)).map Prod.fst =
      m.entries.map Prod.fst := by
    rw [List.map_map]
    apply List.map_congr_left
    intro e _
    by_cases h : e.1 = k <;> simp [h]
  rw [h]
  exact m.nodup

/-- The C++ `itr->second = f(itr->second)` for the iterator at `key`: the value
bound to `key` is replaced in place; an unbound key changes nothing. -/
def modify [DecidableEq K] (m : FlatMap K V) (k : K) (f : V → V) : FlatMap K V :=
  ⟨m.entries.map (fun e => if e.1 = k then (e.1, f e.2) else e), nodup_modify m k f⟩

/-- The C++ `m[key]` followed by a mutation `f` of the referenced value:
`operator[]` first binds an unbound key to the default value `d`. -/
def modifyD [DecidableEq K] (m : FlatMap K V) (k : K) (d : V) (f : V → V) : FlatMap K V :=
  match m.find k with
  | some _ => m.modify k f
  | none => m.insert k (f d)

end FlatMap

/-! ## The cache -/

/-- The data members of `BcmWarmBootCache` that the member functions of
BcmWarmBootCache.cpp read or write. -/
structure Cache where
  dumpedSwSwitchState_ : Option SwitchState := none
  hwSwitchEcmp2EgressIds_ : FlatMap EgressId EgressIds := FlatMap.empty
  egressIdsInWarmBootFile_ : Finset EgressId := ∅
  vrfIp2EgressFromBcmHostInWarmBootFile_ :
    FlatMap (bcm_vrf_t × IPAddress × Option bcm_if_t) EgressId := FlatMap.empty
  mplsNextHops2EgressIdInWarmBootFile_ : FlatMap BcmLabeledHostKey EgressId := FlatMap.empty
  vlan2BcmIfIdInWarmBootFile_ : FlatMap VlanID bcm_if_t := FlatMap.empty
  trunks_ : FlatMap AggregatePortID Int := FlatMap.empty
  vlan2VlanInfo_ : FlatMap VlanID VlanInfo := FlatMap.empty
  vlanAndMac2Intf_ : FlatMap (VlanID × MacAddress) bcm_l3_intf_t := FlatMap.empty
  vlan2Station_ : FlatMap VlanID bcm_l2_station_t := FlatMap.empty
  vrfIp2Host_ : FlatMap (bcm_vrf_t × IPAddress) bcm_l3_host_t := FlatMap.empty
  vrfPrefix2Route_ : FlatMap (bcm_vrf_t × IPAddress × IPAddress) bcm_l3_route_t := FlatMap.empty
  vrfAndIP2Route_ : FlatMap (bcm_vrf_t × IPAddress) bcm_l3_route_t := FlatMap.empty
  egressId2Egress_ : FlatMap EgressId bcm_l3_egress_t := FlatMap.empty
  egressIds2Ecmp_ : FlatMap EgressIds bcm_l3_egress_ecmp_t := FlatMap.empty
  dropEgressId_ : EgressId := INVALID
  toCPUEgressId_ : EgressId := INVALID
  aclEntry2AclStat_ : FlatMap BcmAclEntryHandle AclStatStatus := FlatMap.empty
  priority2BcmAclEntryHandle_ : FlatMap Int BcmAclEntryHandle := FlatMap.empty
  mirrorEgressPath2Handle_ :
    FlatMap (bcm_gport_t × Option MirrorTunnel) BcmMirrorHandle := FlatMap.empty
  mirroredPort2Handle_ : FlatMap (bcm_gport_t × Nat) BcmMirrorHandle := FlatMap.empty
  mirroredAcl2Handle_ :
    FlatMap (BcmAclEntryHandle × MirrorDirection) BcmMirrorHandle := FlatMap.empty
  qosMapKey2QosMapId_ : FlatMap (String × BcmQosMapType) Int := FlatMap.empty
  qosMapId2QosMap_ : FlatMap Int BcmQosMap := FlatMap.empty
  label2LabelActions_ : FlatMap bcm_mpls_label_t bcm_mpls_tunnel_switch_t := FlatMap.empty
  labelStackKey2TunnelId_ :
    FlatMap (bcm_vlan_t × List bcm_mpls_label_t) bcm_if_t := FlatMap.empty
  moduleAState_ : FlatMap bcm_switch_control_t Int := FlatMap.empty
  moduleBState_ : FlatMap bcm_switch_control_t Int := FlatMap.empty
  ecmpOutputSelectionState_ : FlatMap Int Int := FlatMap.empty
  trunkOutputSelectionState_ : FlatMap Int Int := FlatMap.empty
  l2LearningMode_ : Option L2LearningMode := none
deriving DecidableEq

/-! ## Failures, hardware and the execution monad -/

/-- How a member function can end other than by returning. -/
inductive Failure where
  /-- The C++ exception `BcmError`, thrown by `bcmCheckError`. -/
  | BcmError (rv : Int)
  /-- The C++ exception `FbossError`. -/
  | FbossError
  /-- Process abort through `bcmLogFatal`. -/
  | LogFatal (rv : Int)
  /-- Process abort through a failed `CHECK` or `XLOG(FATAL)`. -/
  | CheckFailed
deriving DecidableEq, Repr

/-- A failure that aborts the process: it cannot be caught. -/
def Failure.isFatal : Failure → Bool
  | .LogFatal _ => true
  | .CheckFailed => true
  | .BcmError _ => false
  | .FbossError => false

/-- A failure that is a C++ exception: a caller can catch it. -/
def Failure.isException (f : Failure) : Bool := !f.isFatal

/-- The SDK primitives that `clear()` invokes, with their arguments
(the unit number is fixed and left out). -/
inductive HwCall where
  | l3_route_delete (route : bcm_l3_route_t)
  | mpls_tunnel_switch_delete (info : bcm_mpls_tunnel_switch_t)
  | l3_host_delete (host : bcm_l3_host_t)
  | l3_egress_ecmp_destroy (ecmp : bcm_l3_egress_ecmp_t)
  | l3_egress_destroy (id : EgressId)
  | mpls_tunnel_initiator_clear (intf : bcm_if_t)
  | l3_intf_delete (intf : bcm_l3_intf_t)
  | l2_station_delete (station : VlanID)
  | vlan_default_get
  | vlan_destroy (vid : bcm_vlan_t)
  | field_entry_stat_detach (acl : BcmAclEntryHandle) (stat : BcmAclStatHandle)
  | field_stat_destroy (stat : BcmAclStatHandle)
  | field_entry_destroy (acl : BcmAclEntryHandle)
deriving DecidableEq, Repr

abbrev Trace := List HwCall

/-- The hardware as seen by `clear()`: the return code of every primitive,
which may depend on the calls issued so far, and the default VLAN that
`bcm_vlan_default_get` reports. -/
structure Hw where
  rv : Trace → HwCall → Int
  defaultVlan : bcm_vlan_t

/-- The SDK test `BCM_FAILURE(rv)`. -/
def BCM_FAILURE (rv : Int) : Bool := decide (rv < 0)

/-- The cache together with the hardware calls issued so far. -/
structure RunState where
  cache : Cache := {}
  trace : Trace := []

/-- A computation over the cache and the hardware: it returns a value, throws
or aborts, and in each case leaves a state behind. -/
def HwM (α : Type) : Type := RunState → Except Failure α × RunState

namespace HwM

/-- Return without touching the state. -/
def ret {α : Type} (a : α) : HwM α := fun s => (.ok a, s)

/-- Sequencing: the second computation runs only when the first returned. -/
def andThen {α β : Type} (m : HwM α) (f : α → HwM β) : HwM β := fun s =>
  match m s with
  | (.ok a, s1) => f a s1
  | (.error e, s1) => (.error e, s1)

instance : Monad HwM where
  pure := ret
  bind := andThen

/-- End the computation with a failure. -/
def fail {α : Type} (e : Failure) : HwM α := fun s => (.error e, s)

/-- Read the cache. -/
def getCache : HwM Cache := fun s => (.ok s.cache, s)

/-- Update the cache. -/
def modifyCache (f : Cache → Cache) : HwM Unit := fun s =>
  (.ok (), { s with cache := f s.cache })

/-- Issue one SDK primitive: it is appended to the trace and the hardware
chooses its return code. -/
def hwCall (hw : Hw) (call : HwCall) : HwM Int := fun s =>
  (.ok (hw.rv s.trace call), { s with trace := s.trace ++ [call] })

/-- A range-based `for` over a container: the body runs for each entry in
order, and the loop ends at the first failure. -/
def forEach {α : Type} : List α → (α → HwM Unit) → HwM Unit
  | [], _ => ret ()
  | x :: xs, body => andThen (body x) (fun _ => forEach xs body)

end HwM

open HwM

/-- Modelled from the spec: `bcmLogFatal` is declared in BcmError.h, which is
not among the sources. A failed return code of a deletion primitive is fatal:
the process aborts. A successful return code lets the caller continue. -/
def bcmLogFatal (rv : Int) : HwM Unit :=
  if BCM_FAILURE rv then fail (.LogFatal rv) else pure ()

/-- Modelled from the spec: `bcmCheckError` is declared in BcmError.h, which
is not among the sources. A failed return code is surfaced as an error: the
exception `BcmError` is thrown. A successful return code lets the caller
continue. -/
def bcmCheckError (rv : Int) : HwM Unit :=
  if BCM_FAILURE rv then fail (.BcmError rv) else pure ()

/-- The glog macro `CHECK(cond)`: a false condition aborts the process. -/
def CHECK (cond : Bool) : HwM Unit :=
  if cond then pure () else fail .CheckFailed

/-! ## The SDK primitives used by `clear()` -/

def bcm_l3_route_delete (hw : Hw) (route : bcm_l3_route_t) : HwM Int :=
  hwCall hw (.l3_route_delete route)

def bcm_mpls_tunnel_switch_delete (hw : Hw) (info : bcm_mpls_tunnel_switch_t) : HwM Int :=
  hwCall hw (.mpls_tunnel_switch_delete info)

def bcm_l3_host_delete (hw : Hw) (host : bcm_l3_host_t) : HwM Int :=
  hwCall hw (.l3_host_delete host)

def bcm_l3_egress_ecmp_destroy (hw : Hw) (ecmp : bcm_l3_egress_ecmp_t) : HwM Int :=
  hwCall hw (.l3_egress_ecmp_destroy ecmp)

def bcm_l3_egress_destroy (hw : Hw) (id : EgressId) : HwM Int :=
  hwCall hw (.l3_egress_destroy id)

def bcm_mpls_tunnel_initiator_clear (hw : Hw) (intf : bcm_if_t) : HwM Int :=
  hwCall hw (.mpls_tunnel_initiator_clear intf)

def bcm_l3_intf_delete (hw : Hw) (intf : bcm_l3_intf_t) : HwM Int :=
  hwCall hw (.l3_intf_delete intf)

def bcm_l2_station_delete (hw : Hw) (station : VlanID) : HwM Int :=
  hwCall hw (.l2_station_delete station)

/-- The SDK query for the default VLAN: the return code and the VLAN. -/
def bcm_vlan_default_get (hw : Hw) : HwM (Int × bcm_vlan_t) := do
  let rv ← hwCall hw .vlan_default_get
  pure (rv, hw.defaultVlan)

def bcm_vlan_destroy (hw : Hw) (vid : bcm_vlan_t) : HwM Int :=
  hwCall hw (.vlan_destroy vid)

def bcm_field_entry_stat_detach (hw : Hw) (acl : BcmAclEntryHandle)
    (stat : BcmAclStatHandle) : HwM Int :=
  hwCall hw (.field_entry_stat_detach acl stat)

def bcm_field_stat_destroy (hw : Hw) (stat : BcmAclStatHandle) : HwM Int :=
  hwCall hw (.field_stat_destroy stat)

def bcm_field_entry_destroy (hw : Hw) (acl : BcmAclEntryHandle) : HwM Int :=
  hwCall hw (.field_entry_destroy acl)

/-! ## `BcmWarmBootCache::clear()` and its helpers -/

/-- The member function `removeBcmAcl`. -/
def removeBcmAcl (hw : Hw) (handle : BcmAclEntryHandle) : HwM Unit := do
  let rv ← bcm_field_entry_destroy hw handle
  bcmLogFatal rv

/-- The member function `detachBcmAclStat`. -/
def detachBcmAclStat (hw : Hw) (aclHandle : BcmAclEntryHandle)
    (aclStatHandle : BcmAclStatHandle) : HwM Unit := do
  let rv ← bcm_field_entry_stat_detach hw aclHandle aclStatHandle
  bcmLogFatal rv

/-- The member function `removeBcmAclStat`. -/
def removeBcmAclStat (hw : Hw) (handle : BcmAclStatHandle) : HwM Unit := do
  let rv ← bcm_field_stat_destroy hw handle
  bcmLogFatal rv

/-- The member function `removeUnclaimedLabelSwitchActions`. -/
def removeUnclaimedLabelSwitchActions (hw : Hw) : HwM Unit := do
  let c ← getCache
  forEach c.label2LabelActions_.entries fun entries => do
    let info := entries.2
    let rv ← bcm_mpls_tunnel_switch_delete hw info
    bcmCheckError rv
  modifyCache fun c => { c with label2LabelActions_ := FlatMap.empty }

/-- The `while` loop of `removeUnclaimedLabeledTunnels`, from the iterator that
points at the first entry of the given list. -/
def removeUnclaimedLabeledTunnelsLoop (hw : Hw) :
    List ((bcm_vlan_t × List bcm_mpls_label_t) × bcm_if_t) → HwM Unit
  | [] => pure ()
  | (key, intfId) :: rest => do
    let rv ← bcm_mpls_tunnel_initiator_clear hw intfId
    bcmCheckError rv
    let intf : bcm_l3_intf_t := { l3a_intf_id := intfId, l3a_flags := BCM_L3_WITH_ID }
    let rv ← bcm_l3_intf_delete hw intf
    bcmCheckError rv
    modifyCache fun c =>
      { c with labelStackKey2TunnelId_ := c.labelStackKey2TunnelId_.erase key }
    removeUnclaimedLabeledTunnelsLoop hw rest

/-- The member function `removeUnclaimedLabeledTunnels`. -/
def removeUnclaimedLabeledTunnels (hw : Hw) : HwM Unit := do
  let c ← getCache
  removeUnclaimedLabeledTunnelsLoop hw c.labelStackKey2TunnelId_.entries

/-- The VLAN loop of `clear()`, from the iterator that points at the first
entry of the given list: the default VLAN is stepped over, every other VLAN
is destroyed and erased. -/
def clearVlansLoop (hw : Hw) (defaultVlan : bcm_vlan_t) :
    List (VlanID × VlanInfo) → HwM Unit
  | [] => pure ()
  | (vid, _) :: rest =>
    if defaultVlan = vid then
      clearVlansLoop hw defaultVlan rest
    else do
      let rv ← bcm_vlan_destroy hw vid
      bcmLogFatal rv
      modifyCache fun c => { c with vlan2VlanInfo_ := c.vlan2VlanInfo_.erase vid }
      clearVlansLoop hw defaultVlan rest

/-- The first ACL-stat loop of `clear()`: unclaimed stats are detached from
their ACL entry, the stats of claimed entries are collected in `statsUsed`. -/
def detachAclStatsLoop (hw : Hw) :
    List (BcmAclEntryHandle × AclStatStatus) → Finset BcmAclStatHandle →
      HwM (Finset BcmAclStatHandle)
  | [], statsUsed => pure statsUsed
  | (acl, aclStatStatus) :: rest, statsUsed =>
    if !aclStatStatus.claimed then do
      detachBcmAclStat hw acl aclStatStatus.stat
      detachAclStatsLoop hw rest statsUsed
    else
      detachAclStatsLoop hw rest (insert aclStatStatus.stat statsUsed)

/-- The second ACL-stat loop of `clear()`: a stat that is not in `statsUsed` is
destroyed and then added to `statsUsed`. -/
def removeAclStatsLoop (hw : Hw) :
    List (BcmAclEntryHandle × AclStatStatus) → Finset BcmAclStatHandle → HwM Unit
  | [], _ => pure ()
  | (_, status) :: rest, statsUsed =>
    let statHandle := status.stat
    if statHandle ∉ statsUsed then do
      removeBcmAclStat hw statHandle
      removeAclStatsLoop hw rest (insert statHandle statsUsed)
    else
      removeAclStatsLoop hw rest statsUsed

/-- The member function `checkUnclaimedMirrors`. -/
def checkUnclaimedMirrors : HwM Unit := do
  let c ← getCache
  CHECK (c.mirroredPort2Handle_.size == 0)
  CHECK (c.mirroredAcl2Handle_.size == 0)
  CHECK (c.mirrorEgressPath2Handle_.size == 0)

/-- The member function `checkUnclaimedQosMaps`. -/
def checkUnclaimedQosMaps : HwM Unit := do
  let c ← getCache
  CHECK (c.qosMapKey2QosMapId_.size + c.qosMapId2QosMap_.size == 0)

/-- The member function `BcmWarmBootCache::clear()`. -/
def clear (hw : Hw) : HwM Unit := do
  modifyCache fun c => { c with dumpedSwSwitchState_ := none }
  modifyCache fun c => { c with hwSwitchEcmp2EgressIds_ := FlatMap.empty }
  let c ← getCache
  forEach c.vrfPrefix2Route_.entries fun vrfPfxAndRoute => do
    let rv ← bcm_l3_route_delete hw vrfPfxAndRoute.2
    bcmLogFatal rv
  modifyCache fun c => { c with vrfPrefix2Route_ := FlatMap.empty }
  let c ← getCache
  forEach c.vrfAndIP2Route_.entries fun vrfIPAndRoute => do
    let rv ← bcm_l3_route_delete hw vrfIPAndRoute.2
    bcmLogFatal rv
  modifyCache fun c => { c with vrfAndIP2Route_ := FlatMap.empty }
  removeUnclaimedLabelSwitchActions hw
  let c ← getCache
  forEach c.vrfIp2Host_.entries fun vrfIpAndHost => do
    let rv ← bcm_l3_host_delete hw vrfIpAndHost.2
    bcmLogFatal rv
  modifyCache fun c => { c with vrfIp2Host_ := FlatMap.empty }
  let c ← getCache
  forEach c.egressIds2Ecmp_.entries fun idsAndEcmp => do
    let ecmp := idsAndEcmp.2
    let rv ← bcm_l3_egress_ecmp_destroy hw ecmp
    bcmLogFatal rv
  modifyCache fun c => { c with egressIds2Ecmp_ := FlatMap.empty }
  let c ← getCache
  forEach c.egressId2Egress_.entries fun egressIdAndEgress => do
    let rv ← bcm_l3_egress_destroy hw egressIdAndEgress.1
    bcmLogFatal rv
  modifyCache fun c => { c with egressId2Egress_ := FlatMap.empty }
  removeUnclaimedLabeledTunnels hw
  let c ← getCache
  forEach c.vlanAndMac2Intf_.entries fun vlanMacAndIntf => do
    let rv ← bcm_l3_intf_delete hw vlanMacAndIntf.2
    bcmLogFatal rv
  modifyCache fun c => { c with vlanAndMac2Intf_ := FlatMap.empty }
  let c ← getCache
  forEach c.vlan2Station_.entries fun vlanAndStation => do
    let rv ← bcm_l2_station_delete hw vlanAndStation.1
    bcmLogFatal rv
  modifyCache fun c => { c with vlan2Station_ := FlatMap.empty }
  let (rv, defaultVlan) ← bcm_vlan_default_get hw
  bcmLogFatal rv
  let c ← getCache
  clearVlansLoop hw defaultVlan c.vlan2VlanInfo_.entries
  modifyCache fun c => { c with egressIdsInWarmBootFile_ := ∅ }
  modifyCache fun c => { c with vrfIp2EgressFromBcmHostInWarmBootFile_ := FlatMap.empty }
  let c ← getCache
  let statsUsed ← detachAclStatsLoop hw c.aclEntry2AclStat_.entries ∅
  let c ← getCache
  removeAclStatsLoop hw c.aclEntry2AclStat_.entries statsUsed
  modifyCache fun c => { c with aclEntry2AclStat_ := FlatMap.empty }
  let c ← getCache
  forEach c.priority2BcmAclEntryHandle_.entries fun aclItr => do
    removeBcmAcl hw aclItr.2
  modifyCache fun c => { c with priority2BcmAclEntryHandle_ := FlatMap.empty }
  checkUnclaimedMirrors
  checkUnclaimedQosMaps

/-- One run of `clear()` on a cache, with an empty call trace at the start:
how it ended and the state it left. -/
def runClear (hw : Hw) (c : Cache) : Except Failure Unit × RunState :=
  clear hw { cache := c, trace := [] }

/-- Hardware on which every primitive succeeds, with default VLAN 1. -/
def hwOk : Hw := { rv := fun _ _ => 0, defaultVlan := 1 }

/-- Hardware on which exactly the primitives of class `P` fail, with return code
`-1`, and whose default VLAN is 1. -/
def hwFailing (P : HwCall → Bool) : Hw :=
  { rv := fun _ call => if P call then -1 else 0, defaultVlan := 1 }

/-! ## The ECMP scan callback -/

/-- The static `kEmptyEgressIds` of `getPathsForEcmp`. -/
def kEmptyEgressIds : EgressIds := ∅

/-- The member function `getPathsForEcmp`: the member set that the warm-boot
file records for an ECMP id; an id that a non-empty map does not bind raises
`FbossError`. -/
def getPathsForEcmp (cache : Cache) (ecmp : EgressId) : Except Failure EgressIds :=
  if cache.hwSwitchEcmp2EgressIds_.isEmpty then
    .ok kEmptyEgressIds
  else
    match cache.hwSwitchEcmp2EgressIds_.find ecmp with
    | none => .error .FbossError
    | some ids => .ok ids

/-- Modelled from the spec: `toEgressIds` is declared in BcmWarmBootCache.h, which
is not among the sources. It collects the member set that hardware currently
reports: the first `intfCount` elements of the interface array. -/
def toEgressIds (intfArray : List bcm_if_t) (intfCount : Int) : EgressIds :=
  (intfArray.take intfCount.toNat).toFinset

/-- The static member function `ecmpEgressTraversalCallback`, with the cache that
`userData` points to: the return code and the cache it leaves. The member set
reported by hardware is computed and logged, and nothing else. -/
def ecmpEgressTraversalCallback (ecmp : bcm_l3_egress_ecmp_t) (intfCount : Int)
    (intfArray : List bcm_if_t) (cache : Cache) : Except Failure (Int × Cache) :=
  match getPathsForEcmp cache ecmp.ecmp_intf with
  | .error .FbossError =>
    if intfCount = 0 then .ok (0, cache) else .error .FbossError
  | .error ex => .error ex
  | .ok egressIds =>
    let _egressIdsInHw := toEgressIds intfArray intfCount
    if ¬ (egressIds.card > 0) then .error .CheckFailed
    else if (cache.egressIds2Ecmp_.find egressIds).isSome then .error .CheckFailed
    else .ok (0, { cache with egressIds2Ecmp_ := cache.egressIds2Ecmp_.insert egressIds ecmp })

/-! ## Addresses, SDK flags and the platform -/

/-- The folly test `isV6()`. -/
def IPAddress.isV6 : IPAddress → Bool
  | .v6 _ => true
  | .v4 _ => false

/-- The folly test `isLinkLocal()`: `fe80::/10` for a v6 address and
`169.254.0.0/16` for a v4 address. -/
def IPAddress.isLinkLocal : IPAddress → Bool
  | .v6 a => a / 2 ^ 118 == 1018
  | .v4 a => a / 2 ^ 16 == 43518

/-- The folly constructor `IPAddress::fromLongHBO` of a v4 address. -/
def IPAddress.fromLongHBO (a : Nat) : IPAddress := .v4 a

/-- The folly constructor `IPAddress::fromBinary` of a v6 address from its 16 bytes. -/
def IPAddress.fromBinary (a : Nat) : IPAddress := .v6 a

/-- The helper `getFullMaskIPv4Address`: the mask of all 32 bits. -/
def getFullMaskIPv4Address : IPAddress := .v4 (2 ^ 32 - 1)

/-- The helper `getFullMaskIPv6Address`: the mask of all 128 bits. -/
def getFullMaskIPv6Address : IPAddress := .v6 (2 ^ 128 - 1)

/-- The SDK flag `BCM_L3_IP6`. -/
def BCM_L3_IP6 : Nat := 2 ^ 17

/-- The SDK flag `BCM_L3_DST_DISCARD`. -/
def BCM_L3_DST_DISCARD : Nat := 2 ^ 20

/-- The SDK flag `BCM_L3_L2TOCPU`. -/
def BCM_L3_L2TOCPU : Nat := 2 ^ 12

/-- The SDK flag `BCM_L3_COPY_TO_CPU`. -/
def BCM_L3_COPY_TO_CPU : Nat := 2 ^ 23

/-- The SDK value `BCM_MPLS_LABEL_INVALID`. -/
def BCM_MPLS_LABEL_INVALID : Nat := 4294967295

/-- The SDK return code `BCM_E_NOT_FOUND`. -/
def BCM_E_NOT_FOUND : Int := -7

/-- What the callbacks ask the platform and the ASIC. -/
structure Platform where
  canUseHostTableForHostRoutes : Bool
  getMaxLabelStackDepth : Nat

/-- The hardware as seen by the scan: the answers of the SDK queries that the
scan callbacks issue. A query returns its return code and what it wrote to its
output arguments. -/
structure HwQuery where
  /-- The primitive `bcm_mpls_tunnel_initiator_get(unit, intf, label_max, ...)`: the
  return code, the label array and the label count. -/
  bcm_mpls_tunnel_initiator_get : bcm_if_t → Nat → Int × List bcm_mpls_label_t × Nat
  /-- The primitive `bcm_l3_intf_get`: the return code and the interface record. -/
  bcm_l3_intf_get : bcm_l3_intf_t → Int × bcm_l3_intf_t
  /-- The primitive `bcm_field_entry_stat_get`: the return code and the stat handle. -/
  bcm_field_entry_stat_get : BcmAclEntryHandle → Int × BcmAclStatHandle

/-! ## The warm-boot file -/

/-- An element of the `ecmpHosts` array of the host table: the ECMP egress id and
the `paths` of its `ecmpEgress` object (read only when the id is valid). -/
structure EcmpHostDynamic where
  ecmpEgressId : Int
  paths : List Int
deriving DecidableEq, Repr

/-- An element of the `hosts` array of the host table. The `egress` object is
optional, and so is the `intfId` inside it and the `classID`. -/
structure HostDynamic where
  egressId : Int
  ip : IPAddress
  vrf : Int
  egress : Option (Option Int) := none
  classID : Option Int := none
deriving DecidableEq, Repr

/-- An element of the `ecmpObjects` array of the warm-boot-cache section. -/
structure EcmpObjectDynamic where
  ecmpEgressId : Int
  paths : List Int
deriving DecidableEq, Repr

/-- The warm-boot-cache section, as `toFollyDynamic` writes it: the ECMP objects
and the trunks (absent in older files). The aggregate-port key of a trunk is
written as a decimal string and read back as a number. -/
structure WarmBootCacheDynamic where
  ecmpObjects : List EcmpObjectDynamic := []
  trunks : Option (List (AggregatePortID × Int)) := none
deriving DecidableEq, Repr

/-- An element of the MPLS-next-hop array: it carries a `label`, or else a
`stack`, which must be an array. -/
structure MplsNextHopDynamic where
  egressId : Int
  vrf : Int
  ip : IPAddress
  intf : Nat
  label : Option bcm_mpls_label_t := none
  stack : Option (List bcm_mpls_label_t) := none
deriving DecidableEq, Repr

/-- An element of the interface table. -/
structure IntfTableDynamic where
  vlan : Nat
  intfId : Int
deriving DecidableEq, Repr

/-- A policy of the QoS-policy table: the map ids it records, each optional. -/
structure QosPolicyDynamic where
  inDscp : Option Int := none
  inExp : Option Int := none
  outExp : Option Int := none
deriving DecidableEq, Repr

/-- The document that `populateFromWarmBootState` reads, with the sections that
the function requires as plain fields and the sections that it looks up with
`find` as optional fields. -/
structure WarmBootState where
  swSwitch : SwitchState := 0
  ecmpHosts : List EcmpHostDynamic := []
  hosts : List HostDynamic := []
  warmBootCache : WarmBootCacheDynamic := {}
  mplsNextHops : Option (List MplsNextHopDynamic) := none
  intfTable : Option (List IntfTableDynamic) := none
  qosPolicyTable : Option (List (String × QosPolicyDynamic)) := none
deriving DecidableEq, Repr

/-- The member function `toFollyDynamic`: the ECMP member map, one object for each
ECMP id with its paths in the iteration order of the member set, and the
trunks of the trunk table. -/
def toFollyDynamic (trunkTable : List (AggregatePortID × Int)) (cache : Cache) :
    WarmBootCacheDynamic :=
  { ecmpObjects := cache.hwSwitchEcmp2EgressIds_.entries.map fun ecmpAndEgressIds =>
      { ecmpEgressId := ecmpAndEgressIds.1
        paths := ecmpAndEgressIds.2.sort (fun a b => a ≤ b) }
    trunks := some trunkTable }

/-- The statement `hwSwitchEcmp2EgressIds_[ecmpEgressId].insert(e)` for each path. -/
def insertPaths (ecmpEgressId : EgressId) (paths : List Int) (cache : Cache) : Cache :=
  paths.foldl (fun cache e =>
    { cache with hwSwitchEcmp2EgressIds_ :=
        cache.hwSwitchEcmp2EgressIds_.modifyD ecmpEgressId ∅ (fun ids => insert e ids) }) cache

/-- The loop of `populateFromWarmBootState` over the `ecmpHosts` array: an entry
with the invalid id is skipped. -/
def extractEcmpHosts : List EcmpHostDynamic → Cache → Cache
  | [], cache => cache
  | ecmpEntry :: rest, cache =>
    if ecmpEntry.ecmpEgressId = INVALID then extractEcmpHosts rest cache
    else extractEcmpHosts rest (insertPaths ecmpEntry.ecmpEgressId ecmpEntry.paths cache)

/-- The loop of `populateFromWarmBootState` over the `ecmpObjects` array: an entry
with the invalid id fails the `CHECK`. -/
def extractEcmpObjects : List EcmpObjectDynamic → Cache → Except Failure Cache
  | [], cache => .ok cache
  | ecmpEntry :: rest, cache =>
    if ecmpEntry.ecmpEgressId ≠ INVALID then
      extractEcmpObjects rest (insertPaths ecmpEntry.ecmpEgressId ecmpEntry.paths cache)
    else .error .CheckFailed

/-- The interface of the key of a host entry: recorded only for a v6 link-local
address, from the `intfId` of the `egress` object when both are present. -/
def hostIntf (hostEntry : HostDynamic) : Option bcm_if_t :=
  if hostEntry.ip.isV6 && hostEntry.ip.isLinkLocal then
    match hostEntry.egress with
    | some (some intfId) => some intfId
    | _ => none
  else none

/-- The key under which `populateFromWarmBootState` records a host entry. -/
def hostKey (hostEntry : HostDynamic) : bcm_vrf_t × IPAddress × Option bcm_if_t :=
  (hostEntry.vrf, hostEntry.ip, hostIntf hostEntry)

/-- The loop of `populateFromWarmBootState` over the `hosts` array. -/
def extractHosts : List HostDynamic → Cache → Cache
  | [], cache => cache
  | hostEntry :: rest, cache =>
    if hostEntry.egressId = INVALID then extractHosts rest cache
    else
      extractHosts rest
        { cache with
          egressIdsInWarmBootFile_ := insert hostEntry.egressId cache.egressIdsInWarmBootFile_
          vrfIp2EgressFromBcmHostInWarmBootFile_ :=
            cache.vrfIp2EgressFromBcmHostInWarmBootFile_.insert (hostKey hostEntry)
              hostEntry.egressId }

/-- The loop of `populateFromWarmBootState` over the MPLS next hops: a labelled
next hop is keyed by its label, any other by its label stack, which must be
present and an array. -/
def extractMplsNextHops : List MplsNextHopDynamic → Cache → Except Failure Cache
  | [], cache => .ok cache
  | mplsNextHop :: rest, cache =>
    if mplsNextHop.egressId = INVALID then extractMplsNextHops rest cache
    else
      let cache :=
        { cache with
          egressIdsInWarmBootFile_ := insert mplsNextHop.egressId cache.egressIdsInWarmBootFile_ }
      match mplsNextHop.label, mplsNextHop.stack with
      | some label, _ =>
        let key : BcmLabeledHostKey :=
          { vrf := mplsNextHop.vrf, label := some label, stack := [],
            addr := mplsNextHop.ip, intfID := mplsNextHop.intf }
        extractMplsNextHops rest
          { cache with
            mplsNextHops2EgressIdInWarmBootFile_ :=
              cache.mplsNextHops2EgressIdInWarmBootFile_.emplace key mplsNextHop.egressId }
      | none, some labels =>
        let key : BcmLabeledHostKey :=
          { vrf := mplsNextHop.vrf, label := none, stack := labels,
            addr := mplsNextHop.ip, intfID := mplsNextHop.intf }
        extractMplsNextHops rest
          { cache with
            mplsNextHops2EgressIdInWarmBootFile_ :=
              cache.mplsNextHops2EgressIdInWarmBootFile_.emplace key mplsNextHop.egressId }
      | none, none => .error .CheckFailed

/-- The loop of `populateFromWarmBootState` over the policies of the QoS table. -/
def extractQosPolicies : List (String × QosPolicyDynamic) → Cache → Cache
  | [], cache => cache
  | (policyName, policy) :: rest, cache =>
    let m := cache.qosMapKey2QosMapId_
    let m := match policy.inDscp with
      | some id => m.emplace (policyName, BcmQosMapType.IP_INGRESS) id
      | none => m
    let m := match policy.inExp with
      | some id => m.emplace (policyName, BcmQosMapType.MPLS_INGRESS) id
      | none => m
    let m := match policy.outExp with
      | some id => m.emplace (policyName, BcmQosMapType.MPLS_EGRESS) id
      | none => m
    extractQosPolicies rest { cache with qosMapKey2QosMapId_ := m }

/-- The loop of `populateFromWarmBootState` over the trunks of the
warm-boot-cache section, when the section has them. -/
def extractTrunks : Option (List (AggregatePortID × Int)) → Cache → Cache
  | some trunks, cache =>
    trunks.foldl (fun cache e => { cache with trunks_ := cache.trunks_.insert e.1 e.2 }) cache
  | none, cache => cache

/-- The loop of `populateFromWarmBootState` over the interface table. -/
def extractIntfTable (intfTable : List IntfTableDynamic) (cache : Cache) : Cache :=
  intfTable.foldl (fun cache intfTableEntry =>
    { cache with vlan2BcmIfIdInWarmBootFile_ :=
        cache.vlan2BcmIfIdInWarmBootFile_.emplace intfTableEntry.vlan intfTableEntry.intfId })
    cache

/-- The member function `populateFromWarmBootState`. A section that the function
looks up with `find` and does not find is read as the empty array or object. -/
def populateFromWarmBootState (warmBootState : WarmBootState) (cache : Cache) :
    Except Failure Cache := do
  let cache := { cache with dumpedSwSwitchState_ := some warmBootState.swSwitch }
  let cache := extractEcmpHosts warmBootState.ecmpHosts cache
  let cache ← extractEcmpObjects warmBootState.warmBootCache.ecmpObjects cache
  let cache := extractTrunks warmBootState.warmBootCache.trunks cache
  let cache := extractHosts warmBootState.hosts cache
  let mplsNextHops :=
    match warmBootState.mplsNextHops with
    | some mplsNextHops => mplsNextHops
    | none => []
  let cache ← extractMplsNextHops mplsNextHops cache
  let intfTable :=
    match warmBootState.intfTable with
    | some intfTable => intfTable
    | none => []
  let cache := extractIntfTable intfTable cache
  let qosPolicyTable :=
    match warmBootState.qosPolicyTable with
    | some qosPolicyTable => qosPolicyTable
    | none => []
  pure (extractQosPolicies qosPolicyTable cache)

/-! ## Lookups in the cache -/

/-- Modelled from the spec: `findEgress` is declared in BcmWarmBootCache.h, which is
not among the sources. It is the pure lookup of an egress id in the egress
index; `none` stands for the `end()` iterator. -/
def findEgress (cache : Cache) (id : EgressId) : Option (EgressId × bcm_l3_egress_t) :=
  (cache.egressId2Egress_.find id).map (fun egress => (id, egress))

/-- The member function `findEgressFromHost`: the iterator it returns and the
cache it leaves. -/
def findEgressFromHost (vrf : bcm_vrf_t) (addr : IPAddress) (intf : Option bcm_if_t)
    (cache : Cache) : Option (EgressId × bcm_l3_egress_t) × Cache :=
  if cache.vrfIp2EgressFromBcmHostInWarmBootFile_.size = 0 then
    (none, cache)
  else
    let intf := if !addr.isV6 || !addr.isLinkLocal then none else intf
    let key := (vrf, addr, intf)
    match cache.vrfIp2EgressFromBcmHostInWarmBootFile_.find key with
    | none => (none, cache)
    | some id => (findEgress cache id, cache)

/-- The member function `findEgressFromLabeledHostKey`: the iterator it returns
and the cache it leaves. -/
def findEgressFromLabeledHostKey (key : BcmLabeledHostKey) (cache : Cache) :
    Option (EgressId × bcm_l3_egress_t) × Cache :=
  match cache.mplsNextHops2EgressIdInWarmBootFile_.find key with
  | none => (none, cache)
  | some id => (findEgress cache id, cache)

/-! ## The scan callbacks -/

/-- The static member function `hostTraversalCallback`: the return code and the
cache it leaves. -/
def hostTraversalCallback (host : bcm_l3_host_t) (cache : Cache) : Int × Cache :=
  let ip :=
    if host.l3a_flags &&& BCM_L3_IP6 ≠ 0 then IPAddress.fromBinary host.l3a_ip6_addr
    else IPAddress.fromLongHBO host.l3a_ip_addr
  (0, { cache with vrfIp2Host_ := cache.vrfIp2Host_.insert (host.l3a_vrf, ip) host })

/-- The static member function `routeTraversalCallback`: the return code and the
cache it leaves. -/
def routeTraversalCallback (platform : Platform) (route : bcm_l3_route_t) (cache : Cache) :
    Int × Cache :=
  let isIPv6 : Bool := decide (route.l3a_flags &&& BCM_L3_IP6 ≠ 0)
  let ip :=
    if isIPv6 then IPAddress.fromBinary route.l3a_ip6_net
    else IPAddress.fromLongHBO route.l3a_subnet
  let mask :=
    if isIPv6 then IPAddress.fromBinary route.l3a_ip6_mask
    else IPAddress.fromLongHBO route.l3a_ip_mask
  if platform.canUseHostTableForHostRoutes &&
      ((isIPv6 && decide (mask = getFullMaskIPv6Address)) ||
        (!isIPv6 && decide (mask = getFullMaskIPv4Address))) then
    (0, { cache with vrfAndIP2Route_ := cache.vrfAndIP2Route_.insert (route.l3a_vrf, ip) route })
  else
    (0, { cache with
      vrfPrefix2Route_ := cache.vrfPrefix2Route_.insert (route.l3a_vrf, ip, mask) route })

/-- The member function `populateLabelStack2TunnelId`: it records the tunnel of an
egress object that carries an MPLS label, unless one is recorded under the
same VLAN and label stack. The second query fills a label array of
`label_count` elements. -/
def populateLabelStack2TunnelId (platform : Platform) (q : HwQuery) (egress : bcm_l3_egress_t)
    (cache : Cache) : Cache :=
  if egress.mpls_label = BCM_MPLS_LABEL_INVALID then cache
  else
    let r := q.bcm_mpls_tunnel_initiator_get egress.intf platform.getMaxLabelStackDepth
    if r.1 = BCM_E_NOT_FOUND then cache
    else
      let label_count := r.2.2
      let intf := (q.bcm_l3_intf_get
        { l3a_intf_id := egress.intf, l3a_flags := BCM_L3_WITH_ID }).2
      let labels : List bcm_mpls_label_t :=
        if label_count ≠ 0 then
          let filled := (q.bcm_mpls_tunnel_initiator_get intf.l3a_intf_id label_count).2.1
          (List.range label_count).map (fun i => filled.getD i 0)
        else []
      let key := (intf.l3a_vid, labels)
      match cache.labelStackKey2TunnelId_.find key with
      | some _ => cache
      | none =>
        { cache with labelStackKey2TunnelId_ :=
            cache.labelStackKey2TunnelId_.emplace key intf.l3a_intf_id }

/-- The static member function `egressTraversalCallback`: the return code and the
cache it leaves, or the abort of a failed `CHECK` or of `XLOG(FATAL)`. -/
def egressTraversalCallback (platform : Platform) (q : HwQuery) (egressId : EgressId)
    (egress : bcm_l3_egress_t) (cache : Cache) : Except Failure (Int × Cache) :=
  if (cache.egressId2Egress_.find egressId).isSome then .error .CheckFailed
  else if egressId ∈ cache.egressIdsInWarmBootFile_ then
    let cache := { cache with egressId2Egress_ := cache.egressId2Egress_.insert egressId egress }
    .ok (0, populateLabelStack2TunnelId platform q egress cache)
  else if egress.flags &&& BCM_L3_DST_DISCARD ≠ 0 then
    if cache.dropEgressId_ ≠ INVALID then .error .CheckFailed
    else
      let cache := { cache with dropEgressId_ := egressId }
      .ok (0, populateLabelStack2TunnelId platform q egress cache)
  else if egress.flags &&& (BCM_L3_L2TOCPU ||| BCM_L3_COPY_TO_CPU) ≠ 0 then
    if cache.toCPUEgressId_ ≠ INVALID then .error .CheckFailed
    else
      let cache := { cache with toCPUEgressId_ := egressId }
      .ok (0, populateLabelStack2TunnelId platform q egress cache)
  else .error .CheckFailed

/-- The SDK traversal `bcm_l3_egress_traverse` with `egressTraversalCallback`: the
callback runs once for each egress object that hardware lists, in order, until
one aborts. -/
def bcm_l3_egress_traverse (platform : Platform) (q : HwQuery) :
    List (EgressId × bcm_l3_egress_t) → Cache → Except Failure Cache
  | [], cache => .ok cache
  | (egressId, egress) :: rest, cache =>
    match egressTraversalCallback platform q egressId egress cache with
    | .ok (_, cache) => bcm_l3_egress_traverse platform q rest cache
    | .error e => .error e

/-! ## Claiming ACL stats and RTAG7 switch controls -/

/-- The member function `programmed(AclEntry2AclStatItr itr)`, for the iterator at
the entry of ACL handle `itr`: the entry is marked claimed. -/
def programmed_aclStat (itr : BcmAclEntryHandle) (cache : Cache) : Cache :=
  { cache with aclEntry2AclStat_ :=
      cache.aclEntry2AclStat_.modify itr (fun status => { status with claimed := true }) }

/-- The member function `findAclStat`: the entry of the ACL handle, or `none` for
the `end()` iterator when the handle is not bound or its entry is claimed; and
the cache it leaves. -/
def findAclStat (bcmAclEntry : BcmAclEntryHandle) (cache : Cache) :
    Option (BcmAclEntryHandle × AclStatStatus) × Cache :=
  match cache.aclEntry2AclStat_.find bcmAclEntry with
  | some status => if status.claimed then (none, cache) else (some (bcmAclEntry, status), cache)
  | none => (none, cache)

/-- The member function `populateAclStats` on the ACL-stat index of the cache: an
ACL entry without a stat is skipped, a failed query raises `BcmError`, and the
stat of the entry is recorded as unclaimed unless the entry is bound already. -/
def populateAclStats (q : HwQuery) (aclHandle : BcmAclEntryHandle) (cache : Cache) :
    Except Failure Cache :=
  let r := q.bcm_field_entry_stat_get aclHandle
  if r.1 = BCM_E_NOT_FOUND then .ok cache
  else if BCM_FAILURE r.1 then .error (.BcmError r.1)
  else
    .ok { cache with aclEntry2AclStat_ :=
      cache.aclEntry2AclStat_.emplace aclHandle { stat := r.2, claimed := false } }

/-- The member function `unitControlMatches(char module, ...)`. -/
def unitControlMatches (module : Char) (switchControl : bcm_switch_control_t) (arg : Int)
    (cache : Cache) : Except Failure Bool :=
  if module = 'A' then
    .ok (decide (cache.moduleAState_.find switchControl = some arg))
  else if module = 'B' then
    .ok (decide (cache.moduleBState_.find switchControl = some arg))
  else .error .FbossError

/-- The member function `programmed(char module, bcm_switch_control_t)`: the switch
control is erased from the state of the module, and `CHECK_EQ(numErased, 1)`
aborts when it was not there. -/
def programmed_module (module : Char) (switchControl : bcm_switch_control_t) (cache : Cache) :
    Except Failure Cache :=
  if module = 'A' then
    let numErased : Nat := if (cache.moduleAState_.find switchControl).isSome then 1 else 0
    let cache := { cache with moduleAState_ := cache.moduleAState_.erase switchControl }
    if numErased = 1 then .ok cache else .error .CheckFailed
  else if module = 'B' then
    let numErased : Nat := if (cache.moduleBState_.find switchControl).isSome then 1 else 0
    let cache := { cache with moduleBState_ := cache.moduleBState_.erase switchControl }
    if numErased = 1 then .ok cache else .error .CheckFailed
  else .error .FbossError

/-! ## Populating ACLs and switch settings, claiming mirrors and QoS maps -/

/-- The answers of the SDK queries that `populateAcls` issues, on top of those
of `HwQuery`. -/
structure HwFieldQuery extends HwQuery where
  /-- The primitive `bcm_field_entry_multi_get(unit, group, entry_size, entries,
  &entry_count)`: the return code, the entries written to the array and the
  entry count. -/
  bcm_field_entry_multi_get : Int → Nat → Int × List BcmAclEntryHandle × Int
  /-- The primitive `bcm_field_entry_prio_get`: the return code and the priority. -/
  bcm_field_entry_prio_get : BcmAclEntryHandle → Int × Int
  /-- The primitive `bcm_field_action_get` for the mirror action of a direction:
  the two parameters of the action. -/
  bcm_field_action_get : BcmAclEntryHandle → MirrorDirection → Nat × Nat

/-- The member function `populateMirroredAcl`: the mirror of each direction
that the ACL entry carries is recorded. -/
def populateMirroredAcl (q : HwFieldQuery) (entry : BcmAclEntryHandle) (cache : Cache) : Cache :=
  [MirrorDirection.INGRESS, MirrorDirection.EGRESS].foldl (fun cache direction =>
    let param1 := (q.bcm_field_action_get entry direction).2
    if param1 ≠ 0 then
      { cache with
        mirroredAcl2Handle_ := cache.mirroredAcl2Handle_.emplace (entry, direction) param1 }
    else cache) cache

/-- The loop of `populateAcls` over the field entries of the group. The helper
`utility::swPriorityToHwPriority` is declared outside the sources and is a
parameter. -/
def populateAclsLoop (swPriorityToHwPriority : Int → Int) (q : HwFieldQuery) :
    List BcmAclEntryHandle → Cache → Except Failure Cache
  | [], cache => .ok cache
  | bcmEntry :: rest, cache =>
    match populateAclStats q.toHwQuery bcmEntry cache with
    | .error e => .error e
    | .ok cache =>
      let r := q.bcm_field_entry_prio_get bcmEntry
      if BCM_FAILURE r.1 then .error (.BcmError r.1)
      else
        let priority := r.2
        if (cache.priority2BcmAclEntryHandle_.find priority).isSome then .error .CheckFailed
        else
          let cache :=
            { cache with
              priority2BcmAclEntryHandle_ :=
                cache.priority2BcmAclEntryHandle_.emplace (swPriorityToHwPriority priority)
                  bcmEntry }
          populateAclsLoop swPriorityToHwPriority q rest (populateMirroredAcl q bcmEntry cache)

/-- The member function `populateAcls` on the ACL-stat index and the ACL index
of the cache: the entry count of the group is read first, then the entries. The
entry array has `entryCount` elements, zero where hardware wrote none. -/
def populateAcls (swPriorityToHwPriority : Int → Int) (q : HwFieldQuery) (groupId : Int)
    (cache : Cache) : Except Failure Cache :=
  let r := q.bcm_field_entry_multi_get groupId 0
  if BCM_FAILURE r.1 then .error (.BcmError r.1)
  else
    let entryCount := r.2.2
    if entryCount = 0 then .ok cache
    else
      let r2 := q.bcm_field_entry_multi_get groupId entryCount.toNat
      if BCM_FAILURE r2.1 then .error (.BcmError r2.1)
      else
        let bcmEntries : List BcmAclEntryHandle :=
          (List.range entryCount.toNat).map (fun i => r2.2.1.getD i 0)
        populateAclsLoop swPriorityToHwPriority q bcmEntries cache

/-- The SDK flag `BCM_PORT_LEARN_ARL`. -/
def BCM_PORT_LEARN_ARL : Nat := 1

/-- The SDK flag `BCM_PORT_LEARN_FWD`. -/
def BCM_PORT_LEARN_FWD : Nat := 4

/-- The SDK flag `BCM_PORT_LEARN_PENDING`. -/
def BCM_PORT_LEARN_PENDING : Nat := 8

/-- The answers of the SDK queries that `populateSwitchSettings` issues: the
ports of the port bitmap of `bcm_port_config_get`, in the order of
`BCM_PBMP_ITER`, and for each port the return code and the flags of
`bcm_port_learn_get`. -/
structure HwPortQuery where
  ports : List Nat
  bcm_port_learn_get : Nat → Int × Nat

/-- The loop of `populateSwitchSettings` over the ports, with the `flags` that
the ports before left. -/
def learnFlagsLoop (q : HwPortQuery) : List Nat → Nat → Except Failure Nat
  | [], flags => .ok flags
  | port :: rest, flags =>
    let r := q.bcm_port_learn_get port
    if BCM_FAILURE r.1 then .error (.BcmError r.1)
    else
      let port_flags := r.2
      if flags = 0 then learnFlagsLoop q rest port_flags
      else if flags ≠ port_flags then .error .FbossError
      else learnFlagsLoop q rest flags

/-- The member function `populateSwitchSettings`. -/
def populateSwitchSettings (q : HwPortQuery) (cache : Cache) : Except Failure Cache :=
  match learnFlagsLoop q q.ports 0 with
  | .error e => .error e
  | .ok flags =>
    if flags = BCM_PORT_LEARN_ARL ||| BCM_PORT_LEARN_FWD then
      .ok { cache with l2LearningMode_ := some L2LearningMode.HARDWARE }
    else if flags = BCM_PORT_LEARN_ARL ||| BCM_PORT_LEARN_PENDING then
      .ok { cache with l2LearningMode_ := some L2LearningMode.SOFTWARE }
    else .error .FbossError

/-- The answer of the SDK query that `isSflowMirror` issues, the return code and
the flags of the mirror destination, and the SDK flag
`BCM_MIRROR_DEST_TUNNEL_SFLOW`. -/
structure HwMirrorQuery where
  bcm_mirror_destination_get : BcmMirrorHandle → Int × Nat
  BCM_MIRROR_DEST_TUNNEL_SFLOW : Nat

/-- The member function `isSflowMirror`. -/
def isSflowMirror (q : HwMirrorQuery) (handle : BcmMirrorHandle) : Except Failure Bool :=
  let r := q.bcm_mirror_destination_get handle
  if BCM_FAILURE r.1 then .error (.BcmError r.1)
  else if r.2 &&& q.BCM_MIRROR_DEST_TUNNEL_SFLOW ≠ 0 then .ok true
  else .ok false

/-- The member function `programmedMirroredPort`, for the iterator at the entry
`itr` (its key, a port and flags, and its mirror handle) of the mirrored-port
index. -/
def programmedMirroredPort (q : HwMirrorQuery) (itr : (bcm_gport_t × Nat) × BcmMirrorHandle)
    (cache : Cache) : Except Failure Cache :=
  let handle := itr.2
  let flags := itr.1.2
  match isSflowMirror q handle with
  | .error e => .error e
  | .ok true =>
    .ok { cache with
      mirroredPort2Handle_ :=
        cache.mirroredPort2Handle_.filter
          (fun currItr => !(decide (currItr.1.2 = flags) && decide (currItr.2 = handle))) }
  | .ok false =>
    .ok { cache with mirroredPort2Handle_ := cache.mirroredPort2Handle_.erase itr.1 }

/-- The rules of a software QoS policy that `findQosMap` reads: its name and the
(traffic class, attribute) entries of its DSCP map and of its EXP map, in each
direction. -/
structure QosPolicy where
  getName : String
  dscpMapFrom : List (Nat × Nat) := []
  expMapFrom : List (Nat × Nat) := []
  expMapTo : List (Nat × Nat) := []
deriving DecidableEq, Repr

/-- Modelled from the spec: `BcmQosMap::ruleExists` is declared in BcmQosMap.h, which
is not among the sources. The map has a rule for the traffic class and the
attribute. -/
def BcmQosMap.ruleExists (qosMap : BcmQosMap) (trafficClass attr : Nat) : Bool :=
  decide ((trafficClass, attr) ∈ qosMap.rules)

/-- Modelled from the spec: `BcmQosMap::size` is declared in BcmQosMap.h, which is
not among the sources. The number of rules of the map. -/
def BcmQosMap.size (qosMap : BcmQosMap) : Nat := qosMap.rules.length

/-- The rules that `findQosMap` collects in `mapEntries` for a type of map, a set;
there is none for an L3 egress map, which is not supported. -/
def mapEntries (qosPolicy : QosPolicy) : BcmQosMapType → Option (Finset (Nat × Nat))
  | .MPLS_INGRESS => some qosPolicy.expMapFrom.toFinset
  | .MPLS_EGRESS => some qosPolicy.expMapTo.toFinset
  | .IP_INGRESS => some qosPolicy.dscpMapFrom.toFinset
  | .IP_EGRESS => none

/-- The member function `findQosMap`: the entry of the QoS-map index it returns,
`none` for the `end()` iterator, and the cache it leaves; or the abort of the
failed `CHECK` or of `XLOG(FATAL)`. -/
def findQosMap (qosPolicy : QosPolicy) (type : BcmQosMapType) (cache : Cache) :
    Except Failure (Option (Int × BcmQosMap) × Cache) :=
  match cache.qosMapKey2QosMapId_.find (qosPolicy.getName, type) with
  | none => .ok (none, cache)
  | some id =>
    match cache.qosMapId2QosMap_.find id with
    | none => .error .CheckFailed
    | some qosMap =>
      match mapEntries qosPolicy type with
      | none => .error .CheckFailed
      | some entries =>
        if ∃ entry ∈ entries, qosMap.ruleExists entry.1 entry.2 = false then .ok (none, cache)
        else if qosMap.size ≠ entries.card then .ok (none, cache)
        else .ok (some (id, qosMap), cache)

/-- The member function `programmed(policyName, type, itr)`, for the iterator at
the entry of map id `itr` of the QoS-map index. -/
def programmed_qosMap (policyName : String) (type : BcmQosMapType) (itr : Int) (cache : Cache) :
    Cache :=
  { cache with
    qosMapKey2QosMapId_ := cache.qosMapKey2QosMapId_.erase (policyName, type)
    qosMapId2QosMap_ := cache.qosMapId2QosMap_.erase itr }

/-! ## Specification of the scan and of the restore -/

/-- The egress id was visited with this egress record: the callback recorded it
in the egress index, as the drop egress or as the to-CPU egress. -/
def Visited (egressId : EgressId) (egress : bcm_l3_egress_t) (c : Cache) : Prop :=
  (c.egressId2Egress_.find egressId).isSome ∨
  (egressId ∉ c.egressIdsInWarmBootFile_ ∧ egress.flags &&& BCM_L3_DST_DISCARD ≠ 0 ∧
    c.dropEgressId_ ≠ INVALID) ∨
  (egressId ∉ c.egressIdsInWarmBootFile_ ∧ ¬ egress.flags &&& BCM_L3_DST_DISCARD ≠ 0 ∧
    egress.flags &&& (BCM_L3_L2TOCPU ||| BCM_L3_COPY_TO_CPU) ≠ 0 ∧ c.toCPUEgressId_ ≠ INVALID)

/-- The cache `c2` differs from `c` at most in the fields that
`populateFromWarmBootState` writes. -/
def RestoreFrame (c c2 : Cache) : Prop :=
  c2 = { c with
    dumpedSwSwitchState_ := c2.dumpedSwSwitchState_
    hwSwitchEcmp2EgressIds_ := c2.hwSwitchEcmp2EgressIds_
    egressIdsInWarmBootFile_ := c2.egressIdsInWarmBootFile_
    vrfIp2EgressFromBcmHostInWarmBootFile_ := c2.vrfIp2EgressFromBcmHostInWarmBootFile_
    mplsNextHops2EgressIdInWarmBootFile_ := c2.mplsNextHops2EgressIdInWarmBootFile_
    vlan2BcmIfIdInWarmBootFile_ := c2.vlan2BcmIfIdInWarmBootFile_
    trunks_ := c2.trunks_
    qosMapKey2QosMapId_ := c2.qosMapKey2QosMapId_ }

/-- The egress index holds ids of the restored file only, and the drop egress
and the to-CPU egress are not among them. -/
def ScanInvariant (c : Cache) : Prop :=
  INVALID ∉ c.egressIdsInWarmBootFile_ ∧
  (∀ id : EgressId, (c.egressId2Egress_.find id).isSome = true →
    id ∈ c.egressIdsInWarmBootFile_) ∧
  (c.dropEgressId_ = INVALID ∨ c.dropEgressId_ ∉ c.egressIdsInWarmBootFile_) ∧
  (c.toCPUEgressId_ = INVALID ∨ c.toCPUEgressId_ ∉ c.egressIdsInWarmBootFile_)

/-- The resource key (vrf, IP) of a scanned host entry. -/
def hostResourceKey (host : bcm_l3_host_t) : bcm_vrf_t × IPAddress :=
  (host.l3a_vrf,
    if host.l3a_flags &&& BCM_L3_IP6 ≠ 0 then IPAddress.fromBinary host.l3a_ip6_addr
    else IPAddress.fromLongHBO host.l3a_ip_addr)

/-- The resource key (vrf, prefix, mask) of a scanned route. -/
def routeResourceKey (route : bcm_l3_route_t) : bcm_vrf_t × IPAddress × IPAddress :=
  if route.l3a_flags &&& BCM_L3_IP6 ≠ 0 then
    (route.l3a_vrf, IPAddress.fromBinary route.l3a_ip6_net,
      IPAddress.fromBinary route.l3a_ip6_mask)
  else
    (route.l3a_vrf, IPAddress.fromLongHBO route.l3a_subnet,
      IPAddress.fromLongHBO route.l3a_ip_mask)

/-- The mask of the route is the full-width mask of its address family: /128
(all 128 bits) for an IPv6 route and /32 (all 32 bits) for an IPv4 route. -/
def hasFullWidthMask (route : bcm_l3_route_t) : Bool :=
  if route.l3a_flags &&& BCM_L3_IP6 ≠ 0 then
    decide (route.l3a_ip6_mask = 340282366920938463463374607431768211455)
  else decide (route.l3a_ip_mask = 4294967295)

/-- The operations on the cache of this development other than `clear()`. -/
inductive Operation where
  | populateFromWarmBootState (warmBootState : WarmBootState)
  | egressTraversalCallback (platform : Platform) (q : HwQuery) (egressId : EgressId)
      (egress : bcm_l3_egress_t)
  | ecmpEgressTraversalCallback (ecmp : bcm_l3_egress_ecmp_t) (intfCount : Int)
      (intfArray : List bcm_if_t)
  | hostTraversalCallback (host : bcm_l3_host_t)
  | routeTraversalCallback (platform : Platform) (route : bcm_l3_route_t)
  | populateAclStats (q : HwQuery) (aclHandle : BcmAclEntryHandle)
  | programmed_aclStat (itr : BcmAclEntryHandle)
  | findAclStat (bcmAclEntry : BcmAclEntryHandle)
  | findEgressFromHost (vrf : bcm_vrf_t) (addr : IPAddress) (intf : Option bcm_if_t)
  | findEgressFromLabeledHostKey (key : BcmLabeledHostKey)
  | programmed_module (module : Char) (switchControl : bcm_switch_control_t)
  | unitControlMatches (module : Char) (switchControl : bcm_switch_control_t) (arg : Int)

/-- The cache that an operation leaves, or the failure it ends with. -/
def Operation.run : Operation → Cache → Except Failure Cache
  | .populateFromWarmBootState warmBootState, c =>
    BcmWarmBootCache.populateFromWarmBootState warmBootState c
  | .egressTraversalCallback platform q egressId egress, c =>
    (BcmWarmBootCache.egressTraversalCallback platform q egressId egress c).map Prod.snd
  | .ecmpEgressTraversalCallback ecmp intfCount intfArray, c =>
    (BcmWarmBootCache.ecmpEgressTraversalCallback ecmp intfCount intfArray c).map Prod.snd
  | .hostTraversalCallback host, c => .ok (BcmWarmBootCache.hostTraversalCallback host c).2
  | .routeTraversalCallback platform route, c =>
    .ok (BcmWarmBootCache.routeTraversalCallback platform route c).2
  | .populateAclStats q aclHandle, c => BcmWarmBootCache.populateAclStats q aclHandle c
  | .programmed_aclStat itr, c => .ok (BcmWarmBootCache.programmed_aclStat itr c)
  | .findAclStat bcmAclEntry, c => .ok (BcmWarmBootCache.findAclStat bcmAclEntry c).2
  | .findEgressFromHost vrf addr intf, c =>
    .ok (BcmWarmBootCache.findEgressFromHost vrf addr intf c).2
  | .findEgressFromLabeledHostKey key, c =>
    .ok (BcmWarmBootCache.findEgressFromLabeledHostKey key c).2
  | .programmed_module module switchControl, c =>
    BcmWarmBootCache.programmed_module module switchControl c
  | .unitControlMatches module switchControl arg, c =>
    (BcmWarmBootCache.unitControlMatches module switchControl arg c).map (fun _ => c)

/-- A sequence of operations, one after the other, until one fails. -/
def runOperations : List Operation → Cache → Except Failure Cache
  | [], c => .ok c
  | op :: rest, c =>
    match op.run c with
    | .ok c2 => runOperations rest c2
    | .error e => .error e

/-- The paths that the document lists for an ECMP id: those of the records of
the ECMP-host section with that id, the records with the invalid id apart, and
those of the records of the ECMP-object section with that id. -/
def pathsListedFor (doc : WarmBootState) (id : EgressId) : Finset Int :=
  ((doc.ecmpHosts.filter
      (fun e => decide (e.ecmpEgressId = id ∧ e.ecmpEgressId ≠ INVALID))).flatMap
    (fun e => e.paths)).toFinset ∪
  ((doc.warmBootCache.ecmpObjects.filter (fun e => decide (e.ecmpEgressId = id))).flatMap
    (fun e => e.paths)).toFinset

/-- The binding of an ECMP id with the member set `S`: none when `S` is empty. -/
def memberBinding (S : Finset Int) : Option EgressIds :=
  if S = ∅ then none else some S

/-! ## Specification of a run of `clear()` -/

instance {ε α : Type} [DecidableEq ε] [DecidableEq α] : DecidableEq (Except ε α) := fun a b =>
  match a, b with
  | .ok x, .ok y =>
    if h : x = y then isTrue (by rw [h]) else isFalse (fun e => h (by cases e; rfl))
  | .error x, .error y =>
    if h : x = y then isTrue (by rw [h]) else isFalse (fun e => h (by cases e; rfl))
  | .ok _, .error _ => isFalse (fun e => by cases e)
  | .error _, .ok _ => isFalse (fun e => by cases e)

/-- A failure caused by a failed return code of an SDK primitive. -/
def Failure.isHw : Failure → Bool
  | .LogFatal _ => true
  | .BcmError _ => true
  | .FbossError => false
  | .CheckFailed => false

/-- The behaviour of a computation `m`, stated from the cache it starts on:
the calls it issues are a beginning of `plan`; when it returns it has issued
all of `plan`, left the cache `post`, passed the checks `chk` and returned `val`;
when it fails, either the last issued call reported a failure or a check of
`chk` did not hold. -/
def Phase {α : Type} (hw : Hw) (m : HwM α) (plan : Cache → List HwCall)
    (post : Cache → Cache) (chk : Cache → Prop) (val : Cache → α) : Prop :=
  ∀ s : RunState, ∃ t, (m s).2.trace = s.trace ++ t ∧ t <+: plan s.cache ∧
    match (m s).1 with
    | .ok a => t = plan s.cache ∧ (m s).2.cache = post s.cache ∧ chk s.cache ∧ a = val s.cache
    | .error e =>
      (e.isHw = true ∧ ∃ pre call, t = pre ++ [call] ∧ hw.rv (s.trace ++ pre) call < 0) ∨
      (e = .CheckFailed ∧ ¬ chk s.cache)

/-- Erases a list of keys, one after the other. -/
def FlatMap.eraseAll {K V : Type} [DecidableEq K] (m : FlatMap K V) (ks : List K) :
    FlatMap K V :=
  ks.foldl FlatMap.erase m

/-- The two calls that remove one MPLS tunnel: the initiator is cleared, then
the interface of the tunnel is deleted. -/
def tunnelCalls (e : (bcm_vlan_t × List bcm_mpls_label_t) × bcm_if_t) : List HwCall :=
  [.mpls_tunnel_initiator_clear e.2,
   .l3_intf_delete { l3a_intf_id := e.2, l3a_flags := BCM_L3_WITH_ID }]

/-- The stats that the first ACL-stat loop leaves in `statsUsed`. -/
def claimedStats :
    List (BcmAclEntryHandle × AclStatStatus) → Finset BcmAclStatHandle →
      Finset BcmAclStatHandle
  | [], used => used
  | (_, status) :: rest, used =>
    if !status.claimed then claimedStats rest used
    else claimedStats rest (insert status.stat used)

/-- The detach calls of the first ACL-stat loop: one for each unclaimed entry. -/
def detachCalls (entries : List (BcmAclEntryHandle × AclStatStatus)) : List HwCall :=
  (entries.filter (fun e => !e.2.claimed)).map
    (fun e => HwCall.field_entry_stat_detach e.1 e.2.stat)

/-- The destroy calls of the second ACL-stat loop: the stat of each entry, unless
it is in `used` or was destroyed for an earlier entry. -/
def destroyCalls :
    List (BcmAclEntryHandle × AclStatStatus) → Finset BcmAclStatHandle → List HwCall
  | [], _ => []
  | (_, status) :: rest, used =>
    if status.stat ∉ used then
      HwCall.field_stat_destroy status.stat :: destroyCalls rest (insert status.stat used)
    else destroyCalls rest used

/-- The calls of a complete run of `clear()`, class by class in the order in
which `clear()` sweeps the classes. -/
def clearPlan (defaultVlan : bcm_vlan_t) (c : Cache) : List HwCall :=
  c.vrfPrefix2Route_.entries.map (fun e => HwCall.l3_route_delete e.2) ++
  (c.vrfAndIP2Route_.entries.map (fun e => HwCall.l3_route_delete e.2) ++
  (c.label2LabelActions_.entries.map (fun e => HwCall.mpls_tunnel_switch_delete e.2) ++
  (c.vrfIp2Host_.entries.map (fun e => HwCall.l3_host_delete e.2) ++
  (c.egressIds2Ecmp_.entries.map (fun e => HwCall.l3_egress_ecmp_destroy e.2) ++
  (c.egressId2Egress_.entries.map (fun e => HwCall.l3_egress_destroy e.1) ++
  (c.labelStackKey2TunnelId_.entries.flatMap tunnelCalls ++
  (c.vlanAndMac2Intf_.entries.map (fun e => HwCall.l3_intf_delete e.2) ++
  (c.vlan2Station_.entries.map (fun e => HwCall.l2_station_delete e.1) ++
  (HwCall.vlan_default_get ::
  ((c.vlan2VlanInfo_.entries.filter (fun e => decide (e.1 ≠ defaultVlan))).map
      (fun e => HwCall.vlan_destroy e.1) ++
  (detachCalls c.aclEntry2AclStat_.entries ++
  (destroyCalls c.aclEntry2AclStat_.entries (claimedStats c.aclEntry2AclStat_.entries ∅) ++
  c.priority2BcmAclEntryHandle_.entries.map
    (fun e => HwCall.field_entry_destroy e.2)))))))))))))

/-- The cache that a complete run of `clear()` leaves behind. -/
def clearPost (defaultVlan : bcm_vlan_t) (c : Cache) : Cache :=
  { c with
    dumpedSwSwitchState_ := none
    hwSwitchEcmp2EgressIds_ := FlatMap.empty
    vrfPrefix2Route_ := FlatMap.empty
    vrfAndIP2Route_ := FlatMap.empty
    label2LabelActions_ := FlatMap.empty
    vrfIp2Host_ := FlatMap.empty
    egressIds2Ecmp_ := FlatMap.empty
    egressId2Egress_ := FlatMap.empty
    labelStackKey2TunnelId_ := FlatMap.empty
    vlanAndMac2Intf_ := FlatMap.empty
    vlan2Station_ := FlatMap.empty
    vlan2VlanInfo_ := c.vlan2VlanInfo_.filter (fun e => decide (e.1 = defaultVlan))
    egressIdsInWarmBootFile_ := ∅
    vrfIp2EgressFromBcmHostInWarmBootFile_ := FlatMap.empty
    aclEntry2AclStat_ := FlatMap.empty
    priority2BcmAclEntryHandle_ := FlatMap.empty }

/-- The final checks of `clear()`: no mirrored port, mirrored ACL, mirror
destination, QoS key or QoS map is left in the cache. -/
def residualFree (c : Cache) : Prop :=
  c.mirroredPort2Handle_.size = 0 ∧ c.mirroredAcl2Handle_.size = 0 ∧
    c.mirrorEgressPath2Handle_.size = 0 ∧
    c.qosMapKey2QosMapId_.size + c.qosMapId2QosMap_.size = 0

instance (c : Cache) : Decidable (residualFree c) := by
  unfold residualFree
  infer_instance

/-- The five indices that `clear()` checks at its end are the same in both caches. -/
def sameResidual (c c2 : Cache) : Prop :=
  c2.mirroredPort2Handle_ = c.mirroredPort2Handle_ ∧
  c2.mirroredAcl2Handle_ = c.mirroredAcl2Handle_ ∧
  c2.mirrorEgressPath2Handle_ = c.mirrorEgressPath2Handle_ ∧
  c2.qosMapKey2QosMapId_ = c.qosMapKey2QosMapId_ ∧
  c2.qosMapId2QosMap_ = c.qosMapId2QosMap_

/-- A computation that, however it ends, leaves the five checked indices as
it found them. -/
def Keeps {α : Type} (m : HwM α) : Prop :=
  ∀ s : RunState, sameResidual s.cache (m s).2.cache

/-! ## Classes of calls and their order -/

def isRouteDelete : HwCall → Bool
  | .l3_route_delete _ => true
  | _ => false

def isLabelSwitchDelete : HwCall → Bool
  | .mpls_tunnel_switch_delete _ => true
  | _ => false

def isHostDelete : HwCall → Bool
  | .l3_host_delete _ => true
  | _ => false

def isEcmpDestroy : HwCall → Bool
  | .l3_egress_ecmp_destroy _ => true
  | _ => false

def isEgressDestroy : HwCall → Bool
  | .l3_egress_destroy _ => true
  | _ => false

def isTunnelClear : HwCall → Bool
  | .mpls_tunnel_initiator_clear _ => true
  | _ => false

def isIntfDelete : HwCall → Bool
  | .l3_intf_delete _ => true
  | _ => false

def isStationDelete : HwCall → Bool
  | .l2_station_delete _ => true
  | _ => false

/-- The query for the default VLAN. -/
def isVlanDefaultGet : HwCall → Bool
  | .vlan_default_get => true
  | _ => false

def isVlanDestroy : HwCall → Bool
  | .vlan_destroy _ => true
  | _ => false

def isStatDetach : HwCall → Bool
  | .field_entry_stat_detach _ _ => true
  | _ => false

def isStatDestroy : HwCall → Bool
  | .field_stat_destroy _ => true
  | _ => false

def isAclDestroy : HwCall → Bool
  | .field_entry_destroy _ => true
  | _ => false

/-- In the trace, every call of class `P` is issued before every call of class `Q`. -/
def Precedes (tr : Trace) (P Q : HwCall → Bool) : Prop :=
  ∀ (i j : Nat) (a b : HwCall),
    tr[i]? = some a → tr[j]? = some b → P a = true → Q b = true → i < j

/-- No call of class `P` in the trace failed: each was answered with a return
code that is not a failure, given the calls issued before it. -/
def NoFailure (hw : Hw) (P : HwCall → Bool) (tr : Trace) : Prop :=
  ∀ (pre : Trace) (call : HwCall), pre ++ [call] <+: tr → P call = true → 0 ≤ hw.rv pre call

/-- The position of the class of a call in the sweep of `clear()`. -/
def sweepRank : HwCall → Nat
  | .l3_route_delete _ => 0
  | .mpls_tunnel_switch_delete _ => 1
  | .l3_host_delete _ => 2
  | .l3_egress_ecmp_destroy _ => 3
  | .l3_egress_destroy _ => 4
  | .mpls_tunnel_initiator_clear _ => 5
  | .l3_intf_delete _ => 5
  | .l2_station_delete _ => 6
  | .vlan_default_get => 7
  | .vlan_destroy _ => 8
  | .field_entry_stat_detach _ _ => 9
  | .field_stat_destroy _ => 10
  | .field_entry_destroy _ => 11

/-- A list of calls of rank at least `r`, in non-decreasing rank order. -/
def RankSorted (r : Nat) (l : List HwCall) : Prop :=
  (∀ x ∈ l, r ≤ sweepRank x) ∧ l.Pairwise (fun a b => sweepRank a ≤ sweepRank b)

/-! ## Sample caches -/

/-- A cache with entries in every swept index: VLAN 1 is the default VLAN of
`hwOk`, stat 7 is shared by two unclaimed ACL entries, stat 8 is shared by a
claimed and an unclaimed ACL entry, stat 9 belongs to one unclaimed entry. -/
def sampleCache : Cache :=
  { vrfPrefix2Route_ := ⟨[((0, .v4 167772160, .v4 4294967040), { l3a_subnet := 167772160 })],
      by decide⟩
    vrfAndIP2Route_ := ⟨[((0, .v4 167772161), { l3a_subnet := 167772161 })], by decide⟩
    vrfIp2Host_ := ⟨[((0, .v4 167772162), { l3a_ip_addr := 167772162, l3a_intf := 100002 })],
      by decide⟩
    egressIds2Ecmp_ := ⟨[({100002, 100003}, { ecmp_intf := 200000 })], by decide⟩
    egressId2Egress_ := ⟨[(100002, { intf := 3 }), (100003, { intf := 4 })], by decide⟩
    label2LabelActions_ := ⟨[(1001, { label := 1001 })], by decide⟩
    labelStackKey2TunnelId_ := ⟨[((5, [2001, 2002]), 77)], by decide⟩
    vlanAndMac2Intf_ := ⟨[((5, 2), { l3a_vid := 5, l3a_intf_id := 3, l3a_mac_addr := 2 })],
      by decide⟩
    vlan2Station_ := ⟨[(5, { vlan := 5 })], by decide⟩
    vlan2VlanInfo_ := ⟨[(1, ⟨1, 0, 0⟩), (5, ⟨5, 6, 6⟩), (6, ⟨6, 0, 0⟩)], by decide⟩
    aclEntry2AclStat_ := ⟨[(10, ⟨7, false⟩), (11, ⟨7, false⟩), (12, ⟨8, true⟩), (13, ⟨8, false⟩),
      (14, ⟨9, false⟩)], by decide⟩
    priority2BcmAclEntryHandle_ := ⟨[(1, 10), (2, 11), (3, 12), (4, 13), (5, 14)], by decide⟩ }

/-- A cache in which a mirrored port was left unclaimed. -/
def mirrorLeftCache : Cache :=
  { mirroredPort2Handle_ := ⟨[((5, 1), 9)], by decide⟩ }

/-- A cache after the scan visited ECMP object 200000: the warm-boot file binds the
ECMP ids 200000 and 200001 to the same member set, and the ECMP index already
holds the object 200000 under that set. -/
def sharedMembersCache : Cache :=
  { hwSwitchEcmp2EgressIds_ :=
      ⟨[(200000, {100002, 100003}), (200001, {100002, 100003})], by decide⟩
    egressIds2Ecmp_ := ⟨[({100002, 100003}, { ecmp_intf := 200000 })], by decide⟩ }

/-- A cache whose warm-boot file binds the ECMP id 200256 and no other, before
the scan of the ECMP objects. -/
def oneEcmpCache : Cache :=
  { hwSwitchEcmp2EgressIds_ := ⟨[(200256, {100002, 100003})], by decide⟩ }

/-- A platform that keeps host routes in the host table. -/
def samplePlatform : Platform :=
  { canUseHostTableForHostRoutes := true, getMaxLabelStackDepth := 10 }

/-- A hardware without MPLS tunnels and without ACL stats. -/
def sampleQuery : HwQuery :=
  { bcm_mpls_tunnel_initiator_get := fun _ _ => (BCM_E_NOT_FOUND, [], 0)
    bcm_l3_intf_get := fun intf => (0, intf)
    bcm_field_entry_stat_get := fun _ => (BCM_E_NOT_FOUND, 0) }

/-- The link-local address `fe80::1`. -/
def linkLocalAddress : IPAddress := .v6 (1018 * 2 ^ 118 + 1)

/-- A warm-boot file with the v4 host 10.0.0.1, the link-local host `fe80::1` on
the interface 7, and one ECMP object. -/
def sampleState : WarmBootState :=
  { hosts :=
      [{ egressId := 100002, ip := .v4 167772161, vrf := 0, egress := some (some 5) },
       { egressId := 100003, ip := linkLocalAddress, vrf := 0, egress := some (some 7) }]
    warmBootCache :=
      { ecmpObjects := [{ ecmpEgressId := 200256, paths := [100002, 100003] }] } }

/-- The cache that the restore of `sampleState` leaves. -/
def restoredCache : Cache :=
  { dumpedSwSwitchState_ := some 0
    hwSwitchEcmp2EgressIds_ := ⟨[(200256, {100003, 100002})], by decide⟩
    egressIdsInWarmBootFile_ := {100003, 100002}
    vrfIp2EgressFromBcmHostInWarmBootFile_ :=
      ⟨[((0, .v4 167772161, none), 100002), ((0, linkLocalAddress, some 7), 100003)],
        by decide⟩ }

/-- An egress object that discards. -/
def dropEgress : bcm_l3_egress_t := { flags := BCM_L3_DST_DISCARD }

/-- An egress object that punts to the CPU. -/
def cpuEgress : bcm_l3_egress_t := { flags := BCM_L3_L2TOCPU }

/-- The cache that the scan of the egress objects 100000 (drop), 100002 and
100003 (of the snapshot) and 100001 (to CPU) leaves from `restoredCache`. -/
def scannedCache : Cache :=
  { restoredCache with
    egressId2Egress_ := ⟨[(100002, { intf := 3 }), (100003, { intf := 7 })], by decide⟩
    dropEgressId_ := 100000
    toCPUEgressId_ := 100001 }

/-- The egress objects that the sample hardware lists. -/
def sampleEgresses : List (EgressId × bcm_l3_egress_t) :=
  [(100000, dropEgress), (100002, { intf := 3 }), (100003, { intf := 7 }),
    (100001, cpuEgress)]

/-- A cache that holds the RTAG7 switch control 5 of module A with value 1. -/
def rtag7Cache : Cache :=
  { moduleAState_ := ⟨[(5, 1)], by decide⟩ }

/-- A cache whose ACL entry 10 carries the stat 7, unclaimed. -/
def aclStatCache : Cache :=
  { aclEntry2AclStat_ := ⟨[(10, { stat := 7, claimed := false })], by decide⟩ }

/-- A cache whose ECMP member map binds the id 200256 to the empty member set
and the id 200257 to one member. -/
def emptyMemberCache : Cache :=
  { hwSwitchEcmp2EgressIds_ := ⟨[(200256, ∅), (200257, {100002})], by decide⟩ }

/-- A cache whose ECMP member map binds the ids 200256 and 200257 to the same two
members. -/
def twoEcmpCache : Cache :=
  { hwSwitchEcmp2EgressIds_ :=
      ⟨[(200256, {100002, 100003}), (200257, {100002, 100003})], by decide⟩ }

/-- A hardware whose ports 1 and 2 report the learn flags 0 and `ARL | FWD`. -/
def zeroFirstPorts : HwPortQuery :=
  { ports := [1, 2]
    bcm_port_learn_get := fun port =>
      if port = 1 then (0, 0) else (0, BCM_PORT_LEARN_ARL ||| BCM_PORT_LEARN_FWD) }

/-- A hardware whose ports 1 and 2 report the learn flags `ARL | FWD` and 0. -/
def zeroLastPorts : HwPortQuery :=
  { ports := [1, 2]
    bcm_port_learn_get := fun port =>
      if port = 1 then (0, BCM_PORT_LEARN_ARL ||| BCM_PORT_LEARN_FWD) else (0, 0) }

/-- A hardware whose mirror destination 9 is an sFlow mirror and no other. -/
def sflowQuery : HwMirrorQuery :=
  { bcm_mirror_destination_get := fun handle => if handle = 9 then (0, 1) else (0, 0)
    BCM_MIRROR_DEST_TUNNEL_SFLOW := 1 }

/-- A cache whose ports 5 and 6 are mirrored to the destination 9 with the flags 1,
and whose port 7 is mirrored to the destination 9 with the flags 2 and to the
destination 4 with the flags 1. -/
def mirroredPortsCache : Cache :=
  { mirroredPort2Handle_ := ⟨[((5, 1), 9), ((6, 1), 9), ((7, 2), 9), ((7, 1), 4)], by decide⟩ }

/-- A hardware whose field group holds the entries 10 and 11, both with the
priority 5 and without stat or mirror. -/
def samePriorityQuery : HwFieldQuery :=
  { sampleQuery with
    bcm_field_entry_multi_get := fun _ _ => (0, [10, 11], 2)
    bcm_field_entry_prio_get := fun _ => (0, 5)
    bcm_field_action_get := fun _ _ => (0, 0) }

/-- A software QoS policy with two DSCP rules, one of them listed twice. -/
def samplePolicy : QosPolicy :=
  { getName := "policy", dscpMapFrom := [(0, 10), (1, 20), (0, 10)] }

/-- A cache whose snapshot binds the ingress IP map of `samplePolicy` to the map
id 3, with the scanned map 3 holding the two rules of the policy. -/
def qosCache : Cache :=
  { qosMapKey2QosMapId_ := ⟨[(("policy", BcmQosMapType.IP_INGRESS), 3)], by decide⟩
    qosMapId2QosMap_ :=
      ⟨[(3, { flags := 0, handle := 3, rules := [(0, 10), (1, 20)] })], by decide⟩ }

/-- The cache `qosCache` with a third rule in the scanned map 3. -/
def qosExtraRuleCache : Cache :=
  { qosMapKey2QosMapId_ := ⟨[(("policy", BcmQosMapType.IP_INGRESS), 3)], by decide⟩
    qosMapId2QosMap_ :=
      ⟨[(3, { flags := 0, handle := 3, rules := [(0, 10), (1, 20), (2, 30)] })], by decide⟩ }

/-- A warm-boot file that lists the ECMP id 200256 in both sections, the ECMP id
200257 in the ECMP-object section, and an ECMP-host record with the invalid
id. -/
def ecmpState : WarmBootState :=
  { ecmpHosts :=
      [{ ecmpEgressId := 200256, paths := [100002] },
       { ecmpEgressId := INVALID, paths := [100009] }]
    warmBootCache :=
      { ecmpObjects :=
          [{ ecmpEgressId := 200256, paths := [100003] },
           { ecmpEgressId := 200257, paths := [100002, 100003] }] } }

/-- The cache that the restore of `ecmpState` leaves. -/
def ecmpRestoredCache : Cache :=
  { dumpedSwSwitchState_ := some 0
    hwSwitchEcmp2EgressIds_ :=
      ⟨[(200256, {100003, 100002}), (200257, {100003, 100002})], by decide⟩ }

end BcmWarmBootCache

namespace BcmPortIngressBufferManager

open BcmWarmBootCache (Failure BCM_FAILURE)

/-! ## The ingress buffer manager of a port -/

/-- The controls of `bcm_cosq_control_t` that programming a priority group
writes. -/
inductive bcm_cosq_control_t where
  | bcmCosqControlIngressPortPGSharedDynamicEnable
  | bcmCosqControlDropLimitAlpha
  | bcmCosqControlIngressPortPGMinLimitBytes
  | bcmCosqControlIngressPortPGHeadroomLimitBytes
  | bcmCosqControlIngressPortPGResetOffsetBytes
deriving DecidableEq, Repr

/-- The value of `cfg::MMUScalingFactor`. -/
abbrev MMUScalingFactor := Int

/-- The fields of `PortPgConfig` that programming a priority group reads. -/
structure PortPgConfig where
  getID : Int
  getScalingFactor : Option MMUScalingFactor := none
  getMinLimitBytes : Int := 0
  getHeadroomLimitBytes : Option Int := none
  getResumeOffsetBytes : Option Int := none
deriving DecidableEq, Repr

/-- The part of `Port` that the manager reads: `getPortPgConfigs()`, an optional
list of priority-group configs. -/
structure Port where
  getPortPgConfigs : Option (List PortPgConfig) := none
deriving DecidableEq, Repr

/-- The arguments of one call of `bcm_cosq_control_set` (the unit and the port
are fixed and left out). -/
structure CosqWrite where
  cosq : Int
  type : bcm_cosq_control_t
  value : Int
deriving DecidableEq, Repr

/-- The set type `PgIdSet` (`std::set<int>`). -/
abbrev PgIdSet := Finset Int

/-- The iteration of a `PgIdSet`: its elements in ascending order. -/
def PgIdSet.elements (s : PgIdSet) : List Int := s.sort (· ≤ ·)

/-- What the manager calls and is not in this file: the status that
`bcm_cosq_control_set` returns for a write, given the writes done before it, the
default settings of the platform (`getDefaultPgSettings()`), and the conversion
`utility::cfgAlphaToBcmAlpha`. -/
structure Hw where
  bcm_cosq_control_set : List CosqWrite → CosqWrite → Int
  getDefaultPgSettings : PortPgConfig
  cfgAlphaToBcmAlpha : MMUScalingFactor → Int

/-- The state of the manager and of the hardware of its port: the member
`pgIdListInHw_` and the writes that the hardware accepted, oldest first. -/
structure State where
  pgIdListInHw_ : PgIdSet := ∅
  writes : List CosqWrite := []
deriving DecidableEq

/-- The C++ `writeCosqTypeToHw`: one call of `bcm_cosq_control_set`, whose
failure status `bcmCheckError` throws. -/
def writeCosqTypeToHw (hw : Hw) (cosq : Int) (type : bcm_cosq_control_t) (value : Int)
    (s : State) : Except Failure State :=
  let rv := hw.bcm_cosq_control_set s.writes ⟨cosq, type, value⟩
  if BCM_FAILURE rv then .error (.BcmError rv)
  else .ok { s with writes := s.writes ++ [⟨cosq, type, value⟩] }

/-- The C++ `programPg`. The alpha is written when `sharedDynamicEnable` is set,
that is, when the config has a scaling factor. -/
def programPg (hw : Hw) (portPgCfg : PortPgConfig) (cosq : Int) (s : State) :
    Except Failure State := do
  let scalingFactor := portPgCfg.getScalingFactor
  let sharedDynamicEnable : Int := if scalingFactor.isSome then 1 else 0
  let s ← writeCosqTypeToHw hw cosq
    .bcmCosqControlIngressPortPGSharedDynamicEnable sharedDynamicEnable s
  let s ← match scalingFactor with
    | some factor =>
      writeCosqTypeToHw hw cosq .bcmCosqControlDropLimitAlpha (hw.cfgAlphaToBcmAlpha factor) s
    | none => pure s
  let pgMinLimitBytes := portPgCfg.getMinLimitBytes
  let s ← writeCosqTypeToHw hw cosq .bcmCosqControlIngressPortPGMinLimitBytes pgMinLimitBytes s
  let headroomBytes := match portPgCfg.getHeadroomLimitBytes with
    | some hdrmBytes => hdrmBytes
    | none => 0
  let s ← writeCosqTypeToHw hw cosq
    .bcmCosqControlIngressPortPGHeadroomLimitBytes headroomBytes s
  match portPgCfg.getResumeOffsetBytes with
  | some resumeBytes =>
    writeCosqTypeToHw hw cosq .bcmCosqControlIngressPortPGResetOffsetBytes resumeBytes s
  | none => pure s

/-- The C++ `resetPgToDefault`. -/
def resetPgToDefault (hw : Hw) (pgId : Int) (s : State) : Except Failure State :=
  programPg hw hw.getDefaultPgSettings pgId s

/-- The loop `for (pgId : list) resetPgToDefault(pgId)`. -/
def resetLoop (hw : Hw) : List Int → State → Except Failure State
  | [], s => .ok s
  | pgId :: rest, s => do
    let s ← resetPgToDefault hw pgId s
    resetLoop hw rest s

/-- The C++ `resetPgsToDefault`. -/
def resetPgsToDefault (hw : Hw) (s : State) : Except Failure State := do
  let pgIdList := s.pgIdListInHw_
  let s ← resetLoop hw (PgIdSet.elements pgIdList) s
  pure { s with pgIdListInHw_ := ∅ }

/-- The loop of `reprogramPgs` over the configs: each one is programmed on the
priority group of its id, and the id joins `newPgList`. -/
def programLoop (hw : Hw) : List PortPgConfig → PgIdSet → State → Except Failure (PgIdSet × State)
  | [], newPgList, s => .ok (newPgList, s)
  | portPgCfg :: rest, newPgList, s => do
    let s ← programPg hw portPgCfg portPgCfg.getID s
    programLoop hw rest (insert portPgCfg.getID newPgList) s

/-- The C++ `reprogramPgs`. -/
def reprogramPgs (hw : Hw) (port : Port) (s : State) : Except Failure State := do
  let pgIdList := s.pgIdListInHw_
  match port.getPortPgConfigs with
  | some portPgCfgs =>
    let (newPgList, s) ← programLoop hw portPgCfgs ∅ s
    let resetPgList : PgIdSet := pgIdList \ newPgList
    let s ← resetLoop hw (PgIdSet.elements resetPgList) s
    pure { s with pgIdListInHw_ := newPgList }
  | none => pure { s with pgIdListInHw_ := ∅ }

/-- The C++ `programIngressBuffers`. -/
def programIngressBuffers (hw : Hw) (port : Port) (s : State) : Except Failure State :=
  let pgIdList := s.pgIdListInHw_
  let portPgCfgs := port.getPortPgConfigs
  if portPgCfgs.isNone && decide (pgIdList.card = 0) then .ok s
  else if portPgCfgs.isNone then resetPgsToDefault hw s
  else reprogramPgs hw port s

/-! ### What programming means -/

/-- The writes that program the settings `cfg` on the priority group `cosq`:
the dynamic sharing switch, the alpha when the config has a scaling factor, the
minimum limit, the headroom limit (0 when the config has none), and the resume
offset when the config has one. -/
def settingsWrites (hw : Hw) (cfg : PortPgConfig) (cosq : Int) : List CosqWrite :=
  [⟨cosq, .bcmCosqControlIngressPortPGSharedDynamicEnable,
      if cfg.getScalingFactor = none then 0 else 1⟩] ++
  (cfg.getScalingFactor.toList.map fun factor =>
    ⟨cosq, .bcmCosqControlDropLimitAlpha, hw.cfgAlphaToBcmAlpha factor⟩) ++
  [⟨cosq, .bcmCosqControlIngressPortPGMinLimitBytes, cfg.getMinLimitBytes⟩,
   ⟨cosq, .bcmCosqControlIngressPortPGHeadroomLimitBytes, cfg.getHeadroomLimitBytes.getD 0⟩] ++
  (cfg.getResumeOffsetBytes.toList.map fun resumeBytes =>
    ⟨cosq, .bcmCosqControlIngressPortPGResetOffsetBytes, resumeBytes⟩)

/-- The id set of a list of configs. -/
def idSet (cfgs : List PortPgConfig) : PgIdSet := (cfgs.map (·.getID)).toFinset

/-- No write fails: `bcm_cosq_control_set` never returns a failure status. -/
def Hw.WritesSucceed (hw : Hw) : Prop :=
  ∀ (done : List CosqWrite) (w : CosqWrite), BCM_FAILURE (hw.bcm_cosq_control_set done w) = false

/-- A sample hardware: every write succeeds, the default settings have the
scaling factor 8 and the limits 0. -/
def samplePgHw : Hw :=
  { bcm_cosq_control_set := fun _ _ => 0
    getDefaultPgSettings :=
      { getID := 0, getScalingFactor := some 8, getMinLimitBytes := 0,
        getHeadroomLimitBytes := some 0, getResumeOffsetBytes := some 0 }
    cfgAlphaToBcmAlpha := fun factor => factor + 1 }

/-- A sample port with configs for the priority groups 1 and 3. -/
def samplePgPort : Port :=
  { getPortPgConfigs := some
      [{ getID := 1, getScalingFactor := some 2, getMinLimitBytes := 100 },
       { getID := 3, getMinLimitBytes := 200, getHeadroomLimitBytes := some 50,
         getResumeOffsetBytes := some 10 }] }

/-- A sample state: the priority groups 1 and 2 are programmed, no write was
done yet. -/
def samplePgState : State := { pgIdListInHw_ := {1, 2} }

end BcmPortIngressBufferManager

namespace SaiMirrorManager

open BcmWarmBootCache (FlatMap IPAddress MacAddress)

/-! ## The SAI mirror manager -/

abbrev PortID := Nat
abbrev PortSaiId := Nat
abbrev MirrorSaiId := Nat

/-- The UDP ports of an sflow tunnel (`TunnelUdpPorts`). -/
structure TunnelUdpPorts where
  udpSrcPort : Nat
  udpDstPort : Nat
deriving DecidableEq, Repr

/-- The tunnel of a mirror (`MirrorTunnel`). -/
structure MirrorTunnel where
  srcIp : IPAddress
  dstIp : IPAddress
  srcMac : MacAddress
  dstMac : MacAddress
  udpPorts : Option TunnelUdpPorts := none
  ttl : Nat := 255
  greProtocol : Nat := 0
deriving DecidableEq, Repr

/-- The part of the state node `Mirror` that the manager reads. -/
structure Mirror where
  getID : String
  getEgressPort : Option PortID := none
  getMirrorTunnel : Option MirrorTunnel := none
  getDscp : Nat := 0
deriving DecidableEq, Repr

/-- The create attributes of the three kinds of mirror session. -/
inductive CreateAttributes where
  /-- The session type `SAI_MIRROR_SESSION_TYPE_LOCAL`. -/
  | localMirror (monitorPort : PortSaiId)
  /-- The session type `SAI_MIRROR_SESSION_TYPE_ENHANCED_REMOTE`, with the
  encapsulation `SAI_ERSPAN_ENCAPSULATION_TYPE_MIRROR_L3_GRE_TUNNEL`. -/
  | enhancedRemoteMirror (monitorPort : PortSaiId) (dscp : Nat) (srcIp dstIp : IPAddress)
      (srcMac dstMac : MacAddress) (greProtocol ttl truncateSize : Nat)
  /-- The session type `SAI_MIRROR_SESSION_TYPE_SFLOW`. -/
  | sflowMirror (monitorPort : PortSaiId) (dscp : Nat) (srcIp dstIp : IPAddress)
      (srcMac dstMac : MacAddress) (udpSrcPort udpDstPort ttl : Nat)
deriving DecidableEq, Repr

/-- A mirror session object of the store (`SaiMirrorHandle::SaiMirror`). -/
structure SaiMirror where
  attributes : CreateAttributes
  adapterKey : MirrorSaiId
deriving DecidableEq, Repr

/-- The C++ `SaiMirrorHandle`. -/
structure SaiMirrorHandle where
  mirror : SaiMirror
deriving DecidableEq, Repr

/-- How a member function of the manager can end other than by returning. -/
inductive SaiFailure where
  /-- The C++ exception `FbossError`. -/
  | FbossError
  /-- The C++ exception `std::bad_optional_access`, thrown by `value()` on an
  empty optional. -/
  | bad_optional_access
  /-- An exception of the object store, with the status of the SAI call. -/
  | SaiApiError (status : Int)
  /-- Process abort through `XLOG(FATAL)`. -/
  | Fatal
deriving DecidableEq, Repr

/-- What the manager calls and is not in this file: the port manager
(`getPortHandle`, here the adapter key of the port of the handle, `none` for a
null handle), `setObject` of the object store, which returns the adapter key of
the session or throws, and whether the SAI version has sflow sessions
(`SAI_API_VERSION >= SAI_VERSION(1, 7, 0)`). -/
structure SaiEnv where
  getPortHandle : PortID → Option PortSaiId
  setObject : CreateAttributes → Except SaiFailure MirrorSaiId
  sflowSupported : Bool := true

/-- The state of the manager: the member `mirrorHandles_`, from the mirror id
to an owning pointer to the handle (`none` is the null pointer). -/
structure State where
  mirrorHandles_ : FlatMap String (Option SaiMirrorHandle) := {}
deriving DecidableEq

/-- The store call of the three `addMirror*` functions. -/
def storeSetObject (env : SaiEnv) (attributes : CreateAttributes) : Except SaiFailure SaiMirror :=
  match env.setObject attributes with
  | .ok adapterKey => .ok { attributes := attributes, adapterKey := adapterKey }
  | .error e => .error e

/-- The C++ `addMirrorSpan`. -/
def addMirrorSpan (env : SaiEnv) (monitorPort : PortSaiId) : Except SaiFailure SaiMirror :=
  storeSetObject env (.localMirror monitorPort)

/-- The C++ `addMirrorErSpan`. -/
def addMirrorErSpan (env : SaiEnv) (mirror : Mirror) (monitorPort : PortSaiId) :
    Except SaiFailure SaiMirror :=
  match mirror.getMirrorTunnel with
  | none => .error .bad_optional_access
  | some mirrorTunnel =>
    storeSetObject env
      (.enhancedRemoteMirror monitorPort mirror.getDscp mirrorTunnel.srcIp mirrorTunnel.dstIp
        mirrorTunnel.srcMac mirrorTunnel.dstMac mirrorTunnel.greProtocol mirrorTunnel.ttl 0)

/-- The C++ `addMirrorSflow`. -/
def addMirrorSflow (env : SaiEnv) (mirror : Mirror) (monitorPort : PortSaiId) :
    Except SaiFailure SaiMirror :=
  match mirror.getMirrorTunnel with
  | none => .error .bad_optional_access
  | some mirrorTunnel =>
    match mirrorTunnel.udpPorts with
    | none => .error .bad_optional_access
    | some udpPorts =>
      storeSetObject env
        (.sflowMirror monitorPort mirror.getDscp mirrorTunnel.srcIp mirrorTunnel.dstIp
          mirrorTunnel.srcMac mirrorTunnel.dstMac udpPorts.udpSrcPort udpPorts.udpDstPort
          mirrorTunnel.ttl)

/-- The branch of `addMirror` on the tunnel of the mirror, which creates the
session: an sflow session when the tunnel has UDP ports (an `FbossError` when
the SAI version has none), an enhanced remote session for another tunnel, a
local session without tunnel. -/
def addMirrorSession (env : SaiEnv) (mirror : Mirror) (monitorPort : PortSaiId) :
    Except SaiFailure SaiMirror :=
  match mirror.getMirrorTunnel with
  | some mirrorTunnel =>
    if mirrorTunnel.udpPorts.isSome then
      if env.sflowSupported then addMirrorSflow env mirror monitorPort
      else .error .FbossError
    else addMirrorErSpan env mirror monitorPort
  | none => addMirrorSpan env monitorPort

/-- The C++ `addMirror`: how the call ends, and the state it leaves. -/
def addMirror (env : SaiEnv) (mirror : Mirror) (m : State) : Except SaiFailure Unit × State :=
  match m.mirrorHandles_.find mirror.getID with
  | some _ => (.error .FbossError, m)
  | none =>
    match mirror.getEgressPort with
    | none => (.error .bad_optional_access, m)
    | some egressPort =>
      match env.getPortHandle egressPort with
      | none => (.error .FbossError, m)
      | some monitorPort =>
        match addMirrorSession env mirror monitorPort with
        | .error e => (.error e, m)
        | .ok saiMirror =>
          (.ok (),
            { m with
              mirrorHandles_ := m.mirrorHandles_.emplace mirror.getID (some ⟨saiMirror⟩) })

/-- The C++ `removeMirror`. -/
def removeMirror (mirror : Mirror) (m : State) : Except SaiFailure Unit × State :=
  match m.mirrorHandles_.find mirror.getID with
  | none => (.error .FbossError, m)
  | some _ => (.ok (), { m with mirrorHandles_ := m.mirrorHandles_.erase mirror.getID })

/-- The C++ `changeMirror`: `removeMirror(oldMirror)`, then `addMirror(newMirror)`
when the removal returned. -/
def changeMirror (env : SaiEnv) (oldMirror newMirror : Mirror) (m : State) :
    Except SaiFailure Unit × State :=
  match removeMirror oldMirror m with
  | (.error e, m1) => (.error e, m1)
  | (.ok (), m1) => addMirror env newMirror m1

/-- The C++ `getMirrorHandleImpl`: `none` is the null pointer. -/
def getMirrorHandleImpl (mirrorId : String) (m : State) :
    Except SaiFailure (Option SaiMirrorHandle) :=
  match m.mirrorHandles_.find mirrorId with
  | none => .ok none
  | some none => .error .Fatal
  | some (some handle) => .ok (some handle)

/-- The C++ `getMirrorHandle`. -/
def getMirrorHandle (mirrorId : String) (m : State) :
    Except SaiFailure (Option SaiMirrorHandle) :=
  getMirrorHandleImpl mirrorId m

/-- A sample environment: the ports 1 and 2 have a handle, the store creates
every session. -/
def sampleEnv : SaiEnv :=
  { getPortHandle := fun port => if port = 1 ∨ port = 2 then some (port + 100) else none
    setObject := fun _ => .ok 7 }

/-- A sample local mirror to the port 1. -/
def sampleMirror : Mirror := { getID := "mirror0", getEgressPort := some 1 }

/-- The sample mirror moved to the port 9, which has no handle. -/
def sampleMirrorNoHandle : Mirror := { getID := "mirror0", getEgressPort := some 9 }

/-- The state of the manager that holds the sample mirror. -/
def sampleMirrors : State :=
  { mirrorHandles_ :=
      ⟨[("mirror0", some ⟨{ attributes := .localMirror 101, adapterKey := 7 }⟩)], by decide⟩ }

end SaiMirrorManager

namespace BcmWarmBootCache

open HwM

/-! ## Reasoning about runs -/

theorem Phase.congr {α : Type} {hw : Hw} {m : HwM α} {p p2 : Cache → List HwCall}
    {f f2 : Cache → Cache} {ck ck2 : Cache → Prop} {v v2 : Cache → α}
    (h : Phase hw m p f ck v) (hp : ∀ c, p c = p2 c) (hf : ∀ c, f c = f2 c)
    (hc : ∀ c, ck c ↔ ck2 c) (hv : ∀ c, v c = v2 c) : Phase hw m p2 f2 ck2 v2 := by
  have e1 : p = p2 := funext hp
  have e2 : f = f2 := funext hf
  have e3 : ck = ck2 := funext (fun c => propext (hc c))
  have e4 : v = v2 := funext hv
  subst e1 e2 e3 e4
  exact h

theorem Phase.bind {α β : Type} {hw : Hw} {m : HwM α} {k : α → HwM β}
    {p1 : Cache → List HwCall} {f1 : Cache → Cache} {c1 : Cache → Prop} {v1 : Cache → α}
    {p2 : α → Cache → List HwCall} {f2 : α → Cache → Cache} {c2 : α → Cache → Prop}
    {v2 : α → Cache → β}
    (h1 : Phase hw m p1 f1 c1 v1) (h2 : ∀ a, Phase hw (k a) (p2 a) (f2 a) (c2 a) (v2 a)) :
    Phase hw (HwM.andThen m k) (fun c => p1 c ++ p2 (v1 c) (f1 c)) (fun c => f2 (v1 c) (f1 c))
      (fun c => c1 c ∧ c2 (v1 c) (f1 c)) (fun c => v2 (v1 c) (f1 c)) := by
  intro s
  obtain ⟨t1, ht1, hp1, hm1⟩ := h1 s
  unfold HwM.andThen
  rcases hms : m s with ⟨r, s1⟩
  rw [hms] at ht1 hm1
  cases r with
  | error e =>
    refine ⟨t1, ht1, hp1.trans (List.prefix_append _ _), ?_⟩
    simp only at hm1 ⊢
    rcases hm1 with hm1 | ⟨he, hck⟩
    · exact Or.inl hm1
    · exact Or.inr ⟨he, fun hh => hck hh.1⟩
  | ok a =>
    simp only at hm1 ht1 ⊢
    obtain ⟨e1, e2, e3, e4⟩ := hm1
    obtain ⟨t2, ht2, hp2, hm2⟩ := h2 a s1
    subst e4
    rw [e2] at hp2 hm2
    refine ⟨p1 s.cache ++ t2, ?_, ?_, ?_⟩
    · rw [ht2, ht1, e1, List.append_assoc]
    · exact (List.prefix_append_right_inj _).2 hp2
    · rcases hr : (k (v1 s.cache) s1).1 with e | b
      · rw [hr] at hm2
        simp only at hm2 ⊢
        rcases hm2 with ⟨hw1, pre, call, hpre, hrv⟩ | ⟨he, hck⟩
        · refine Or.inl ⟨hw1, p1 s.cache ++ pre, call, ?_, ?_⟩
          · rw [hpre, List.append_assoc]
          · rw [ht1, e1, List.append_assoc] at hrv
            exact hrv
        · exact Or.inr ⟨he, fun hh => hck hh.2⟩
      · rw [hr] at hm2
        simp only at hm2 ⊢
        obtain ⟨g1, g2, g3, g4⟩ := hm2
        exact ⟨by rw [g1], g2, ⟨e3, g3⟩, g4⟩

theorem phase_ret {α : Type} (hw : Hw) (a : α) :
    Phase hw (HwM.ret a) (fun _ => []) (fun c => c) (fun _ => True) (fun _ => a) := by
  intro s
  exact ⟨[], by simp [HwM.ret], by simp, by simp [HwM.ret]⟩

theorem phase_getCache (hw : Hw) :
    Phase hw getCache (fun _ => []) (fun c => c) (fun _ => True) (fun c => c) := by
  intro s
  exact ⟨[], by simp [getCache], by simp, by simp [getCache]⟩

theorem phase_modifyCache (hw : Hw) (f : Cache → Cache) :
    Phase hw (modifyCache f) (fun _ => []) f (fun _ => True) (fun _ => ()) := by
  intro s
  exact ⟨[], by simp [modifyCache], by simp, by simp [modifyCache]⟩

theorem phase_CHECK (hw : Hw) (b : Bool) :
    Phase hw (CHECK b) (fun _ => []) (fun c => c) (fun _ => b = true) (fun _ => ()) := by
  intro s
  refine ⟨[], ?_, by simp, ?_⟩
  · cases b <;> simp [CHECK, HwM.fail, HwM.ret, pure]
  · cases b <;> simp [CHECK, HwM.fail, HwM.ret, pure]

theorem phase_call_bcmLogFatal (hw : Hw) (call : HwCall) :
    Phase hw (HwM.andThen (hwCall hw call) (fun rv => bcmLogFatal rv))
      (fun _ => [call]) (fun c => c) (fun _ => True) (fun _ => ()) := by
  intro s
  refine ⟨[call], ?_, by simp, ?_⟩
  · by_cases h : hw.rv s.trace call < 0 <;>
      simp [HwM.andThen, hwCall, bcmLogFatal, BCM_FAILURE, h, HwM.fail, HwM.ret, pure]
  · by_cases h : hw.rv s.trace call < 0
    · simp only [HwM.andThen, hwCall, bcmLogFatal, BCM_FAILURE, h, HwM.fail, decide_True,
        if_true]
      exact Or.inl ⟨rfl, [], call, rfl, by simpa using h⟩
    · simp [HwM.andThen, hwCall, bcmLogFatal, BCM_FAILURE, h, HwM.ret, pure]

theorem phase_call_bcmCheckError (hw : Hw) (call : HwCall) :
    Phase hw (HwM.andThen (hwCall hw call) (fun rv => bcmCheckError rv))
      (fun _ => [call]) (fun c => c) (fun _ => True) (fun _ => ()) := by
  intro s
  refine ⟨[call], ?_, by simp, ?_⟩
  · by_cases h : hw.rv s.trace call < 0 <;>
      simp [HwM.andThen, hwCall, bcmCheckError, BCM_FAILURE, h, HwM.fail, HwM.ret, pure]
  · by_cases h : hw.rv s.trace call < 0
    · simp only [HwM.andThen, hwCall, bcmCheckError, BCM_FAILURE, h, HwM.fail, decide_True,
        if_true]
      exact Or.inl ⟨rfl, [], call, rfl, by simpa using h⟩
    · simp [HwM.andThen, hwCall, bcmCheckError, BCM_FAILURE, h, HwM.ret, pure]

theorem phase_forEach {α : Type} (hw : Hw) (body : α → HwM Unit) (g : α → List HwCall)
    (h : ∀ x, Phase hw (body x) (fun _ => g x) (fun c => c) (fun _ => True) (fun _ => ()))
    (xs : List α) :
    Phase hw (forEach xs body) (fun _ => xs.flatMap g) (fun c => c) (fun _ => True)
      (fun _ => ()) := by
  induction xs with
  | nil => exact phase_ret hw ()
  | cons x xs ih =>
    exact (Phase.bind (h x) (fun _ => ih)).congr (fun _ => by simp) (fun _ => rfl)
      (fun _ => by simp) (fun _ => rfl)

theorem HwM.andThen_assoc {α β γ : Type} (m : HwM α) (f : α → HwM β) (g : β → HwM γ) :
    HwM.andThen (HwM.andThen m f) g = HwM.andThen m (fun a => HwM.andThen (f a) g) := by
  funext s
  unfold HwM.andThen
  rcases m s with ⟨r, s1⟩
  cases r <;> rfl

theorem phase_callThen_bcmLogFatal {β : Type} (hw : Hw) (call : HwCall) {k : HwM β}
    {p : Cache → List HwCall} {f : Cache → Cache} {ck : Cache → Prop} {v : Cache → β}
    (h : Phase hw k p f ck v) :
    Phase hw (HwM.andThen (hwCall hw call) (fun rv => HwM.andThen (bcmLogFatal rv) (fun _ => k)))
      (fun c => call :: p c) f ck v := by
  have h1 := Phase.bind (phase_call_bcmLogFatal hw call) (fun _ => h)
  rw [HwM.andThen_assoc] at h1
  exact h1.congr (fun _ => by simp) (fun _ => rfl) (fun _ => by simp) (fun _ => rfl)

theorem phase_callThen_bcmCheckError {β : Type} (hw : Hw) (call : HwCall) {k : HwM β}
    {p : Cache → List HwCall} {f : Cache → Cache} {ck : Cache → Prop} {v : Cache → β}
    (h : Phase hw k p f ck v) :
    Phase hw
      (HwM.andThen (hwCall hw call) (fun rv => HwM.andThen (bcmCheckError rv) (fun _ => k)))
      (fun c => call :: p c) f ck v := by
  have h1 := Phase.bind (phase_call_bcmCheckError hw call) (fun _ => h)
  rw [HwM.andThen_assoc] at h1
  exact h1.congr (fun _ => by simp) (fun _ => rfl) (fun _ => by simp) (fun _ => rfl)

theorem phase_defaultVlanThen {β : Type} (hw : Hw) {k : bcm_vlan_t → HwM β}
    {p : Cache → List HwCall} {f : Cache → Cache} {ck : Cache → Prop} {v : Cache → β}
    (h : Phase hw (k hw.defaultVlan) p f ck v) :
    Phase hw
      (HwM.andThen (bcm_vlan_default_get hw)
        (fun x => HwM.andThen (bcmLogFatal x.1) (fun _ => k x.2)))
      (fun c => HwCall.vlan_default_get :: p c) f ck v := by
  have h1 := phase_callThen_bcmLogFatal hw HwCall.vlan_default_get h
  have e : HwM.andThen (bcm_vlan_default_get hw)
      (fun x => HwM.andThen (bcmLogFatal x.1) (fun _ => k x.2)) =
      HwM.andThen (hwCall hw HwCall.vlan_default_get)
        (fun rv => HwM.andThen (bcmLogFatal rv) (fun _ => k hw.defaultVlan)) := by
    funext s
    rfl
  rw [e]
  exact h1

/-! ## The loops and the helpers of `clear()` -/

theorem FlatMap.eraseAll_entries {K V : Type} [DecidableEq K] (ks : List K) (m : FlatMap K V) :
    (m.eraseAll ks).entries = m.entries.filter (fun e => decide (e.1 ∉ ks)) := by
  induction ks generalizing m with
  | nil => simp [FlatMap.eraseAll]
  | cons k ks ih =>
    have h := ih (m.erase k)
    simp only [FlatMap.eraseAll, List.foldl_cons] at h ⊢
    rw [h]
    simp only [FlatMap.erase, FlatMap.filter, List.filter_filter]
    apply List.filter_congr
    intro e _
    simp only [List.mem_cons, not_or, Bool.decide_and, ne_eq, decide_not]
    rw [Bool.and_comm]

theorem phase_removeUnclaimedLabeledTunnelsLoop (hw : Hw)
    (rest : List ((bcm_vlan_t × List bcm_mpls_label_t) × bcm_if_t)) :
    Phase hw (removeUnclaimedLabeledTunnelsLoop hw rest) (fun _ => rest.flatMap tunnelCalls)
      (fun c => { c with labelStackKey2TunnelId_ :=
        c.labelStackKey2TunnelId_.eraseAll (rest.map Prod.fst) })
      (fun _ => True) (fun _ => ()) := by
  induction rest with
  | nil =>
    exact (phase_ret hw ()).congr (fun _ => rfl) (fun _ => rfl) (fun _ => Iff.rfl)
      (fun _ => rfl)
  | cons e rest ih =>
    obtain ⟨key, intfId⟩ := e
    have h := phase_callThen_bcmCheckError hw (HwCall.mpls_tunnel_initiator_clear intfId)
      (phase_callThen_bcmCheckError hw
        (HwCall.l3_intf_delete { l3a_intf_id := intfId, l3a_flags := BCM_L3_WITH_ID })
        (Phase.bind (phase_modifyCache hw (fun c =>
          { c with labelStackKey2TunnelId_ := c.labelStackKey2TunnelId_.erase key }))
          (fun _ => ih)))
    exact h.congr (fun _ => by simp [tunnelCalls]) (fun _ => rfl) (fun _ => by simp)
      (fun _ => rfl)

theorem phase_clearVlansLoop (hw : Hw) (d : bcm_vlan_t) (rest : List (VlanID × VlanInfo)) :
    Phase hw (clearVlansLoop hw d rest)
      (fun _ => (rest.filter (fun e => decide (e.1 ≠ d))).map (fun e => HwCall.vlan_destroy e.1))
      (fun c => { c with vlan2VlanInfo_ :=
        c.vlan2VlanInfo_.eraseAll ((rest.filter (fun e => decide (e.1 ≠ d))).map Prod.fst) })
      (fun _ => True) (fun _ => ()) := by
  induction rest with
  | nil =>
    exact (phase_ret hw ()).congr (fun _ => rfl) (fun _ => rfl) (fun _ => Iff.rfl)
      (fun _ => rfl)
  | cons e rest ih =>
    obtain ⟨vid, info⟩ := e
    by_cases hd : d = vid
    · have e1 : clearVlansLoop hw d ((vid, info) :: rest) = clearVlansLoop hw d rest := by
        simp [clearVlansLoop, hd]
      rw [e1]
      have hv : ¬ (vid ≠ d) := by simp [hd]
      exact ih.congr (fun _ => by simp [hd]) (fun _ => by simp [hd]) (fun _ => Iff.rfl)
        (fun _ => rfl)
    · have e1 : clearVlansLoop hw d ((vid, info) :: rest) =
          HwM.andThen (hwCall hw (HwCall.vlan_destroy vid)) (fun rv =>
            HwM.andThen (bcmLogFatal rv) (fun _ =>
              HwM.andThen (modifyCache fun c =>
                { c with vlan2VlanInfo_ := c.vlan2VlanInfo_.erase vid })
                (fun _ => clearVlansLoop hw d rest))) := by
        simp only [clearVlansLoop, hd, if_false]
        rfl
      rw [e1]
      have hv : vid ≠ d := fun h => hd h.symm
      have h := phase_callThen_bcmLogFatal hw (HwCall.vlan_destroy vid)
        (Phase.bind (phase_modifyCache hw (fun c =>
          { c with vlan2VlanInfo_ := c.vlan2VlanInfo_.erase vid })) (fun _ => ih))
      exact h.congr (fun _ => by simp [hv]) (fun _ => by simp [hv, FlatMap.eraseAll])
        (fun _ => by simp) (fun _ => rfl)

theorem phase_detachAclStatsLoop (hw : Hw) (rest : List (BcmAclEntryHandle × AclStatStatus))
    (used : Finset BcmAclStatHandle) :
    Phase hw (detachAclStatsLoop hw rest used) (fun _ => detachCalls rest) (fun c => c)
      (fun _ => True) (fun _ => claimedStats rest used) := by
  induction rest generalizing used with
  | nil =>
    exact (phase_ret hw used).congr (fun _ => rfl) (fun _ => rfl) (fun _ => Iff.rfl)
      (fun _ => rfl)
  | cons e rest ih =>
    obtain ⟨acl, status⟩ := e
    cases hc : status.claimed with
    | false =>
      have e1 : detachAclStatsLoop hw ((acl, status) :: rest) used =
          HwM.andThen (detachBcmAclStat hw acl status.stat)
            (fun _ => detachAclStatsLoop hw rest used) := by
        simp only [detachAclStatsLoop, hc]
        rfl
      rw [e1]
      have h := Phase.bind
        (phase_call_bcmLogFatal hw (HwCall.field_entry_stat_detach acl status.stat))
        (fun _ => ih used)
      exact h.congr (fun _ => by simp [detachCalls, hc]) (fun _ => rfl) (fun _ => by simp)
        (fun _ => by simp [claimedStats, hc])
    | true =>
      have e1 : detachAclStatsLoop hw ((acl, status) :: rest) used =
          detachAclStatsLoop hw rest (insert status.stat used) := by
        simp [detachAclStatsLoop, hc]
      rw [e1]
      exact (ih (insert status.stat used)).congr (fun _ => by simp [detachCalls, hc])
        (fun _ => rfl) (fun _ => Iff.rfl) (fun _ => by simp [claimedStats, hc])

theorem phase_removeAclStatsLoop (hw : Hw) (rest : List (BcmAclEntryHandle × AclStatStatus))
    (used : Finset BcmAclStatHandle) :
    Phase hw (removeAclStatsLoop hw rest used) (fun _ => destroyCalls rest used) (fun c => c)
      (fun _ => True) (fun _ => ()) := by
  induction rest generalizing used with
  | nil =>
    exact (phase_ret hw ()).congr (fun _ => rfl) (fun _ => rfl) (fun _ => Iff.rfl)
      (fun _ => rfl)
  | cons e rest ih =>
    obtain ⟨acl, status⟩ := e
    by_cases hu : status.stat ∈ used
    · have e1 : removeAclStatsLoop hw ((acl, status) :: rest) used =
          removeAclStatsLoop hw rest used := by
        simp [removeAclStatsLoop, hu]
      rw [e1]
      exact (ih used).congr (fun _ => by simp [destroyCalls, hu]) (fun _ => rfl)
        (fun _ => Iff.rfl) (fun _ => rfl)
    · have e1 : removeAclStatsLoop hw ((acl, status) :: rest) used =
          HwM.andThen (removeBcmAclStat hw status.stat)
            (fun _ => removeAclStatsLoop hw rest (insert status.stat used)) := by
        simp only [removeAclStatsLoop, hu, not_false_eq_true, if_true]
        rfl
      rw [e1]
      have h := Phase.bind (phase_call_bcmLogFatal hw (HwCall.field_stat_destroy status.stat))
        (fun _ => ih (insert status.stat used))
      exact h.congr (fun _ => by simp [destroyCalls, hu]) (fun _ => rfl) (fun _ => by simp)
        (fun _ => rfl)

theorem HwM.bind_eq {α β : Type} (m : HwM α) (f : α → HwM β) :
    (m >>= f) = HwM.andThen m f := rfl

theorem HwM.pure_eq {α : Type} (a : α) : (pure a : HwM α) = HwM.ret a := rfl

theorem flatMap_single {α β : Type} (g : α → β) (xs : List α) :
    xs.flatMap (fun e => [g e]) = xs.map g := by
  induction xs with
  | nil => rfl
  | cons x xs ih => simp [List.flatMap_cons, ih]

theorem FlatMap.eraseAll_keys {K V : Type} [DecidableEq K] (m : FlatMap K V) :
    m.eraseAll (m.entries.map Prod.fst) = FlatMap.empty := by
  apply FlatMap.ext_entries
  rw [FlatMap.eraseAll_entries]
  simp only [FlatMap.empty, List.filter_eq_nil_iff]
  intro e he
  simp only [decide_not, Bool.not_eq_true', decide_eq_false_iff_not, not_not]
  exact List.mem_map_of_mem _ he

theorem FlatMap.eraseAll_ne {K V : Type} [DecidableEq K] (m : FlatMap K V) (d : K) :
    m.eraseAll ((m.entries.filter (fun e => decide (e.1 ≠ d))).map Prod.fst) =
      m.filter (fun e => decide (e.1 = d)) := by
  apply FlatMap.ext_entries
  rw [FlatMap.eraseAll_entries]
  simp only [FlatMap.filter]
  apply List.filter_congr
  intro e he
  by_cases h : e.1 = d
  · simp [h]
  · simp only [h, decide_False, decide_eq_false_iff_not, not_not]
    exact List.mem_map_of_mem _ (List.mem_filter.2 ⟨he, by simp [h]⟩)

theorem phase_removeUnclaimedLabelSwitchActions (hw : Hw) :
    Phase hw (removeUnclaimedLabelSwitchActions hw)
      (fun c => c.label2LabelActions_.entries.map (fun e => HwCall.mpls_tunnel_switch_delete e.2))
      (fun c => { c with label2LabelActions_ := FlatMap.empty }) (fun _ => True)
      (fun _ => ()) := by
  apply Phase.congr
  case h =>
    unfold removeUnclaimedLabelSwitchActions
    simp only [HwM.bind_eq]
    apply Phase.bind (phase_getCache hw)
    intro c
    apply Phase.bind (phase_forEach hw _ (fun e => [HwCall.mpls_tunnel_switch_delete e.2])
      (fun e => phase_call_bcmCheckError hw (HwCall.mpls_tunnel_switch_delete e.2))
      c.label2LabelActions_.entries)
    intro _
    exact phase_modifyCache hw _
  case hp => intro c; simp [flatMap_single]
  case hf => intro c; rfl
  case hc => intro c; simp
  case hv => intro c; rfl

theorem phase_removeUnclaimedLabeledTunnels (hw : Hw) :
    Phase hw (removeUnclaimedLabeledTunnels hw)
      (fun c => c.labelStackKey2TunnelId_.entries.flatMap tunnelCalls)
      (fun c => { c with labelStackKey2TunnelId_ := FlatMap.empty }) (fun _ => True)
      (fun _ => ()) := by
  apply Phase.congr
  case h =>
    unfold removeUnclaimedLabeledTunnels
    simp only [HwM.bind_eq]
    apply Phase.bind (phase_getCache hw)
    intro c
    exact phase_removeUnclaimedLabeledTunnelsLoop hw _
  case hp => intro c; simp
  case hf => intro c; simp [FlatMap.eraseAll_keys]
  case hc => intro c; simp
  case hv => intro c; rfl

theorem phase_checkUnclaimedMirrors (hw : Hw) :
    Phase hw checkUnclaimedMirrors (fun _ => []) (fun c => c)
      (fun c => c.mirroredPort2Handle_.size = 0 ∧ c.mirroredAcl2Handle_.size = 0 ∧
        c.mirrorEgressPath2Handle_.size = 0) (fun _ => ()) := by
  apply Phase.congr
  case h =>
    unfold checkUnclaimedMirrors
    simp only [HwM.bind_eq]
    apply Phase.bind (phase_getCache hw)
    intro c
    apply Phase.bind (phase_CHECK hw _)
    intro _
    apply Phase.bind (phase_CHECK hw _)
    intro _
    exact phase_CHECK hw _
  case hp => intro c; simp
  case hf => intro c; rfl
  case hc => intro c; simp
  case hv => intro c; rfl

theorem phase_checkUnclaimedQosMaps (hw : Hw) :
    Phase hw checkUnclaimedQosMaps (fun _ => []) (fun c => c)
      (fun c => c.qosMapKey2QosMapId_.size + c.qosMapId2QosMap_.size = 0) (fun _ => ()) := by
  apply Phase.congr
  case h =>
    unfold checkUnclaimedQosMaps
    simp only [HwM.bind_eq]
    apply Phase.bind (phase_getCache hw)
    intro c
    exact phase_CHECK hw _
  case hp => intro c; simp
  case hf => intro c; rfl
  case hc => intro c; simp
  case hv => intro c; rfl

theorem bcm_vlan_default_get_andThen {β : Type} (hw : Hw) (k : Int × bcm_vlan_t → HwM β) :
    HwM.andThen (bcm_vlan_default_get hw) k =
      HwM.andThen (hwCall hw HwCall.vlan_default_get) (fun rv => k (rv, hw.defaultVlan)) := by
  funext s
  rfl

/-- The behaviour of `clear()`: its calls are a beginning of `clearPlan`; a run
that returns has issued all of `clearPlan`, leaves `clearPost` and found no
residual mirror or QoS entry. -/
theorem clear_phase (hw : Hw) :
    Phase hw (clear hw) (clearPlan hw.defaultVlan) (clearPost hw.defaultVlan) residualFree
      (fun _ => ()) := by
  apply Phase.congr
  case h =>
    unfold clear
    simp only [HwM.bind_eq, bcm_vlan_default_get_andThen]
    apply Phase.bind (phase_modifyCache hw _)
    intro _
    apply Phase.bind (phase_modifyCache hw _)
    intro _
    apply Phase.bind (phase_getCache hw)
    intro c
    apply Phase.bind (phase_forEach hw _ (fun e => [HwCall.l3_route_delete e.2])
      (fun e => phase_call_bcmLogFatal hw (HwCall.l3_route_delete e.2)) _)
    intro _
    apply Phase.bind (phase_modifyCache hw _)
    intro _
    apply Phase.bind (phase_getCache hw)
    intro c
    apply Phase.bind (phase_forEach hw _ (fun e => [HwCall.l3_route_delete e.2])
      (fun e => phase_call_bcmLogFatal hw (HwCall.l3_route_delete e.2)) _)
    intro _
    apply Phase.bind (phase_modifyCache hw _)
    intro _
    apply Phase.bind (phase_removeUnclaimedLabelSwitchActions hw)
    intro _
    apply Phase.bind (phase_getCache hw)
    intro c
    apply Phase.bind (phase_forEach hw _ (fun e => [HwCall.l3_host_delete e.2])
      (fun e => phase_call_bcmLogFatal hw (HwCall.l3_host_delete e.2)) _)
    intro _
    apply Phase.bind (phase_modifyCache hw _)
    intro _
    apply Phase.bind (phase_getCache hw)
    intro c
    apply Phase.bind (phase_forEach hw _ (fun e => [HwCall.l3_egress_ecmp_destroy e.2])
      (fun e => phase_call_bcmLogFatal hw (HwCall.l3_egress_ecmp_destroy e.2)) _)
    intro _
    apply Phase.bind (phase_modifyCache hw _)
    intro _
    apply Phase.bind (phase_getCache hw)
    intro c
    apply Phase.bind (phase_forEach hw _ (fun e => [HwCall.l3_egress_destroy e.1])
      (fun e => phase_call_bcmLogFatal hw (HwCall.l3_egress_destroy e.1)) _)
    intro _
    apply Phase.bind (phase_modifyCache hw _)
    intro _
    apply Phase.bind (phase_removeUnclaimedLabeledTunnels hw)
    intro _
    apply Phase.bind (phase_getCache hw)
    intro c
    apply Phase.bind (phase_forEach hw _ (fun e => [HwCall.l3_intf_delete e.2])
      (fun e => phase_call_bcmLogFatal hw (HwCall.l3_intf_delete e.2)) _)
    intro _
    apply Phase.bind (phase_modifyCache hw _)
    intro _
    apply Phase.bind (phase_getCache hw)
    intro c
    apply Phase.bind (phase_forEach hw _ (fun e => [HwCall.l2_station_delete e.1])
      (fun e => phase_call_bcmLogFatal hw (HwCall.l2_station_delete e.1)) _)
    intro _
    apply Phase.bind (phase_modifyCache hw _)
    intro _
    apply phase_callThen_bcmLogFatal hw HwCall.vlan_default_get
    apply Phase.bind (phase_getCache hw)
    intro c
    apply Phase.bind (phase_clearVlansLoop hw _ _)
    intro _
    apply Phase.bind (phase_modifyCache hw _)
    intro _
    apply Phase.bind (phase_modifyCache hw _)
    intro _
    apply Phase.bind (phase_getCache hw)
    intro c
    apply Phase.bind (phase_detachAclStatsLoop hw _ _)
    intro statsUsed
    apply Phase.bind (phase_getCache hw)
    intro c
    apply Phase.bind (phase_removeAclStatsLoop hw _ _)
    intro _
    apply Phase.bind (phase_modifyCache hw _)
    intro _
    apply Phase.bind (phase_getCache hw)
    intro c
    apply Phase.bind (phase_forEach hw _ (fun e => [HwCall.field_entry_destroy e.2])
      (fun e => phase_call_bcmLogFatal hw (HwCall.field_entry_destroy e.2)) _)
    intro _
    apply Phase.bind (phase_modifyCache hw _)
    intro _
    apply Phase.bind (phase_checkUnclaimedMirrors hw)
    intro _
    exact phase_checkUnclaimedQosMaps hw
  case hp => intro c; simp [clearPlan, flatMap_single]
  case hf =>
    intro c
    have e := FlatMap.eraseAll_ne c.vlan2VlanInfo_ hw.defaultVlan
    simp only [ne_eq, decide_not] at e
    simp [clearPost, e]
  case hc => intro c; simp [residualFree, and_assoc]
  case hv => intro c; rfl

/-! ## Runs of `clear()` -/

theorem runClear_trace (hw : Hw) (c : Cache) :
    (runClear hw c).2.trace <+: clearPlan hw.defaultVlan c := by
  obtain ⟨t, ht, hp, _⟩ := clear_phase hw { cache := c, trace := [] }
  simp only [List.nil_append] at ht
  unfold runClear
  rw [ht]
  exact hp

theorem runClear_ok (hw : Hw) (c : Cache) (h : (runClear hw c).1 = .ok ()) :
    (runClear hw c).2.trace = clearPlan hw.defaultVlan c ∧
      (runClear hw c).2.cache = clearPost hw.defaultVlan c ∧ residualFree c := by
  obtain ⟨t, ht, _, hm⟩ := clear_phase hw { cache := c, trace := [] }
  unfold runClear at h ⊢
  rw [h] at hm
  simp only [List.nil_append] at ht hm
  exact ⟨by rw [ht, hm.1], hm.2.1, hm.2.2.1⟩

theorem runClear_error (hw : Hw) (c : Cache) (e : Failure)
    (h : (runClear hw c).1 = .error e) :
    (e.isHw = true ∧ ∃ (pre : Trace) (call : HwCall),
      (runClear hw c).2.trace = pre ++ [call] ∧ hw.rv pre call < 0) ∨
      (e = .CheckFailed ∧ ¬ residualFree c) := by
  obtain ⟨t, ht, _, hm⟩ := clear_phase hw { cache := c, trace := [] }
  unfold runClear at h ⊢
  rw [h] at hm
  simp only [List.nil_append] at ht hm
  rcases hm with ⟨h1, pre, call, h2, h3⟩ | h1
  · exact Or.inl ⟨h1, pre, call, by rw [ht, h2], h3⟩
  · exact Or.inr h1

/-! ## The indices that `clear()` only checks -/

theorem sameResidual_refl (c : Cache) : sameResidual c c :=
  ⟨rfl, rfl, rfl, rfl, rfl⟩

theorem keeps_andThen {α β : Type} {m : HwM α} {k : α → HwM β} (h1 : Keeps m)
    (h2 : ∀ a, Keeps (k a)) : Keeps (HwM.andThen m k) := by
  intro s
  have g1 := h1 s
  unfold HwM.andThen
  rcases hms : m s with ⟨r, s1⟩
  rw [hms] at g1
  cases r with
  | error e => exact g1
  | ok a =>
    have g2 := h2 a s1
    simp only at g1 ⊢
    obtain ⟨a1, a2, a3, a4, a5⟩ := g1
    obtain ⟨b1, b2, b3, b4, b5⟩ := g2
    exact ⟨b1.trans a1, b2.trans a2, b3.trans a3, b4.trans a4, b5.trans a5⟩

theorem keeps_ret {α : Type} (a : α) : Keeps (HwM.ret a) := fun s => sameResidual_refl s.cache

theorem keeps_fail {α : Type} (e : Failure) : Keeps (HwM.fail e : HwM α) :=
  fun s => sameResidual_refl s.cache

theorem keeps_getCache : Keeps getCache := fun s => sameResidual_refl s.cache

theorem keeps_hwCall (hw : Hw) (call : HwCall) : Keeps (hwCall hw call) :=
  fun s => sameResidual_refl s.cache

theorem keeps_modifyCache (f : Cache → Cache) (h : ∀ c, sameResidual c (f c)) :
    Keeps (modifyCache f) := fun s => h s.cache

theorem keeps_bcmLogFatal (rv : Int) : Keeps (bcmLogFatal rv) := by
  unfold bcmLogFatal
  split
  · exact keeps_fail _
  · exact keeps_ret _

theorem keeps_bcmCheckError (rv : Int) : Keeps (bcmCheckError rv) := by
  unfold bcmCheckError
  split
  · exact keeps_fail _
  · exact keeps_ret _

theorem keeps_CHECK (b : Bool) : Keeps (CHECK b) := by
  unfold CHECK
  split
  · exact keeps_ret _
  · exact keeps_fail _

theorem keeps_call_bcmLogFatal (hw : Hw) (call : HwCall) :
    Keeps (HwM.andThen (hwCall hw call) (fun rv => bcmLogFatal rv)) :=
  keeps_andThen (keeps_hwCall hw call) keeps_bcmLogFatal

theorem keeps_call_bcmCheckError (hw : Hw) (call : HwCall) :
    Keeps (HwM.andThen (hwCall hw call) (fun rv => bcmCheckError rv)) :=
  keeps_andThen (keeps_hwCall hw call) keeps_bcmCheckError

theorem keeps_forEach {α : Type} (body : α → HwM Unit) (h : ∀ x, Keeps (body x))
    (xs : List α) : Keeps (forEach xs body) := by
  induction xs with
  | nil => exact keeps_ret ()
  | cons x xs ih => exact keeps_andThen (h x) (fun _ => ih)

theorem keeps_removeUnclaimedLabelSwitchActions (hw : Hw) :
    Keeps (removeUnclaimedLabelSwitchActions hw) := by
  unfold removeUnclaimedLabelSwitchActions
  simp only [HwM.bind_eq]
  repeat' first
    | exact keeps_getCache
    | exact keeps_hwCall hw _
    | exact keeps_bcmLogFatal _
    | exact keeps_bcmCheckError _
    | exact keeps_CHECK _
    | exact keeps_call_bcmLogFatal hw _
    | exact keeps_call_bcmCheckError hw _
    | exact keeps_modifyCache _ (fun c => sameResidual_refl c)
    | apply keeps_forEach
    | apply keeps_andThen
    | intro _

theorem keeps_removeUnclaimedLabeledTunnelsLoop (hw : Hw)
    (rest : List ((bcm_vlan_t × List bcm_mpls_label_t) × bcm_if_t)) :
    Keeps (removeUnclaimedLabeledTunnelsLoop hw rest) := by
  induction rest with
  | nil => exact keeps_ret ()
  | cons e rest ih =>
    unfold removeUnclaimedLabeledTunnelsLoop
    simp only [HwM.bind_eq]
    repeat' first
      | exact ih
      | exact ih _
      | exact keeps_getCache
      | exact keeps_hwCall hw _
      | exact keeps_bcmLogFatal _
      | exact keeps_bcmCheckError _
      | exact keeps_CHECK _
      | exact keeps_call_bcmLogFatal hw _
      | exact keeps_call_bcmCheckError hw _
      | exact keeps_modifyCache _ (fun c => sameResidual_refl c)
      | apply keeps_forEach
      | apply keeps_andThen
      | intro _

theorem keeps_removeUnclaimedLabeledTunnels (hw : Hw) :
    Keeps (removeUnclaimedLabeledTunnels hw) := by
  unfold removeUnclaimedLabeledTunnels
  simp only [HwM.bind_eq]
  exact keeps_andThen keeps_getCache fun _ => keeps_removeUnclaimedLabeledTunnelsLoop hw _

theorem keeps_clearVlansLoop (hw : Hw) (d : bcm_vlan_t) (rest : List (VlanID × VlanInfo)) :
    Keeps (clearVlansLoop hw d rest) := by
  induction rest with
  | nil => exact keeps_ret ()
  | cons e rest ih =>
    obtain ⟨vid, info⟩ := e
    unfold clearVlansLoop
    simp only [HwM.bind_eq]
    split
    · exact ih
    repeat' first
      | exact ih
      | exact ih _
      | exact keeps_getCache
      | exact keeps_hwCall hw _
      | exact keeps_bcmLogFatal _
      | exact keeps_bcmCheckError _
      | exact keeps_CHECK _
      | exact keeps_call_bcmLogFatal hw _
      | exact keeps_call_bcmCheckError hw _
      | exact keeps_modifyCache _ (fun c => sameResidual_refl c)
      | apply keeps_forEach
      | apply keeps_andThen
      | intro _

theorem keeps_removeBcmAcl (hw : Hw) (handle : BcmAclEntryHandle) :
    Keeps (removeBcmAcl hw handle) :=
  keeps_call_bcmLogFatal hw _

theorem keeps_detachBcmAclStat (hw : Hw) (acl : BcmAclEntryHandle) (st : BcmAclStatHandle) :
    Keeps (detachBcmAclStat hw acl st) :=
  keeps_call_bcmLogFatal hw _

theorem keeps_removeBcmAclStat (hw : Hw) (handle : BcmAclStatHandle) :
    Keeps (removeBcmAclStat hw handle) :=
  keeps_call_bcmLogFatal hw _

theorem keeps_detachAclStatsLoop (hw : Hw) (rest : List (BcmAclEntryHandle × AclStatStatus))
    (used : Finset BcmAclStatHandle) : Keeps (detachAclStatsLoop hw rest used) := by
  induction rest generalizing used with
  | nil => exact keeps_ret used
  | cons e rest ih =>
    obtain ⟨acl, status⟩ := e
    unfold detachAclStatsLoop
    simp only [HwM.bind_eq]
    split
    · exact keeps_andThen (keeps_detachBcmAclStat hw _ _) fun _ => ih used
    · exact ih _

theorem keeps_removeAclStatsLoop (hw : Hw) (rest : List (BcmAclEntryHandle × AclStatStatus))
    (used : Finset BcmAclStatHandle) : Keeps (removeAclStatsLoop hw rest used) := by
  induction rest generalizing used with
  | nil => exact keeps_ret ()
  | cons e rest ih =>
    obtain ⟨acl, status⟩ := e
    unfold removeAclStatsLoop
    simp only [HwM.bind_eq]
    split
    · exact keeps_andThen (keeps_removeBcmAclStat hw _) fun _ => ih _
    · exact ih used

theorem keeps_checkUnclaimedMirrors : Keeps checkUnclaimedMirrors := by
  unfold checkUnclaimedMirrors
  simp only [HwM.bind_eq]
  repeat' first
    | exact keeps_getCache
    | exact keeps_hwCall hw _
    | exact keeps_bcmLogFatal _
    | exact keeps_bcmCheckError _
    | exact keeps_CHECK _
    | exact keeps_call_bcmLogFatal hw _
    | exact keeps_call_bcmCheckError hw _
    | exact keeps_modifyCache _ (fun c => sameResidual_refl c)
    | apply keeps_forEach
    | apply keeps_andThen
    | intro _

theorem keeps_checkUnclaimedQosMaps : Keeps checkUnclaimedQosMaps := by
  unfold checkUnclaimedQosMaps
  simp only [HwM.bind_eq]
  repeat' first
    | exact keeps_getCache
    | exact keeps_hwCall hw _
    | exact keeps_bcmLogFatal _
    | exact keeps_bcmCheckError _
    | exact keeps_CHECK _
    | exact keeps_call_bcmLogFatal hw _
    | exact keeps_call_bcmCheckError hw _
    | exact keeps_modifyCache _ (fun c => sameResidual_refl c)
    | apply keeps_forEach
    | apply keeps_andThen
    | intro _

theorem keeps_clear (hw : Hw) : Keeps (clear hw) := by
  unfold clear
  simp only [HwM.bind_eq, bcm_vlan_default_get_andThen]
  apply keeps_andThen
  exact keeps_modifyCache _ (fun c => sameResidual_refl c)
  intro _
  apply keeps_andThen
  exact keeps_modifyCache _ (fun c => sameResidual_refl c)
  intro _
  apply keeps_andThen keeps_getCache
  intro c
  apply keeps_andThen (keeps_forEach _ (fun e => keeps_call_bcmLogFatal hw _) _)
  intro _
  apply keeps_andThen
  exact keeps_modifyCache _ (fun c => sameResidual_refl c)
  intro _
  apply keeps_andThen keeps_getCache
  intro c
  apply keeps_andThen (keeps_forEach _ (fun e => keeps_call_bcmLogFatal hw _) _)
  intro _
  apply keeps_andThen
  exact keeps_modifyCache _ (fun c => sameResidual_refl c)
  intro _
  apply keeps_andThen (keeps_removeUnclaimedLabelSwitchActions hw)
  intro _
  apply keeps_andThen keeps_getCache
  intro c
  apply keeps_andThen (keeps_forEach _ (fun e => keeps_call_bcmLogFatal hw _) _)
  intro _
  apply keeps_andThen
  exact keeps_modifyCache _ (fun c => sameResidual_refl c)
  intro _
  apply keeps_andThen keeps_getCache
  intro c
  apply keeps_andThen (keeps_forEach _ (fun e => keeps_call_bcmLogFatal hw _) _)
  intro _
  apply keeps_andThen
  exact keeps_modifyCache _ (fun c => sameResidual_refl c)
  intro _
  apply keeps_andThen keeps_getCache
  intro c
  apply keeps_andThen (keeps_forEach _ (fun e => keeps_call_bcmLogFatal hw _) _)
  intro _
  apply keeps_andThen
  exact keeps_modifyCache _ (fun c => sameResidual_refl c)
  intro _
  apply keeps_andThen (keeps_removeUnclaimedLabeledTunnels hw)
  intro _
  apply keeps_andThen keeps_getCache
  intro c
  apply keeps_andThen (keeps_forEach _ (fun e => keeps_call_bcmLogFatal hw _) _)
  intro _
  apply keeps_andThen
  exact keeps_modifyCache _ (fun c => sameResidual_refl c)
  intro _
  apply keeps_andThen keeps_getCache
  intro c
  apply keeps_andThen (keeps_forEach _ (fun e => keeps_call_bcmLogFatal hw _) _)
  intro _
  apply keeps_andThen
  exact keeps_modifyCache _ (fun c => sameResidual_refl c)
  intro _
  apply keeps_andThen (keeps_hwCall hw _)
  intro _
  apply keeps_andThen (keeps_bcmLogFatal _)
  intro _
  apply keeps_andThen keeps_getCache
  intro c
  apply keeps_andThen (keeps_clearVlansLoop hw _ _)
  intro _
  apply keeps_andThen
  exact keeps_modifyCache _ (fun c => sameResidual_refl c)
  intro _
  apply keeps_andThen
  exact keeps_modifyCache _ (fun c => sameResidual_refl c)
  intro _
  apply keeps_andThen keeps_getCache
  intro c
  apply keeps_andThen (keeps_detachAclStatsLoop hw _ _)
  intro statsUsed
  apply keeps_andThen keeps_getCache
  intro c
  apply keeps_andThen (keeps_removeAclStatsLoop hw _ _)
  intro _
  apply keeps_andThen
  exact keeps_modifyCache _ (fun c => sameResidual_refl c)
  intro _
  apply keeps_andThen keeps_getCache
  intro c
  apply keeps_andThen (keeps_forEach _ (fun e => keeps_removeBcmAcl hw _) _)
  intro _
  apply keeps_andThen
  exact keeps_modifyCache _ (fun c => sameResidual_refl c)
  intro _
  apply keeps_andThen keeps_checkUnclaimedMirrors
  intro _
  exact keeps_checkUnclaimedQosMaps

theorem runClear_residual (hw : Hw) (c : Cache) : sameResidual c (runClear hw c).2.cache :=
  keeps_clear hw { cache := c, trace := [] }

/-! ## The order of the plan -/

theorem RankSorted.nil (r : Nat) : RankSorted r [] := by
  simp [RankSorted]

theorem RankSorted.append {r : Nat} (r2 : Nat) {seg rest : List HwCall}
    (hseg : ∀ x ∈ seg, sweepRank x = r) (hrest : RankSorted r2 rest) (hr : r ≤ r2) :
    RankSorted r (seg ++ rest) := by
  refine ⟨?_, ?_⟩
  · intro x hx
    rcases List.mem_append.1 hx with h | h
    · exact le_of_eq (hseg x h).symm
    · exact le_trans hr (hrest.1 x h)
  · rw [List.pairwise_append]
    refine ⟨?_, hrest.2, ?_⟩
    · rw [List.pairwise_iff_forall_sublist]
      intro a b hab
      have ha : a ∈ seg := hab.subset (by simp)
      have hb : b ∈ seg := hab.subset (by simp)
      rw [hseg a ha, hseg b hb]
    · intro a ha b hb
      rw [hseg a ha]
      exact le_trans hr (hrest.1 b hb)

theorem mem_detachCalls {x : HwCall} {l : List (BcmAclEntryHandle × AclStatStatus)}
    (h : x ∈ detachCalls l) :
    ∃ e ∈ l, e.2.claimed = false ∧ x = HwCall.field_entry_stat_detach e.1 e.2.stat := by
  simp only [detachCalls, List.mem_map, List.mem_filter] at h
  obtain ⟨e, ⟨he, hc⟩, rfl⟩ := h
  exact ⟨e, he, by simpa using hc, rfl⟩

theorem mem_destroyCalls {x : HwCall} {l : List (BcmAclEntryHandle × AclStatStatus)}
    {used : Finset BcmAclStatHandle} (h : x ∈ destroyCalls l used) :
    ∃ e ∈ l, e.2.stat ∉ used ∧ x = HwCall.field_stat_destroy e.2.stat := by
  induction l generalizing used with
  | nil => simp [destroyCalls] at h
  | cons e l ih =>
    obtain ⟨acl, status⟩ := e
    by_cases hu : status.stat ∈ used
    · simp only [destroyCalls, hu, not_true_eq_false, if_false] at h
      obtain ⟨e, he, h1, h2⟩ := ih h
      exact ⟨e, List.mem_cons_of_mem _ he, h1, h2⟩
    · simp only [destroyCalls, hu, not_false_eq_true, if_true, List.mem_cons] at h
      rcases h with h | h
      · exact ⟨(acl, status), List.mem_cons_self _ _, hu, h⟩
      · obtain ⟨e, he, h1, h2⟩ := ih h
        refine ⟨e, List.mem_cons_of_mem _ he, ?_, h2⟩
        intro hh
        exact h1 (Finset.mem_insert_of_mem hh)

theorem clearPlan_rankSorted (d : bcm_vlan_t) (c : Cache) : RankSorted 0 (clearPlan d c) := by
  unfold clearPlan
  refine RankSorted.append 0 ?_ ?_ (by decide)
  · intro x hx; simp only [List.mem_map] at hx; obtain ⟨e, _, rfl⟩ := hx; rfl
  refine RankSorted.append 1 ?_ ?_ (by decide)
  · intro x hx; simp only [List.mem_map] at hx; obtain ⟨e, _, rfl⟩ := hx; rfl
  refine RankSorted.append 2 ?_ ?_ (by decide)
  · intro x hx; simp only [List.mem_map] at hx; obtain ⟨e, _, rfl⟩ := hx; rfl
  refine RankSorted.append 3 ?_ ?_ (by decide)
  · intro x hx; simp only [List.mem_map] at hx; obtain ⟨e, _, rfl⟩ := hx; rfl
  refine RankSorted.append 4 ?_ ?_ (by decide)
  · intro x hx; simp only [List.mem_map] at hx; obtain ⟨e, _, rfl⟩ := hx; rfl
  refine RankSorted.append 5 ?_ ?_ (by decide)
  · intro x hx; simp only [List.mem_map] at hx; obtain ⟨e, _, rfl⟩ := hx; rfl
  refine RankSorted.append 5 ?_ ?_ (by decide)
  · intro x hx
    simp only [List.mem_flatMap, tunnelCalls, List.mem_cons, List.mem_singleton,
      List.not_mem_nil, or_false] at hx
    obtain ⟨e, _, rfl | rfl⟩ := hx <;> rfl
  refine RankSorted.append 6 ?_ ?_ (by decide)
  · intro x hx; simp only [List.mem_map] at hx; obtain ⟨e, _, rfl⟩ := hx; rfl
  refine RankSorted.append 7 ?_ ?_ (by decide)
  · intro x hx; simp only [List.mem_map] at hx; obtain ⟨e, _, rfl⟩ := hx; rfl
  refine @RankSorted.append 7 8 [HwCall.vlan_default_get] _ ?_ ?_ (by decide)
  · intro x hx; simp only [List.mem_singleton] at hx; subst hx; rfl
  refine RankSorted.append 9 ?_ ?_ (by decide)
  · intro x hx; simp only [List.mem_map] at hx; obtain ⟨e, _, rfl⟩ := hx; rfl
  refine RankSorted.append 10 ?_ ?_ (by decide)
  · intro x hx; obtain ⟨e, _, _, rfl⟩ := mem_detachCalls hx; rfl
  refine RankSorted.append 11 ?_ ?_ (by decide)
  · intro x hx; obtain ⟨e, _, _, rfl⟩ := mem_destroyCalls hx; rfl
  have h : ∀ x ∈ c.priority2BcmAclEntryHandle_.entries.map
      (fun e => HwCall.field_entry_destroy e.2), sweepRank x = 11 := by
    intro x hx; simp only [List.mem_map] at hx; obtain ⟨e, _, rfl⟩ := hx; rfl
  simpa using RankSorted.append 11 h (RankSorted.nil 11) (le_refl _)

theorem precedes_of_rank {tr : Trace} {P Q : HwCall → Bool}
    (hs : tr.Pairwise (fun a b => sweepRank a ≤ sweepRank b))
    (hPQ : ∀ a b, P a = true → Q b = true → sweepRank a < sweepRank b) :
    Precedes tr P Q := by
  unfold Precedes
  intro i j a b hi hj hP hQ
  by_contra hij
  have hlt := hPQ a b hP hQ
  rcases Nat.lt_or_ge j i with h | h
  · obtain ⟨h1, e1⟩ := List.getElem?_eq_some.1 hi
    obtain ⟨h2, e2⟩ := List.getElem?_eq_some.1 hj
    have := List.pairwise_iff_getElem.1 hs j i h2 h1 h
    rw [e1, e2] at this
    omega
  · have hji : i = j := by omega
    subst hji
    rw [hi] at hj
    cases hj
    omega

theorem runClear_rank_sorted (hw : Hw) (c : Cache) :
    (runClear hw c).2.trace.Pairwise (fun a b => sweepRank a ≤ sweepRank b) :=
  List.Pairwise.sublist (runClear_trace hw c).sublist (clearPlan_rankSorted hw.defaultVlan c).2

theorem sweepRank_isRouteDelete {a : HwCall} (h : isRouteDelete a = true) : sweepRank a = 0 := by
  cases a <;> simp_all [isRouteDelete, sweepRank]

theorem sweepRank_isHostDelete {a : HwCall} (h : isHostDelete a = true) : sweepRank a = 2 := by
  cases a <;> simp_all [isHostDelete, sweepRank]

theorem sweepRank_isEcmpDestroy {a : HwCall} (h : isEcmpDestroy a = true) : sweepRank a = 3 := by
  cases a <;> simp_all [isEcmpDestroy, sweepRank]

theorem sweepRank_isEgressDestroy {a : HwCall} (h : isEgressDestroy a = true) :
    sweepRank a = 4 := by
  cases a <;> simp_all [isEgressDestroy, sweepRank]

theorem sweepRank_isIntfDelete {a : HwCall} (h : isIntfDelete a = true) : sweepRank a = 5 := by
  cases a <;> simp_all [isIntfDelete, sweepRank]

theorem sweepRank_isStationDelete {a : HwCall} (h : isStationDelete a = true) :
    sweepRank a = 6 := by
  cases a <;> simp_all [isStationDelete, sweepRank]

theorem sweepRank_isVlanDestroy {a : HwCall} (h : isVlanDestroy a = true) : sweepRank a = 8 := by
  cases a <;> simp_all [isVlanDestroy, sweepRank]

/-! ## The calls of each class in the plan -/

theorem filter_detachCalls_nil (P : HwCall → Bool)
    (hP : ∀ a st, P (HwCall.field_entry_stat_detach a st) = false)
    (l : List (BcmAclEntryHandle × AclStatStatus)) : (detachCalls l).filter P = [] := by
  rw [List.filter_eq_nil_iff]
  intro x hx
  obtain ⟨e, _, _, rfl⟩ := mem_detachCalls hx
  simp [hP]

theorem filter_destroyCalls_nil (P : HwCall → Bool)
    (hP : ∀ st, P (HwCall.field_stat_destroy st) = false)
    (l : List (BcmAclEntryHandle × AclStatStatus)) (used : Finset BcmAclStatHandle) :
    (destroyCalls l used).filter P = [] := by
  rw [List.filter_eq_nil_iff]
  intro x hx
  obtain ⟨e, _, _, rfl⟩ := mem_destroyCalls hx
  simp [hP]

theorem filter_detachCalls_self (l : List (BcmAclEntryHandle × AclStatStatus)) :
    (detachCalls l).filter isStatDetach = detachCalls l := by
  rw [List.filter_eq_self]
  intro x hx
  obtain ⟨e, _, _, rfl⟩ := mem_detachCalls hx
  rfl

theorem filter_destroyCalls_self (l : List (BcmAclEntryHandle × AclStatStatus))
    (used : Finset BcmAclStatHandle) :
    (destroyCalls l used).filter isStatDestroy = destroyCalls l used := by
  rw [List.filter_eq_self]
  intro x hx
  obtain ⟨e, _, _, rfl⟩ := mem_destroyCalls hx
  rfl

theorem filter_map_call {α : Type} (P : HwCall → Bool) (g : α → HwCall) (b : Bool)
    (h : ∀ e, P (g e) = b) (l : List α) :
    (l.map g).filter P = if b then l.map g else [] := by
  cases b with
  | true =>
    rw [List.filter_eq_self.2]
    · rfl
    · intro x hx
      obtain ⟨e, _, rfl⟩ := List.mem_map.1 hx
      exact h e
  | false =>
    rw [List.filter_eq_nil_iff.2]
    · rfl
    · intro x hx
      obtain ⟨e, _, rfl⟩ := List.mem_map.1 hx
      simp [h e]

theorem filter_tunnelCalls (P : HwCall → Bool)
    (l : List ((bcm_vlan_t × List bcm_mpls_label_t) × bcm_if_t)) :
    (l.flatMap tunnelCalls).filter P = l.flatMap (fun e => (tunnelCalls e).filter P) := by
  induction l with
  | nil => rfl
  | cons e l ih => simp [List.flatMap_cons, ih]

theorem clearPlan_filter_isRouteDelete (d : bcm_vlan_t) (c : Cache) :
    (clearPlan d c).filter isRouteDelete =
      c.vrfPrefix2Route_.entries.map (fun e => HwCall.l3_route_delete e.2) ++
        c.vrfAndIP2Route_.entries.map (fun e => HwCall.l3_route_delete e.2) := by
  simp [clearPlan, List.filter_append, filter_tunnelCalls, tunnelCalls, flatMap_single,
    filter_detachCalls_nil, filter_destroyCalls_nil, isRouteDelete, List.filter_map,
    Function.comp_def]

theorem clearPlan_filter_isLabelSwitchDelete (d : bcm_vlan_t) (c : Cache) :
    (clearPlan d c).filter isLabelSwitchDelete =
      c.label2LabelActions_.entries.map (fun e => HwCall.mpls_tunnel_switch_delete e.2) := by
  simp [clearPlan, List.filter_append, filter_tunnelCalls, tunnelCalls, flatMap_single,
    filter_detachCalls_nil, filter_destroyCalls_nil, isLabelSwitchDelete, List.filter_map,
    Function.comp_def]

theorem clearPlan_filter_isHostDelete (d : bcm_vlan_t) (c : Cache) :
    (clearPlan d c).filter isHostDelete =
      c.vrfIp2Host_.entries.map (fun e => HwCall.l3_host_delete e.2) := by
  simp [clearPlan, List.filter_append, filter_tunnelCalls, tunnelCalls, flatMap_single,
    filter_detachCalls_nil, filter_destroyCalls_nil, isHostDelete, List.filter_map,
    Function.comp_def]

theorem clearPlan_filter_isEcmpDestroy (d : bcm_vlan_t) (c : Cache) :
    (clearPlan d c).filter isEcmpDestroy =
      c.egressIds2Ecmp_.entries.map (fun e => HwCall.l3_egress_ecmp_destroy e.2) := by
  simp [clearPlan, List.filter_append, filter_tunnelCalls, tunnelCalls, flatMap_single,
    filter_detachCalls_nil, filter_destroyCalls_nil, isEcmpDestroy, List.filter_map,
    Function.comp_def]

theorem clearPlan_filter_isEgressDestroy (d : bcm_vlan_t) (c : Cache) :
    (clearPlan d c).filter isEgressDestroy =
      c.egressId2Egress_.entries.map (fun e => HwCall.l3_egress_destroy e.1) := by
  simp [clearPlan, List.filter_append, filter_tunnelCalls, tunnelCalls, flatMap_single,
    filter_detachCalls_nil, filter_destroyCalls_nil, isEgressDestroy, List.filter_map,
    Function.comp_def]

theorem clearPlan_filter_isTunnelClear (d : bcm_vlan_t) (c : Cache) :
    (clearPlan d c).filter isTunnelClear =
      c.labelStackKey2TunnelId_.entries.map (fun e => HwCall.mpls_tunnel_initiator_clear e.2) := by
  simp [clearPlan, List.filter_append, filter_tunnelCalls, tunnelCalls, flatMap_single,
    filter_detachCalls_nil, filter_destroyCalls_nil, isTunnelClear, List.filter_map,
    Function.comp_def]

theorem clearPlan_filter_isIntfDelete (d : bcm_vlan_t) (c : Cache) :
    (clearPlan d c).filter isIntfDelete =
      c.labelStackKey2TunnelId_.entries.map (fun e => HwCall.l3_intf_delete
          { l3a_intf_id := e.2, l3a_flags := BCM_L3_WITH_ID }) ++
        c.vlanAndMac2Intf_.entries.map (fun e => HwCall.l3_intf_delete e.2) := by
  simp [clearPlan, List.filter_append, filter_tunnelCalls, tunnelCalls, flatMap_single,
    filter_detachCalls_nil, filter_destroyCalls_nil, isIntfDelete, List.filter_map,
    Function.comp_def]

theorem clearPlan_filter_isStationDelete (d : bcm_vlan_t) (c : Cache) :
    (clearPlan d c).filter isStationDelete =
      c.vlan2Station_.entries.map (fun e => HwCall.l2_station_delete e.1) := by
  simp [clearPlan, List.filter_append, filter_tunnelCalls, tunnelCalls, flatMap_single,
    filter_detachCalls_nil, filter_destroyCalls_nil, isStationDelete, List.filter_map,
    Function.comp_def]

theorem clearPlan_filter_isVlanDestroy (d : bcm_vlan_t) (c : Cache) :
    (clearPlan d c).filter isVlanDestroy =
      (c.vlan2VlanInfo_.entries.filter (fun e => decide (e.1 ≠ d))).map
        (fun e => HwCall.vlan_destroy e.1) := by
  simp [clearPlan, List.filter_append, filter_tunnelCalls, tunnelCalls, flatMap_single,
    filter_detachCalls_nil, filter_destroyCalls_nil, isVlanDestroy, List.filter_map,
    Function.comp_def]

theorem clearPlan_filter_isStatDetach (d : bcm_vlan_t) (c : Cache) :
    (clearPlan d c).filter isStatDetach =
      detachCalls c.aclEntry2AclStat_.entries := by
  simp [clearPlan, List.filter_append, filter_tunnelCalls, tunnelCalls, flatMap_single,
    filter_detachCalls_nil, filter_destroyCalls_nil, filter_detachCalls_self, isStatDetach, List.filter_map,
    Function.comp_def]

theorem clearPlan_filter_isStatDestroy (d : bcm_vlan_t) (c : Cache) :
    (clearPlan d c).filter isStatDestroy =
      destroyCalls c.aclEntry2AclStat_.entries (claimedStats c.aclEntry2AclStat_.entries ∅) := by
  simp [clearPlan, List.filter_append, filter_tunnelCalls, tunnelCalls, flatMap_single,
    filter_detachCalls_nil, filter_destroyCalls_nil, filter_destroyCalls_self, isStatDestroy, List.filter_map,
    Function.comp_def]

theorem clearPlan_filter_isAclDestroy (d : bcm_vlan_t) (c : Cache) :
    (clearPlan d c).filter isAclDestroy =
      c.priority2BcmAclEntryHandle_.entries.map (fun e => HwCall.field_entry_destroy e.2) := by
  simp [clearPlan, List.filter_append, filter_tunnelCalls, tunnelCalls, flatMap_single,
    filter_detachCalls_nil, filter_destroyCalls_nil, isAclDestroy, List.filter_map,
    Function.comp_def]

/-! ## Counting calls -/

theorem FlatMap.value_unique {K V : Type} (m : FlatMap K V) {k : K} {v1 v2 : V}
    (h1 : (k, v1) ∈ m.entries) (h2 : (k, v2) ∈ m.entries) : v1 = v2 := by
  have hn := m.nodup
  generalize m.entries = l at h1 h2 hn
  induction l with
  | nil => simp at h1
  | cons e l ih =>
    simp only [List.map_cons, List.nodup_cons, List.mem_map, not_exists, not_and] at hn
    rcases List.mem_cons.1 h1 with h1 | h1 <;> rcases List.mem_cons.1 h2 with h2 | h2
    · rw [← h1] at h2
      exact (Prod.mk.inj h2).2.symm
    · exact absurd (by rw [← h1]) (hn.1 (k, v2) h2)
    · exact absurd (by rw [← h2]) (hn.1 (k, v1) h1)
    · exact ih h1 h2 hn.2

theorem count_trace_le (hw : Hw) (c : Cache) (x : HwCall) :
    (runClear hw c).2.trace.count x ≤ (clearPlan hw.defaultVlan c).count x :=
  (runClear_trace hw c).sublist.count_le x

theorem mem_claimedStats {h : BcmAclStatHandle}
    (l : List (BcmAclEntryHandle × AclStatStatus)) (used : Finset BcmAclStatHandle) :
    h ∈ claimedStats l used ↔ h ∈ used ∨ ∃ e ∈ l, e.2.claimed = true ∧ e.2.stat = h := by
  induction l generalizing used with
  | nil => simp [claimedStats]
  | cons e l ih =>
    obtain ⟨acl, status⟩ := e
    cases hc : status.claimed with
    | false =>
      simp only [claimedStats, hc, Bool.not_false, if_true, ih, List.mem_cons, exists_eq_or_imp,
        Bool.false_eq_true, false_and, false_or]
    | true =>
      simp only [claimedStats, hc, Bool.not_true, Bool.false_eq_true, if_false, ih,
        Finset.mem_insert, List.mem_cons, exists_eq_or_imp, true_and]
      constructor
      · rintro ((h1 | h1) | h1)
        · exact Or.inr (Or.inl h1.symm)
        · exact Or.inl h1
        · exact Or.inr (Or.inr h1)
      · rintro (h1 | h1 | h1)
        · exact Or.inl (Or.inr h1)
        · exact Or.inl (Or.inl h1.symm)
        · exact Or.inr h1

theorem count_destroyCalls_of_used {h : BcmAclStatHandle}
    (l : List (BcmAclEntryHandle × AclStatStatus)) (used : Finset BcmAclStatHandle)
    (hu : h ∈ used) : (destroyCalls l used).count (HwCall.field_stat_destroy h) = 0 := by
  rw [List.count_eq_zero]
  intro hx
  obtain ⟨e, _, h1, h2⟩ := mem_destroyCalls hx
  cases h2
  exact h1 hu

theorem count_destroyCalls_of_absent {h : BcmAclStatHandle}
    (l : List (BcmAclEntryHandle × AclStatStatus)) (used : Finset BcmAclStatHandle)
    (hl : ∀ e ∈ l, e.2.stat ≠ h) : (destroyCalls l used).count (HwCall.field_stat_destroy h) = 0 := by
  rw [List.count_eq_zero]
  intro hx
  obtain ⟨e, he, _, h2⟩ := mem_destroyCalls hx
  cases h2
  exact hl e he rfl

theorem count_destroyCalls_of_fresh {h : BcmAclStatHandle}
    (l : List (BcmAclEntryHandle × AclStatStatus)) (used : Finset BcmAclStatHandle)
    (hu : h ∉ used) (hl : ∃ e ∈ l, e.2.stat = h) :
    (destroyCalls l used).count (HwCall.field_stat_destroy h) = 1 := by
  induction l generalizing used with
  | nil => simp at hl
  | cons e l ih =>
    obtain ⟨acl, status⟩ := e
    by_cases hs : status.stat ∈ used
    · have hne : status.stat ≠ h := fun e => hu (e ▸ hs)
      simp only [destroyCalls, hs, not_true_eq_false, if_false]
      apply ih used hu
      obtain ⟨e, he, h1⟩ := hl
      rcases List.mem_cons.1 he with he | he
      · subst he
        exact absurd h1 hne
      · exact ⟨e, he, h1⟩
    · simp only [destroyCalls, hs, not_false_eq_true, if_true]
      by_cases hh : status.stat = h
      · subst hh
        rw [List.count_cons_self, count_destroyCalls_of_used _ _ (Finset.mem_insert_self _ _)]
      · have hne : HwCall.field_stat_destroy status.stat ≠ HwCall.field_stat_destroy h := by
          intro e
          cases e
          exact hh rfl
        rw [List.count_cons_of_ne (Ne.symm hne)]
        apply ih
        · simp only [Finset.mem_insert, not_or]
          exact ⟨fun e => hh e.symm, hu⟩
        · obtain ⟨e, he, h1⟩ := hl
          rcases List.mem_cons.1 he with he | he
          · subst he
            exact absurd h1 hh
          · exact ⟨e, he, h1⟩

theorem count_destroyCalls_le_one (h : BcmAclStatHandle)
    (l : List (BcmAclEntryHandle × AclStatStatus)) (used : Finset BcmAclStatHandle) :
    (destroyCalls l used).count (HwCall.field_stat_destroy h) ≤ 1 := by
  by_cases hu : h ∈ used
  · rw [count_destroyCalls_of_used l used hu]
    exact Nat.zero_le _
  · by_cases hl : ∃ e ∈ l, e.2.stat = h
    · rw [count_destroyCalls_of_fresh l used hu hl]
    · rw [count_destroyCalls_of_absent l used (fun e he hh => hl ⟨e, he, hh⟩)]
      exact Nat.zero_le _

theorem count_clearPlan_stat_destroy (d : bcm_vlan_t) (c : Cache) (h : BcmAclStatHandle) :
    (clearPlan d c).count (HwCall.field_stat_destroy h) =
      (destroyCalls c.aclEntry2AclStat_.entries
        (claimedStats c.aclEntry2AclStat_.entries ∅)).count (HwCall.field_stat_destroy h) := by
  rw [← clearPlan_filter_isStatDestroy d c]
  exact (List.count_filter rfl).symm

theorem count_clearPlan_vlan_destroy (d : bcm_vlan_t) (c : Cache) (v : bcm_vlan_t) :
    (clearPlan d c).count (HwCall.vlan_destroy v) =
      ((c.vlan2VlanInfo_.entries.filter (fun e => decide (e.1 ≠ d))).map
        (fun e => HwCall.vlan_destroy e.1)).count (HwCall.vlan_destroy v) := by
  rw [← clearPlan_filter_isVlanDestroy d c]
  exact (List.count_filter rfl).symm

theorem getElem?_of_isPrefix {α : Type} {l1 l2 : List α} (hp : l1 <+: l2) {i : Nat} {a : α}
    (h : l1[i]? = some a) : l2[i]? = some a := by
  obtain ⟨t, rfl⟩ := hp
  obtain ⟨hi, _⟩ := List.getElem?_eq_some.1 h
  rw [List.getElem?_append_left hi]
  exact h

theorem getElem?_isPrefix_of_lt {α : Type} {l1 l2 : List α} (hp : l1 <+: l2) {i : Nat} {a : α}
    (hi : i < l1.length) (h : l2[i]? = some a) : l1[i]? = some a := by
  obtain ⟨t, rfl⟩ := hp
  rw [List.getElem?_append_left hi] at h
  exact h

theorem mem_clearPlan_of_isStatDestroy {d : bcm_vlan_t} {c : Cache} {h : BcmAclStatHandle}
    (hm : HwCall.field_stat_destroy h ∈ clearPlan d c) :
    h ∉ claimedStats c.aclEntry2AclStat_.entries ∅ := by
  have h1 : HwCall.field_stat_destroy h ∈ (clearPlan d c).filter isStatDestroy :=
    List.mem_filter.2 ⟨hm, rfl⟩
  rw [clearPlan_filter_isStatDestroy] at h1
  obtain ⟨e, _, hnot, heq⟩ := mem_destroyCalls h1
  cases heq
  exact hnot

theorem mem_clearPlan_of_isStatDetach {d : bcm_vlan_t} {c : Cache} {acl : BcmAclEntryHandle}
    {st : BcmAclStatHandle} :
    HwCall.field_entry_stat_detach acl st ∈ clearPlan d c ↔
      (acl, ({ stat := st, claimed := false } : AclStatStatus)) ∈ c.aclEntry2AclStat_.entries := by
  constructor
  · intro hm
    have h1 : HwCall.field_entry_stat_detach acl st ∈ (clearPlan d c).filter isStatDetach :=
      List.mem_filter.2 ⟨hm, rfl⟩
    rw [clearPlan_filter_isStatDetach] at h1
    obtain ⟨e, he, hc, heq⟩ := mem_detachCalls h1
    obtain ⟨a, status⟩ := e
    obtain ⟨s1, c1⟩ := status
    cases heq
    simp only at hc
    subst hc
    exact he
  · intro hm
    have h1 : HwCall.field_entry_stat_detach acl st ∈ detachCalls c.aclEntry2AclStat_.entries := by
      simp only [detachCalls, List.mem_map, List.mem_filter]
      exact ⟨_, ⟨hm, rfl⟩, rfl⟩
    rw [← clearPlan_filter_isStatDetach d c] at h1
    exact (List.mem_filter.1 h1).1

theorem residualFree_congr {c c2 : Cache} (h : sameResidual c c2) :
    residualFree c2 ↔ residualFree c := by
  obtain ⟨h1, h2, h3, h4, h5⟩ := h
  unfold residualFree
  rw [h1, h2, h3, h4, h5]

/-! ## Lookup after insertion -/

theorem FlatMap.lookup_eq_none {K V : Type} [DecidableEq K] {k : K} {l : List (K × V)}
    (h : ∀ e ∈ l, e.1 ≠ k) : FlatMap.lookup k l = none := by
  induction l with
  | nil => rfl
  | cons e l ih =>
    obtain ⟨a, b⟩ := e
    have h1 : a ≠ k := h (a, b) (List.mem_cons_self _ _)
    simp only [FlatMap.lookup, h1, if_false]
    exact ih (fun e he => h e (List.mem_cons_of_mem _ he))

theorem FlatMap.lookup_append {K V : Type} [DecidableEq K] {k : K} {l1 l2 : List (K × V)}
    (h : FlatMap.lookup k l1 = none) : FlatMap.lookup k (l1 ++ l2) = FlatMap.lookup k l2 := by
  induction l1 with
  | nil => rfl
  | cons e l ih =>
    obtain ⟨a, b⟩ := e
    by_cases h1 : a = k
    · simp [FlatMap.lookup, h1] at h
    · simp only [FlatMap.lookup, h1, if_false] at h
      simp only [List.cons_append, FlatMap.lookup, h1, if_false]
      exact ih h

theorem FlatMap.find_insert_self {K V : Type} [DecidableEq K] (m : FlatMap K V) (k : K) (v : V) :
    (m.insert k v).find k = some v := by
  unfold FlatMap.find FlatMap.insert
  simp only
  rw [FlatMap.lookup_append]
  · simp [FlatMap.lookup]
  · apply FlatMap.lookup_eq_none
    intro e he
    simpa using (List.mem_filter.1 he).2

theorem FlatMap.isEmpty_of_find {K V : Type} [DecidableEq K] {m : FlatMap K V} {k : K} {v : V}
    (h : m.find k = some v) : m.isEmpty = false := by
  unfold FlatMap.find at h
  unfold FlatMap.isEmpty
  cases he : m.entries with
  | nil => rw [he] at h; simp [FlatMap.lookup] at h
  | cons e l => rfl

/-! ## Lookup after an update -/

theorem FlatMap.lookup_append_some {K V : Type} [DecidableEq K] {k : K} {v : V}
    {l1 l2 : List (K × V)} (h : FlatMap.lookup k l1 = some v) :
    FlatMap.lookup k (l1 ++ l2) = some v := by
  induction l1 with
  | nil => simp [FlatMap.lookup] at h
  | cons e l ih =>
    obtain ⟨a, b⟩ := e
    by_cases h1 : a = k
    · simp only [FlatMap.lookup, h1, if_true] at h
      simp [FlatMap.lookup, h1, h]
    · simp only [FlatMap.lookup, h1, if_false] at h
      simp only [List.cons_append, FlatMap.lookup, h1, if_false]
      exact ih h

theorem FlatMap.lookup_filter_ne {K V : Type} [DecidableEq K] {k k2 : K} (l : List (K × V))
    (h : k ≠ k2) :
    FlatMap.lookup k (l.filter (fun e => decide (e.1 ≠ k2))) = FlatMap.lookup k l := by
  induction l with
  | nil => rfl
  | cons e l ih =>
    obtain ⟨a, b⟩ := e
    by_cases h1 : a = k2
    · subst h1
      have h2 : ¬ a = k := fun h3 => h h3.symm
      rw [List.filter_cons_of_neg (by simp)]
      simp only [FlatMap.lookup, h2, if_false]
      exact ih
    · rw [List.filter_cons_of_pos (by simpa using h1)]
      by_cases h2 : a = k
      · simp only [FlatMap.lookup, h2, if_true]
      · simp only [FlatMap.lookup, h2, if_false]
        exact ih

theorem FlatMap.find_empty {K V : Type} [DecidableEq K] (k : K) :
    (FlatMap.empty : FlatMap K V).find k = none := rfl

theorem FlatMap.find_insert_ne {K V : Type} [DecidableEq K] (m : FlatMap K V) {k k2 : K} (v : V)
    (h : k ≠ k2) : (m.insert k2 v).find k = m.find k := by
  unfold FlatMap.find FlatMap.insert
  simp only
  cases hl : FlatMap.lookup k m.entries with
  | none =>
    rw [FlatMap.lookup_append]
    · simp [FlatMap.lookup, Ne.symm h]
    · rw [FlatMap.lookup_filter_ne _ h, hl]
  | some w =>
    apply FlatMap.lookup_append_some
    rw [FlatMap.lookup_filter_ne _ h, hl]

theorem FlatMap.find_erase_self {K V : Type} [DecidableEq K] (m : FlatMap K V) (k : K) :
    (m.erase k).find k = none := by
  unfold FlatMap.find FlatMap.erase FlatMap.filter
  apply FlatMap.lookup_eq_none
  intro e he
  simpa using (List.mem_filter.1 he).2

theorem FlatMap.find_erase_ne {K V : Type} [DecidableEq K] (m : FlatMap K V) {k k2 : K}
    (h : k ≠ k2) : (m.erase k2).find k = m.find k := by
  unfold FlatMap.find FlatMap.erase FlatMap.filter
  exact FlatMap.lookup_filter_ne _ h

theorem FlatMap.find_emplace_of_some {K V : Type} [DecidableEq K] (m : FlatMap K V) {k k2 : K}
    {v : V} (v2 : V) (h : m.find k = some v) : (m.emplace k2 v2).find k = some v := by
  unfold FlatMap.emplace
  cases h2 : m.find k2 with
  | some w => exact h
  | none =>
    have hne : k ≠ k2 := by
      intro e
      rw [e, h2] at h
      cases h
    simp only
    rw [FlatMap.find_insert_ne m v2 hne]
    exact h

theorem FlatMap.lookup_modify {K V : Type} [DecidableEq K] (l : List (K × V)) (k k2 : K)
    (f : V → V) :
    FlatMap.lookup k (l.map (fun e => if e.1 = k2 then (e.1, f e.2) else e)) =
      if k = k2 then (FlatMap.lookup k l).map f else FlatMap.lookup k l := by
  induction l with
  | nil => simp [FlatMap.lookup]
  | cons e l ih =>
    obtain ⟨a, b⟩ := e
    rw [List.map_cons]
    by_cases h1 : a = k2
    · rw [if_pos h1]
      by_cases h2 : a = k
      · have h3 : k = k2 := h2.symm.trans h1
        simp only [FlatMap.lookup, h2, if_true, h3, Option.map_some']
      · have h3 : ¬ k = k2 := fun e => h2 (h1.trans e.symm)
        simp only [FlatMap.lookup, h2, if_false, h3] at ih ⊢
        exact ih
    · rw [if_neg h1]
      by_cases h2 : a = k
      · have h3 : ¬ k = k2 := fun e => h1 (h2.trans e)
        simp only [FlatMap.lookup, h2, if_true, h3, if_false]
      · simp only [FlatMap.lookup, h2, if_false]
        exact ih

theorem FlatMap.find_modify_self {K V : Type} [DecidableEq K] (m : FlatMap K V) (k : K)
    (f : V → V) : (m.modify k f).find k = (m.find k).map f := by
  unfold FlatMap.find FlatMap.modify
  simp only
  rw [FlatMap.lookup_modify]
  simp

theorem FlatMap.find_modify_ne {K V : Type} [DecidableEq K] (m : FlatMap K V) {k k2 : K}
    (f : V → V) (h : k ≠ k2) : (m.modify k2 f).find k = m.find k := by
  unfold FlatMap.find FlatMap.modify
  simp only
  rw [FlatMap.lookup_modify]
  simp [h]

theorem FlatMap.size_pos_of_find {K V : Type} [DecidableEq K] {m : FlatMap K V} {k : K} {v : V}
    (h : m.find k = some v) : m.size ≠ 0 := by
  unfold FlatMap.find at h
  unfold FlatMap.size
  cases he : m.entries with
  | nil => rw [he] at h; simp [FlatMap.lookup] at h
  | cons e l => simp

/-! ## The egress scan -/

theorem populateLabelStack2TunnelId_frame (platform : Platform) (q : HwQuery)
    (egress : bcm_l3_egress_t) (c : Cache) :
    populateLabelStack2TunnelId platform q egress c =
      { c with labelStackKey2TunnelId_ :=
          (populateLabelStack2TunnelId platform q egress c).labelStackKey2TunnelId_ } := by
  unfold populateLabelStack2TunnelId
  by_cases h1 : egress.mpls_label = BCM_MPLS_LABEL_INVALID
  · simp only [h1, if_true]
  · simp only [h1, if_false]
    split_ifs
    · rfl
    · split <;> rfl
    · split <;> rfl

/-- What a callback that returned says about the cache before and after it. -/
theorem egressTraversalCallback_ok {platform : Platform} {q : HwQuery} {egressId : EgressId}
    {egress : bcm_l3_egress_t} {c c2 : Cache} {r : Int}
    (h : egressTraversalCallback platform q egressId egress c = .ok (r, c2)) :
    r = 0 ∧ c.egressId2Egress_.find egressId = none ∧
    ((egressId ∈ c.egressIdsInWarmBootFile_ ∧
        c2 = populateLabelStack2TunnelId platform q egress
          { c with egressId2Egress_ := c.egressId2Egress_.insert egressId egress }) ∨
      (egressId ∉ c.egressIdsInWarmBootFile_ ∧ egress.flags &&& BCM_L3_DST_DISCARD ≠ 0 ∧
        c.dropEgressId_ = INVALID ∧
        c2 = populateLabelStack2TunnelId platform q egress { c with dropEgressId_ := egressId }) ∨
      (egressId ∉ c.egressIdsInWarmBootFile_ ∧ ¬ egress.flags &&& BCM_L3_DST_DISCARD ≠ 0 ∧
        egress.flags &&& (BCM_L3_L2TOCPU ||| BCM_L3_COPY_TO_CPU) ≠ 0 ∧
        c.toCPUEgressId_ = INVALID ∧
        c2 = populateLabelStack2TunnelId platform q egress { c with toCPUEgressId_ := egressId })) := by
  unfold egressTraversalCallback at h
  cases hf : c.egressId2Egress_.find egressId with
  | some v => simp [hf] at h
  | none =>
    simp only [hf, Option.isSome_none, Bool.false_eq_true, if_false] at h
    by_cases h1 : egressId ∈ c.egressIdsInWarmBootFile_
    · rw [if_pos h1] at h
      simp only [Except.ok.injEq, Prod.mk.injEq] at h
      exact ⟨h.1.symm, rfl, Or.inl ⟨h1, h.2.symm⟩⟩
    · rw [if_neg h1] at h
      by_cases h2 : egress.flags &&& BCM_L3_DST_DISCARD ≠ 0
      · rw [if_pos h2] at h
        by_cases h3 : c.dropEgressId_ ≠ INVALID
        · rw [if_pos h3] at h
          cases h
        · rw [if_neg h3] at h
          simp only [Except.ok.injEq, Prod.mk.injEq] at h
          exact ⟨h.1.symm, rfl, Or.inr (Or.inl ⟨h1, h2, not_not.1 h3, h.2.symm⟩)⟩
      · rw [if_neg h2] at h
        by_cases h4 : egress.flags &&& (BCM_L3_L2TOCPU ||| BCM_L3_COPY_TO_CPU) ≠ 0
        · rw [if_pos h4] at h
          by_cases h3 : c.toCPUEgressId_ ≠ INVALID
          · rw [if_pos h3] at h
            cases h
          · rw [if_neg h3] at h
            simp only [Except.ok.injEq, Prod.mk.injEq] at h
            exact ⟨h.1.symm, rfl, Or.inr (Or.inr ⟨h1, h2, h4, not_not.1 h3, h.2.symm⟩)⟩
        · rw [if_neg h4] at h
          cases h

/-- Every failure of the callback is a process abort. -/
theorem egressTraversalCallback_error {platform : Platform} {q : HwQuery} {egressId : EgressId}
    {egress : bcm_l3_egress_t} {c : Cache} {e : Failure}
    (h : egressTraversalCallback platform q egressId egress c = .error e) : e = .CheckFailed := by
  unfold egressTraversalCallback at h
  split_ifs at h <;> cases h <;> rfl

/-- The fields that a callback that returned leaves as they were, and the class
of the egress object it recorded. -/
theorem egressTraversalCallback_class {platform : Platform} {q : HwQuery} {egressId : EgressId}
    {egress : bcm_l3_egress_t} {c c2 : Cache} {r : Int}
    (h : egressTraversalCallback platform q egressId egress c = .ok (r, c2)) :
    c2.egressIdsInWarmBootFile_ = c.egressIdsInWarmBootFile_ ∧
    c2.vrfIp2EgressFromBcmHostInWarmBootFile_ = c.vrfIp2EgressFromBcmHostInWarmBootFile_ ∧
    c2.aclEntry2AclStat_ = c.aclEntry2AclStat_ ∧
    ((egressId ∈ c.egressIdsInWarmBootFile_ ∧
        c2.egressId2Egress_ = c.egressId2Egress_.insert egressId egress ∧
        c2.dropEgressId_ = c.dropEgressId_ ∧ c2.toCPUEgressId_ = c.toCPUEgressId_) ∨
      (egressId ∉ c.egressIdsInWarmBootFile_ ∧ egress.flags &&& BCM_L3_DST_DISCARD ≠ 0 ∧
        c.dropEgressId_ = INVALID ∧ c2.dropEgressId_ = egressId ∧
        c2.egressId2Egress_ = c.egressId2Egress_ ∧ c2.toCPUEgressId_ = c.toCPUEgressId_) ∨
      (egressId ∉ c.egressIdsInWarmBootFile_ ∧ ¬ egress.flags &&& BCM_L3_DST_DISCARD ≠ 0 ∧
        egress.flags &&& (BCM_L3_L2TOCPU ||| BCM_L3_COPY_TO_CPU) ≠ 0 ∧
        c.toCPUEgressId_ = INVALID ∧ c2.toCPUEgressId_ = egressId ∧
        c2.egressId2Egress_ = c.egressId2Egress_ ∧ c2.dropEgressId_ = c.dropEgressId_)) := by
  obtain ⟨_, _, h1 | h1 | h1⟩ := egressTraversalCallback_ok h
  · obtain ⟨h2, h3⟩ := h1
    subst h3
    rw [populateLabelStack2TunnelId_frame]
    exact ⟨rfl, rfl, rfl, Or.inl ⟨h2, rfl, rfl, rfl⟩⟩
  · obtain ⟨h2, h3, h4, h5⟩ := h1
    subst h5
    rw [populateLabelStack2TunnelId_frame]
    exact ⟨rfl, rfl, rfl, Or.inr (Or.inl ⟨h2, h3, h4, rfl, rfl, rfl⟩)⟩
  · obtain ⟨h2, h3, h4, h5, h6⟩ := h1
    subst h6
    rw [populateLabelStack2TunnelId_frame]
    exact ⟨rfl, rfl, rfl, Or.inr (Or.inr ⟨h2, h3, h4, h5, rfl, rfl, rfl⟩)⟩

theorem visited_fatal {platform : Platform} {q : HwQuery} {egressId : EgressId}
    {egress : bcm_l3_egress_t} {c : Cache} (h : Visited egressId egress c) :
    egressTraversalCallback platform q egressId egress c = .error .CheckFailed := by
  unfold egressTraversalCallback
  rcases h with h | ⟨h1, h2, h3⟩ | ⟨h1, h2, h4, h3⟩
  · rw [if_pos h]
  · by_cases h0 : (c.egressId2Egress_.find egressId).isSome
    · rw [if_pos h0]
    · rw [if_neg h0, if_neg h1, if_pos h2, if_pos h3]
  · by_cases h0 : (c.egressId2Egress_.find egressId).isSome
    · rw [if_pos h0]
    · rw [if_neg h0, if_neg h1, if_neg h2, if_pos h4, if_pos h3]

theorem visited_after_first {platform : Platform} {q : HwQuery} {egressId : EgressId}
    {egress : bcm_l3_egress_t} {c c2 : Cache} {r : Int} (hvalid : egressId ≠ INVALID)
    (h : egressTraversalCallback platform q egressId egress c = .ok (r, c2)) :
    Visited egressId egress c2 := by
  obtain ⟨hf, _, _, h1 | h1 | h1⟩ := egressTraversalCallback_class h
  · obtain ⟨_, h3, _, _⟩ := h1
    left
    rw [h3, FlatMap.find_insert_self]
    rfl
  · obtain ⟨h2, h3, _, h5, _, _⟩ := h1
    right; left
    rw [hf, h5]
    exact ⟨h2, h3, hvalid⟩
  · obtain ⟨h2, h3, h4, _, h5, _, _⟩ := h1
    right; right
    rw [hf, h5]
    exact ⟨h2, h3, h4, hvalid⟩

theorem visited_step {platform : Platform} {q : HwQuery} {egressId id2 : EgressId}
    {egress egress2 : bcm_l3_egress_t} {c c2 : Cache} {r : Int}
    (hv : Visited egressId egress c)
    (h : egressTraversalCallback platform q id2 egress2 c = .ok (r, c2)) :
    Visited egressId egress c2 := by
  have hnone := (egressTraversalCallback_ok h).2.1
  obtain ⟨hf, _, _, hc⟩ := egressTraversalCallback_class h
  have hidx : (c.egressId2Egress_.find egressId).isSome →
      (c2.egressId2Egress_.find egressId).isSome := by
    intro hs
    rcases hc with ⟨_, h3, _, _⟩ | ⟨_, _, _, _, h3, _⟩ | ⟨_, _, _, _, _, h3, _⟩
    · have hne : egressId ≠ id2 := by
        intro e
        rw [e, hnone] at hs
        cases hs
      rw [h3, FlatMap.find_insert_ne _ _ hne]
      exact hs
    · rw [h3]; exact hs
    · rw [h3]; exact hs
  rcases hv with hv | ⟨h1, h2, h3⟩ | ⟨h1, h2, h4, h3⟩
  · exact Or.inl (hidx hv)
  · right; left
    rw [hf]
    refine ⟨h1, h2, ?_⟩
    rcases hc with ⟨_, _, h5, _⟩ | ⟨_, _, h5, _, _, _⟩ | ⟨_, _, _, _, _, _, h5⟩
    · rw [h5]; exact h3
    · exact absurd h5 h3
    · rw [h5]; exact h3
  · right; right
    rw [hf]
    refine ⟨h1, h2, h4, ?_⟩
    rcases hc with ⟨_, _, _, h5⟩ | ⟨_, _, _, _, _, h5⟩ | ⟨_, _, _, h5, _, _, _⟩
    · rw [h5]; exact h3
    · rw [h5]; exact h3
    · exact absurd h5 h3

theorem visited_traverse {platform : Platform} {q : HwQuery} {egressId : EgressId}
    {egress : bcm_l3_egress_t} (scanned : List (EgressId × bcm_l3_egress_t)) {c c2 : Cache}
    (hv : Visited egressId egress c)
    (h : bcm_l3_egress_traverse platform q scanned c = .ok c2) :
    Visited egressId egress c2 := by
  induction scanned generalizing c with
  | nil =>
    simp only [bcm_l3_egress_traverse, Except.ok.injEq] at h
    rw [← h]
    exact hv
  | cons e rest ih =>
    obtain ⟨id2, egress2⟩ := e
    simp only [bcm_l3_egress_traverse] at h
    cases hcb : egressTraversalCallback platform q id2 egress2 c with
    | error e => rw [hcb] at h; cases h
    | ok rc =>
      obtain ⟨r, c1⟩ := rc
      rw [hcb] at h
      exact ih (visited_step hv hcb) h

theorem insertPaths_frame (id : EgressId) (paths : List Int) (c : Cache) :
    insertPaths id paths c =
      { c with hwSwitchEcmp2EgressIds_ := (insertPaths id paths c).hwSwitchEcmp2EgressIds_ } := by
  unfold insertPaths
  induction paths generalizing c with
  | nil => rfl
  | cons p ps ih =>
    rw [List.foldl_cons, ih]

theorem extractEcmpHosts_frame (l : List EcmpHostDynamic) (c : Cache) :
    extractEcmpHosts l c =
      { c with hwSwitchEcmp2EgressIds_ := (extractEcmpHosts l c).hwSwitchEcmp2EgressIds_ } := by
  induction l generalizing c with
  | nil => rfl
  | cons e rest ih =>
    unfold extractEcmpHosts
    split_ifs
    · exact ih c
    · rw [ih, insertPaths_frame]

theorem extractEcmpObjects_frame (l : List EcmpObjectDynamic) {c c2 : Cache}
    (h : extractEcmpObjects l c = .ok c2) :
    c2 = { c with hwSwitchEcmp2EgressIds_ := c2.hwSwitchEcmp2EgressIds_ } := by
  induction l generalizing c with
  | nil =>
    simp only [extractEcmpObjects, Except.ok.injEq] at h
    rw [← h]
  | cons e rest ih =>
    unfold extractEcmpObjects at h
    split_ifs at h
    rw [ih h, insertPaths_frame]

theorem extractTrunks_frame (t : Option (List (AggregatePortID × Int))) (c : Cache) :
    extractTrunks t c = { c with trunks_ := (extractTrunks t c).trunks_ } := by
  cases t with
  | none => rfl
  | some l =>
    show l.foldl (fun cache e => { cache with trunks_ := cache.trunks_.insert e.1 e.2 }) c =
      { c with trunks_ :=
          (l.foldl (fun cache e => { cache with trunks_ := cache.trunks_.insert e.1 e.2 })
            c).trunks_ }
    induction l generalizing c with
    | nil => rfl
    | cons e rest ih =>
      rw [List.foldl_cons, ih]

theorem extractHosts_frame (l : List HostDynamic) (c : Cache) :
    extractHosts l c =
      { c with
        egressIdsInWarmBootFile_ := (extractHosts l c).egressIdsInWarmBootFile_
        vrfIp2EgressFromBcmHostInWarmBootFile_ :=
          (extractHosts l c).vrfIp2EgressFromBcmHostInWarmBootFile_ } := by
  induction l generalizing c with
  | nil => rfl
  | cons e rest ih =>
    unfold extractHosts
    split_ifs
    · exact ih c
    · rw [ih]

theorem extractMplsNextHops_frame (l : List MplsNextHopDynamic) {c c2 : Cache}
    (h : extractMplsNextHops l c = .ok c2) :
    c2 = { c with
      egressIdsInWarmBootFile_ := c2.egressIdsInWarmBootFile_
      mplsNextHops2EgressIdInWarmBootFile_ := c2.mplsNextHops2EgressIdInWarmBootFile_ } := by
  induction l generalizing c with
  | nil =>
    simp only [extractMplsNextHops, Except.ok.injEq] at h
    rw [← h]
  | cons e rest ih =>
    unfold extractMplsNextHops at h
    split_ifs at h
    · exact ih h
    · simp only at h
      split at h
      · rw [ih h]
      · rw [ih h]
      · cases h

theorem extractIntfTable_frame (l : List IntfTableDynamic) (c : Cache) :
    extractIntfTable l c =
      { c with vlan2BcmIfIdInWarmBootFile_ :=
          (extractIntfTable l c).vlan2BcmIfIdInWarmBootFile_ } := by
  unfold extractIntfTable
  induction l generalizing c with
  | nil => rfl
  | cons e rest ih =>
    rw [List.foldl_cons, ih]

theorem extractQosPolicies_frame (l : List (String × QosPolicyDynamic)) (c : Cache) :
    extractQosPolicies l c =
      { c with qosMapKey2QosMapId_ := (extractQosPolicies l c).qosMapKey2QosMapId_ } := by
  induction l generalizing c with
  | nil => rfl
  | cons e rest ih =>
    obtain ⟨n, p⟩ := e
    unfold extractQosPolicies
    simp only
    rw [ih]
/-! ## The restore -/

theorem RestoreFrame.refl (c : Cache) : RestoreFrame c c := rfl

theorem RestoreFrame.trans {a b c : Cache} (h1 : RestoreFrame a b) (h2 : RestoreFrame b c) :
    RestoreFrame a c := by
  unfold RestoreFrame at *
  rw [h2, h1]

/-- The restore, step by step. -/
theorem populateFromWarmBootState_eq (doc : WarmBootState) (c : Cache) :
    populateFromWarmBootState doc c =
      match extractEcmpObjects doc.warmBootCache.ecmpObjects
          (extractEcmpHosts doc.ecmpHosts
            { c with dumpedSwSwitchState_ := some doc.swSwitch }) with
      | .error e => .error e
      | .ok c1 =>
        match extractMplsNextHops (doc.mplsNextHops.getD [])
            (extractHosts doc.hosts (extractTrunks doc.warmBootCache.trunks c1)) with
        | .error e => .error e
        | .ok c4 =>
          .ok (extractQosPolicies (doc.qosPolicyTable.getD [])
            (extractIntfTable (doc.intfTable.getD []) c4)) := by
  obtain ⟨sw, eh, hs, wbc, mpls, intf, qos⟩ := doc
  unfold populateFromWarmBootState
  simp only [bind, Except.bind, pure, Except.pure]
  cases extractEcmpObjects wbc.ecmpObjects
      (extractEcmpHosts eh { c with dumpedSwSwitchState_ := some sw }) with
  | error e => rfl
  | ok c1 =>
    cases mpls <;> cases intf <;> cases qos <;> simp only [Option.getD] <;> split <;> (rename_i h; rw [h])

/-- The steps of a restore that returned. -/
theorem populateFromWarmBootState_ok {doc : WarmBootState} {c c2 : Cache}
    (h : populateFromWarmBootState doc c = .ok c2) :
    ∃ c1 c4 : Cache,
      extractEcmpObjects doc.warmBootCache.ecmpObjects
        (extractEcmpHosts doc.ecmpHosts
          { c with dumpedSwSwitchState_ := some doc.swSwitch }) = .ok c1 ∧
      extractMplsNextHops (doc.mplsNextHops.getD [])
        (extractHosts doc.hosts (extractTrunks doc.warmBootCache.trunks c1)) = .ok c4 ∧
      c2 = extractQosPolicies (doc.qosPolicyTable.getD [])
        (extractIntfTable (doc.intfTable.getD []) c4) := by
  rw [populateFromWarmBootState_eq] at h
  cases h1 : extractEcmpObjects doc.warmBootCache.ecmpObjects
      (extractEcmpHosts doc.ecmpHosts { c with dumpedSwSwitchState_ := some doc.swSwitch }) with
  | error e => rw [h1] at h; cases h
  | ok c1 =>
    rw [h1] at h
    simp only at h
    cases h2 : extractMplsNextHops (doc.mplsNextHops.getD [])
        (extractHosts doc.hosts (extractTrunks doc.warmBootCache.trunks c1)) with
    | error e => rw [h2] at h; cases h
    | ok c4 =>
      rw [h2] at h
      simp only [Except.ok.injEq] at h
      exact ⟨c1, c4, rfl, h2, h.symm⟩

theorem restoreFrame_populate {doc : WarmBootState} {c c2 : Cache}
    (h : populateFromWarmBootState doc c = .ok c2) : RestoreFrame c c2 := by
  obtain ⟨c1, c4, h1, h2, h3⟩ := populateFromWarmBootState_ok h
  subst h3
  have s0 : RestoreFrame c { c with dumpedSwSwitchState_ := some doc.swSwitch } := rfl
  have s1 : ∀ (l : List EcmpHostDynamic) (a : Cache), RestoreFrame a (extractEcmpHosts l a) := by
    intro l a
    unfold RestoreFrame
    rw [extractEcmpHosts_frame]
  have s2 : ∀ a b : Cache, extractEcmpObjects doc.warmBootCache.ecmpObjects a = .ok b →
      RestoreFrame a b := by
    intro a b hab
    unfold RestoreFrame
    rw [extractEcmpObjects_frame _ hab]
  have s3 : ∀ (t : Option (List (AggregatePortID × Int))) (a : Cache),
      RestoreFrame a (extractTrunks t a) := by
    intro t a
    unfold RestoreFrame
    rw [extractTrunks_frame]
  have s4 : ∀ (l : List HostDynamic) (a : Cache), RestoreFrame a (extractHosts l a) := by
    intro l a
    unfold RestoreFrame
    rw [extractHosts_frame]
  have s5 : ∀ (l : List MplsNextHopDynamic) (a b : Cache), extractMplsNextHops l a = .ok b →
      RestoreFrame a b := by
    intro l a b hab
    unfold RestoreFrame
    rw [extractMplsNextHops_frame _ hab]
  have s6 : ∀ (l : List IntfTableDynamic) (a : Cache), RestoreFrame a (extractIntfTable l a) := by
    intro l a
    unfold RestoreFrame
    rw [extractIntfTable_frame]
  have s7 : ∀ (l : List (String × QosPolicyDynamic)) (a : Cache),
      RestoreFrame a (extractQosPolicies l a) := by
    intro l a
    unfold RestoreFrame
    rw [extractQosPolicies_frame]
  exact s0.trans ((s1 _ _).trans ((s2 _ _ h1).trans ((s3 _ _).trans ((s4 _ _).trans
    ((s5 _ _ _ h2).trans ((s6 _ _).trans (s7 _ _)))))))
/-! ## The egress ids of the restored file -/

theorem extractHosts_file (l : List HostDynamic) (c : Cache) (id : EgressId) :
    id ∈ (extractHosts l c).egressIdsInWarmBootFile_ ↔
      id ∈ c.egressIdsInWarmBootFile_ ∨ ∃ h ∈ l, h.egressId ≠ INVALID ∧ h.egressId = id := by
  induction l generalizing c with
  | nil => simp [extractHosts]
  | cons e rest ih =>
    unfold extractHosts
    split_ifs with h1
    · rw [ih]
      constructor
      · rintro (h | ⟨x, hx, hv, he⟩)
        · exact Or.inl h
        · exact Or.inr ⟨x, List.mem_cons_of_mem _ hx, hv, he⟩
      · rintro (h | ⟨x, hx, hv, he⟩)
        · exact Or.inl h
        · rcases List.mem_cons.1 hx with rfl | hx
          · exact absurd h1 hv
          · exact Or.inr ⟨x, hx, hv, he⟩
    · rw [ih]
      simp only [Finset.mem_insert]
      constructor
      · rintro ((h | h) | ⟨x, hx, hv, he⟩)
        · exact Or.inr ⟨e, List.mem_cons_self _ _, h1, h.symm⟩
        · exact Or.inl h
        · exact Or.inr ⟨x, List.mem_cons_of_mem _ hx, hv, he⟩
      · rintro (h | ⟨x, hx, hv, he⟩)
        · exact Or.inl (Or.inr h)
        · rcases List.mem_cons.1 hx with rfl | hx
          · exact Or.inl (Or.inl he.symm)
          · exact Or.inr ⟨x, hx, hv, he⟩

theorem extractMplsNextHops_file (l : List MplsNextHopDynamic) {c c2 : Cache}
    (h : extractMplsNextHops l c = .ok c2) (id : EgressId) :
    id ∈ c2.egressIdsInWarmBootFile_ ↔
      id ∈ c.egressIdsInWarmBootFile_ ∨ ∃ n ∈ l, n.egressId ≠ INVALID ∧ n.egressId = id := by
  induction l generalizing c with
  | nil =>
    simp only [extractMplsNextHops, Except.ok.injEq] at h
    rw [← h]
    simp
  | cons e rest ih =>
    unfold extractMplsNextHops at h
    split_ifs at h with h1
    · rw [ih h]
      constructor
      · rintro (h | ⟨x, hx, hv, he⟩)
        · exact Or.inl h
        · exact Or.inr ⟨x, List.mem_cons_of_mem _ hx, hv, he⟩
      · rintro (h | ⟨x, hx, hv, he⟩)
        · exact Or.inl h
        · rcases List.mem_cons.1 hx with rfl | hx
          · exact absurd h1 hv
          · exact Or.inr ⟨x, hx, hv, he⟩
    · have key : ∀ c3 : Cache, extractMplsNextHops rest c3 = .ok c2 →
          c3.egressIdsInWarmBootFile_ = insert e.egressId c.egressIdsInWarmBootFile_ →
          (id ∈ c2.egressIdsInWarmBootFile_ ↔
            id ∈ c.egressIdsInWarmBootFile_ ∨
              ∃ n ∈ e :: rest, n.egressId ≠ INVALID ∧ n.egressId = id) := by
        intro c3 h3 hf
        rw [ih h3, hf]
        simp only [Finset.mem_insert]
        constructor
        · rintro ((h | h) | ⟨x, hx, hv, he⟩)
          · exact Or.inr ⟨e, List.mem_cons_self _ _, h1, h.symm⟩
          · exact Or.inl h
          · exact Or.inr ⟨x, List.mem_cons_of_mem _ hx, hv, he⟩
        · rintro (h | ⟨x, hx, hv, he⟩)
          · exact Or.inl (Or.inr h)
          · rcases List.mem_cons.1 hx with rfl | hx
            · exact Or.inl (Or.inl he.symm)
            · exact Or.inr ⟨x, hx, hv, he⟩
      simp only at h
      split at h
      · exact key _ h rfl
      · exact key _ h rfl
      · cases h

/-- The egress ids that a restore that returned holds: those it held before and
the valid egress ids of the hosts and of the MPLS next hops of the file. -/
theorem populateFromWarmBootState_file {doc : WarmBootState} {c c2 : Cache}
    (h : populateFromWarmBootState doc c = .ok c2) (id : EgressId) :
    id ∈ c2.egressIdsInWarmBootFile_ ↔
      id ∈ c.egressIdsInWarmBootFile_ ∨
        (∃ h ∈ doc.hosts, h.egressId ≠ INVALID ∧ h.egressId = id) ∨
        ∃ n ∈ doc.mplsNextHops.getD [], n.egressId ≠ INVALID ∧ n.egressId = id := by
  obtain ⟨c1, c4, h1, h2, h3⟩ := populateFromWarmBootState_ok h
  have e1 : c2.egressIdsInWarmBootFile_ = c4.egressIdsInWarmBootFile_ := by
    rw [h3, extractQosPolicies_frame, extractIntfTable_frame]
  have e2 : (extractTrunks doc.warmBootCache.trunks c1).egressIdsInWarmBootFile_ =
      c.egressIdsInWarmBootFile_ := by
    rw [extractTrunks_frame, extractEcmpObjects_frame _ h1, extractEcmpHosts_frame]
  rw [e1, extractMplsNextHops_file _ h2, extractHosts_file, e2, or_assoc]

theorem FlatMap.lookup_isSome_of_mem {K V : Type} [DecidableEq K] {l : List (K × V)} {k : K}
    {v : V} (h : (k, v) ∈ l) : (FlatMap.lookup k l).isSome = true := by
  induction l with
  | nil => cases h
  | cons e l ih =>
    obtain ⟨a, b⟩ := e
    by_cases h1 : a = k
    · simp [FlatMap.lookup, h1]
    · simp only [FlatMap.lookup, h1, if_false]
      rcases List.mem_cons.1 h with h2 | h2
      · exact absurd (congrArg Prod.fst h2).symm h1
      · exact ih h2

theorem FlatMap.find_isSome_of_mem {K V : Type} [DecidableEq K] {m : FlatMap K V} {k : K} {v : V}
    (h : (k, v) ∈ m.entries) : (m.find k).isSome = true :=
  FlatMap.lookup_isSome_of_mem h

theorem FlatMap.find_insert_isSome {K V : Type} [DecidableEq K] (m : FlatMap K V) {k k2 : K}
    (v : V) (h : ((m.insert k2 v).find k).isSome = true) :
    k = k2 ∨ (m.find k).isSome = true := by
  by_cases h1 : k = k2
  · exact Or.inl h1
  · rw [FlatMap.find_insert_ne m v h1] at h
    exact Or.inr h

theorem scanInvariant_populate {doc : WarmBootState} {c : Cache}
    (h : populateFromWarmBootState doc {} = .ok c) : ScanInvariant c := by
  have hf := restoreFrame_populate h
  unfold RestoreFrame at hf
  have e1 : c.egressId2Egress_ = FlatMap.empty := by rw [hf]
  have e2 : c.dropEgressId_ = INVALID := by rw [hf]
  have e3 : c.toCPUEgressId_ = INVALID := by rw [hf]
  refine ⟨?_, ?_, Or.inl e2, Or.inl e3⟩
  · rw [populateFromWarmBootState_file h]
    rintro (h1 | ⟨x, _, hv, he⟩ | ⟨x, _, hv, he⟩)
    · simp at h1
    · exact hv he
    · exact hv he
  · intro id hid
    rw [e1, FlatMap.find_empty] at hid
    cases hid

theorem scanInvariant_step {platform : Platform} {q : HwQuery} {egressId : EgressId}
    {egress : bcm_l3_egress_t} {c c2 : Cache} {r : Int} (hi : ScanInvariant c)
    (h : egressTraversalCallback platform q egressId egress c = .ok (r, c2)) :
    ScanInvariant c2 := by
  obtain ⟨i1, i2, i3, i4⟩ := hi
  obtain ⟨hf, _, _, hc⟩ := egressTraversalCallback_class h
  unfold ScanInvariant
  rw [hf]
  rcases hc with ⟨h1, h2, h3, h4⟩ | ⟨h1, _, _, h2, h3, h4⟩ | ⟨h1, _, _, _, h2, h3, h4⟩
  · rw [h2, h3, h4]
    refine ⟨i1, ?_, i3, i4⟩
    intro id hid
    rcases FlatMap.find_insert_isSome _ _ hid with h5 | h5
    · rw [h5]; exact h1
    · exact i2 id h5
  · rw [h2, h3, h4]
    exact ⟨i1, i2, Or.inr h1, i4⟩
  · rw [h2, h3, h4]
    exact ⟨i1, i2, i3, Or.inr h1⟩

theorem scanInvariant_traverse {platform : Platform} {q : HwQuery}
    (scanned : List (EgressId × bcm_l3_egress_t)) {c c2 : Cache} (hi : ScanInvariant c)
    (h : bcm_l3_egress_traverse platform q scanned c = .ok c2) : ScanInvariant c2 := by
  induction scanned generalizing c with
  | nil =>
    simp only [bcm_l3_egress_traverse, Except.ok.injEq] at h
    rw [← h]
    exact hi
  | cons e rest ih =>
    obtain ⟨id2, egress2⟩ := e
    simp only [bcm_l3_egress_traverse] at h
    cases hcb : egressTraversalCallback platform q id2 egress2 c with
    | error e => rw [hcb] at h; cases h
    | ok rc =>
      obtain ⟨r, c1⟩ := rc
      rw [hcb] at h
      exact ih (scanInvariant_step hi hcb) h

theorem scanInvariant_not_indexed {c : Cache} (hi : ScanInvariant c) :
    c.egressId2Egress_.find c.dropEgressId_ = none ∧
      c.egressId2Egress_.find c.toCPUEgressId_ = none := by
  obtain ⟨i1, i2, i3, i4⟩ := hi
  have key : ∀ id : EgressId, (id = INVALID ∨ id ∉ c.egressIdsInWarmBootFile_) →
      c.egressId2Egress_.find id = none := by
    intro id hid
    cases hfind : c.egressId2Egress_.find id with
    | none => rfl
    | some v =>
      have hs : (c.egressId2Egress_.find id).isSome = true := by rw [hfind]; rfl
      have hm := i2 id hs
      rcases hid with h1 | h1
      · rw [h1] at hm
        exact absurd hm i1
      · exact absurd hm h1
  exact ⟨key _ i3, key _ i4⟩

theorem clear_never_destroys_unindexed (hw : Hw) (c : Cache) (id : EgressId)
    (h : c.egressId2Egress_.find id = none) :
    HwCall.l3_egress_destroy id ∉ (runClear hw c).2.trace := by
  intro hm
  have h1 : HwCall.l3_egress_destroy id ∈ clearPlan hw.defaultVlan c :=
    (runClear_trace hw c).subset hm
  have h2 : HwCall.l3_egress_destroy id ∈ (clearPlan hw.defaultVlan c).filter isEgressDestroy :=
    List.mem_filter.2 ⟨h1, rfl⟩
  rw [clearPlan_filter_isEgressDestroy] at h2
  obtain ⟨e, he, heq⟩ := List.mem_map.1 h2
  injection heq with h3
  have h4 : (c.egressId2Egress_.find e.1).isSome = true :=
    FlatMap.find_isSome_of_mem (v := e.2) he
  rw [h3, h] at h4
  cases h4

/-! ## The hosts of the restored file -/

theorem extractHosts_find_keep (l : List HostDynamic) (c : Cache)
    (key : bcm_vrf_t × IPAddress × Option bcm_if_t) (e : EgressId)
    (hfun : ∀ h2 ∈ l, h2.egressId ≠ INVALID → hostKey h2 = key → h2.egressId = e)
    (hc : c.vrfIp2EgressFromBcmHostInWarmBootFile_.find key = some e) :
    (extractHosts l c).vrfIp2EgressFromBcmHostInWarmBootFile_.find key = some e := by
  induction l generalizing c with
  | nil => exact hc
  | cons x rest ih =>
    have hrest : ∀ h2 ∈ rest, h2.egressId ≠ INVALID → hostKey h2 = key → h2.egressId = e :=
      fun h2 hm => hfun h2 (List.mem_cons_of_mem _ hm)
    unfold extractHosts
    split_ifs with h1
    · exact ih c hrest hc
    · apply ih _ hrest
      by_cases hk : hostKey x = key
      · rw [hk, hfun x (List.mem_cons_self _ _) h1 hk]
        exact FlatMap.find_insert_self _ _ _
      · rw [FlatMap.find_insert_ne _ _ (Ne.symm hk)]
        exact hc

theorem extractHosts_find_hit (l : List HostDynamic) (c : Cache) (h : HostDynamic)
    (hmem : h ∈ l) (hvalid : h.egressId ≠ INVALID)
    (hfun : ∀ h2 ∈ l, h2.egressId ≠ INVALID → hostKey h2 = hostKey h →
      h2.egressId = h.egressId) :
    (extractHosts l c).vrfIp2EgressFromBcmHostInWarmBootFile_.find (hostKey h) =
      some h.egressId := by
  induction l generalizing c with
  | nil => cases hmem
  | cons x rest ih =>
    have hrest : ∀ h2 ∈ rest, h2.egressId ≠ INVALID → hostKey h2 = hostKey h →
        h2.egressId = h.egressId := fun h2 hm => hfun h2 (List.mem_cons_of_mem _ hm)
    unfold extractHosts
    split_ifs with h1
    · rcases List.mem_cons.1 hmem with h2 | h2
      · rw [h2] at hvalid
        exact absurd h1 hvalid
      · exact ih c h2 hrest
    · by_cases hk : hostKey x = hostKey h
      · apply extractHosts_find_keep _ _ _ _ hrest
        rw [hk, hfun x (List.mem_cons_self _ _) h1 hk]
        exact FlatMap.find_insert_self _ _ _
      · rcases List.mem_cons.1 hmem with h2 | h2
        · rw [h2] at hk
          exact absurd rfl hk
        · exact ih _ h2 hrest

theorem extractHosts_find_miss (l : List HostDynamic) (c : Cache)
    (key : bcm_vrf_t × IPAddress × Option bcm_if_t)
    (hmiss : ∀ h2 ∈ l, h2.egressId ≠ INVALID → hostKey h2 ≠ key) :
    (extractHosts l c).vrfIp2EgressFromBcmHostInWarmBootFile_.find key =
      c.vrfIp2EgressFromBcmHostInWarmBootFile_.find key := by
  induction l generalizing c with
  | nil => rfl
  | cons x rest ih =>
    have hrest : ∀ h2 ∈ rest, h2.egressId ≠ INVALID → hostKey h2 ≠ key :=
      fun h2 hm => hmiss h2 (List.mem_cons_of_mem _ hm)
    unfold extractHosts
    split_ifs with h1
    · exact ih c hrest
    · rw [ih _ hrest]
      exact FlatMap.find_insert_ne _ _ (Ne.symm (hmiss x (List.mem_cons_self _ _) h1))

/-- The host bindings that a restore into a fresh cache leaves are those of the
loop over the hosts of the file. -/
theorem populateFromWarmBootState_hosts {doc : WarmBootState} {c2 : Cache}
    (h : populateFromWarmBootState doc {} = .ok c2) :
    ∃ c1 : Cache, c1.vrfIp2EgressFromBcmHostInWarmBootFile_ = FlatMap.empty ∧
      c2.vrfIp2EgressFromBcmHostInWarmBootFile_ =
        (extractHosts doc.hosts c1).vrfIp2EgressFromBcmHostInWarmBootFile_ := by
  obtain ⟨c1, c4, h1, h2, h3⟩ := populateFromWarmBootState_ok h
  refine ⟨extractTrunks doc.warmBootCache.trunks c1, ?_, ?_⟩
  · rw [extractTrunks_frame, extractEcmpObjects_frame _ h1, extractEcmpHosts_frame]
  · rw [h3, extractQosPolicies_frame, extractIntfTable_frame, extractMplsNextHops_frame _ h2]

theorem traverse_fields {platform : Platform} {q : HwQuery}
    (scanned : List (EgressId × bcm_l3_egress_t)) {c c2 : Cache}
    (h : bcm_l3_egress_traverse platform q scanned c = .ok c2) :
    c2.egressIdsInWarmBootFile_ = c.egressIdsInWarmBootFile_ ∧
    c2.vrfIp2EgressFromBcmHostInWarmBootFile_ = c.vrfIp2EgressFromBcmHostInWarmBootFile_ ∧
    c2.aclEntry2AclStat_ = c.aclEntry2AclStat_ := by
  induction scanned generalizing c with
  | nil =>
    simp only [bcm_l3_egress_traverse, Except.ok.injEq] at h
    rw [← h]
    exact ⟨rfl, rfl, rfl⟩
  | cons e rest ih =>
    obtain ⟨id2, egress2⟩ := e
    simp only [bcm_l3_egress_traverse] at h
    cases hcb : egressTraversalCallback platform q id2 egress2 c with
    | error e => rw [hcb] at h; cases h
    | ok rc =>
      obtain ⟨r, c1⟩ := rc
      rw [hcb] at h
      obtain ⟨a1, a2, a3, _⟩ := egressTraversalCallback_class hcb
      obtain ⟨b1, b2, b3⟩ := ih h
      exact ⟨b1.trans a1, b2.trans a2, b3.trans a3⟩

theorem traverse_keeps {platform : Platform} {q : HwQuery}
    (scanned : List (EgressId × bcm_l3_egress_t)) {c c2 : Cache} {id : EgressId}
    {egress : bcm_l3_egress_t} (hc : c.egressId2Egress_.find id = some egress)
    (h : bcm_l3_egress_traverse platform q scanned c = .ok c2) :
    c2.egressId2Egress_.find id = some egress := by
  induction scanned generalizing c with
  | nil =>
    simp only [bcm_l3_egress_traverse, Except.ok.injEq] at h
    rw [← h]
    exact hc
  | cons e rest ih =>
    obtain ⟨id2, egress2⟩ := e
    simp only [bcm_l3_egress_traverse] at h
    cases hcb : egressTraversalCallback platform q id2 egress2 c with
    | error e => rw [hcb] at h; cases h
    | ok rc =>
      obtain ⟨r, c1⟩ := rc
      rw [hcb] at h
      apply ih _ h
      have hnone := (egressTraversalCallback_ok hcb).2.1
      have hne : id ≠ id2 := by
        intro e
        rw [e, hnone] at hc
        cases hc
      obtain ⟨_, _, _, hcl⟩ := egressTraversalCallback_class hcb
      rcases hcl with ⟨_, h3, _, _⟩ | ⟨_, _, _, _, h3, _⟩ | ⟨_, _, _, _, _, h3, _⟩
      · rw [h3, FlatMap.find_insert_ne _ _ hne]
        exact hc
      · rw [h3]; exact hc
      · rw [h3]; exact hc

/-- A scan that returned recorded every egress object it visited whose id the
restored file holds. -/
theorem traverse_records {platform : Platform} {q : HwQuery}
    (scanned : List (EgressId × bcm_l3_egress_t)) {c c2 : Cache} {id : EgressId}
    {egress : bcm_l3_egress_t} (hfile : id ∈ c.egressIdsInWarmBootFile_)
    (hmem : (id, egress) ∈ scanned)
    (h : bcm_l3_egress_traverse platform q scanned c = .ok c2) :
    c2.egressId2Egress_.find id = some egress := by
  induction scanned generalizing c with
  | nil => cases hmem
  | cons e rest ih =>
    obtain ⟨id2, egress2⟩ := e
    simp only [bcm_l3_egress_traverse] at h
    cases hcb : egressTraversalCallback platform q id2 egress2 c with
    | error e => rw [hcb] at h; cases h
    | ok rc =>
      obtain ⟨r, c1⟩ := rc
      rw [hcb] at h
      obtain ⟨hf, _, _, hcl⟩ := egressTraversalCallback_class hcb
      rcases List.mem_cons.1 hmem with h2 | h2
      · injection h2 with h3 h4
        subst h3 h4
        rcases hcl with ⟨_, h3, _, _⟩ | ⟨h3, _⟩ | ⟨h3, _⟩
        · apply traverse_keeps _ _ h
          rw [h3]
          exact FlatMap.find_insert_self _ _ _
        · exact absurd hfile h3
        · exact absurd hfile h3
      · exact ih (by rw [hf]; exact hfile) h2 h

/-! ## The host and route scans -/

theorem hostTraversalCallback_eq (host : bcm_l3_host_t) (c : Cache) :
    hostTraversalCallback host c =
      (0, { c with vrfIp2Host_ := c.vrfIp2Host_.insert (hostResourceKey host) host }) := rfl

theorem routeTraversalCallback_eq (platform : Platform) (route : bcm_l3_route_t) (c : Cache) :
    routeTraversalCallback platform route c =
      if (platform.canUseHostTableForHostRoutes && hasFullWidthMask route) = true then
        (0, { c with
          vrfAndIP2Route_ :=
            c.vrfAndIP2Route_.insert
              ((routeResourceKey route).1, (routeResourceKey route).2.1) route })
      else
        (0, { c with
          vrfPrefix2Route_ := c.vrfPrefix2Route_.insert (routeResourceKey route) route }) := by
  unfold routeTraversalCallback routeResourceKey hasFullWidthMask getFullMaskIPv6Address
    getFullMaskIPv4Address IPAddress.fromBinary IPAddress.fromLongHBO
  by_cases h6 : route.l3a_flags &&& BCM_L3_IP6 ≠ 0
  · cases hp : platform.canUseHostTableForHostRoutes <;>
      by_cases hm : route.l3a_ip6_mask = 340282366920938463463374607431768211455 <;>
      simp [h6, hp, hm]
  · cases hp : platform.canUseHostTableForHostRoutes <;>
      by_cases hm : route.l3a_ip_mask = 4294967295 <;>
      simp [h6, hp, hm]

theorem hasFullWidthMask_congr {route route2 : bcm_l3_route_t}
    (h : routeResourceKey route2 = routeResourceKey route) :
    hasFullWidthMask route2 = hasFullWidthMask route := by
  unfold routeResourceKey IPAddress.fromBinary IPAddress.fromLongHBO at h
  unfold hasFullWidthMask
  by_cases h1 : route.l3a_flags &&& BCM_L3_IP6 ≠ 0
  · by_cases h2 : route2.l3a_flags &&& BCM_L3_IP6 ≠ 0
    · rw [if_pos h1, if_pos h2] at h
      rw [if_pos h1, if_pos h2]
      simp only [Prod.mk.injEq] at h
      rw [IPAddress.v6.inj h.2.2]
    · rw [if_pos h1, if_neg h2] at h
      simp only [Prod.mk.injEq] at h
      exact IPAddress.noConfusion h.2.1
  · by_cases h2 : route2.l3a_flags &&& BCM_L3_IP6 ≠ 0
    · rw [if_neg h1, if_pos h2] at h
      simp only [Prod.mk.injEq] at h
      exact IPAddress.noConfusion h.2.1
    · rw [if_neg h1, if_neg h2] at h
      rw [if_neg h1, if_neg h2]
      simp only [Prod.mk.injEq] at h
      rw [IPAddress.v4.inj h.2.2]

/-! ## Restores that return -/

theorem extractEcmpObjects_returns (l : List EcmpObjectDynamic) (c : Cache)
    (h : ∀ o ∈ l, o.ecmpEgressId ≠ INVALID) : ∃ c2 : Cache, extractEcmpObjects l c = .ok c2 := by
  induction l generalizing c with
  | nil => exact ⟨c, rfl⟩
  | cons o rest ih =>
    unfold extractEcmpObjects
    rw [if_pos (h o (List.mem_cons_self _ _))]
    exact ih _ (fun o2 hm => h o2 (List.mem_cons_of_mem _ hm))

theorem extractMplsNextHops_returns (l : List MplsNextHopDynamic) (c : Cache)
    (h : ∀ n ∈ l, n.egressId ≠ INVALID → n.label ≠ none ∨ n.stack ≠ none) :
    ∃ c2 : Cache, extractMplsNextHops l c = .ok c2 := by
  induction l generalizing c with
  | nil => exact ⟨c, rfl⟩
  | cons n rest ih =>
    have hrest : ∀ n2 ∈ rest, n2.egressId ≠ INVALID → n2.label ≠ none ∨ n2.stack ≠ none :=
      fun n2 hm => h n2 (List.mem_cons_of_mem _ hm)
    unfold extractMplsNextHops
    by_cases h1 : n.egressId = INVALID
    · rw [if_pos h1]
      exact ih c hrest
    · rw [if_neg h1]
      simp only
      split
      · exact ih _ hrest
      · exact ih _ hrest
      · rename_i hl hs
        rcases h n (List.mem_cons_self _ _) h1 with h2 | h2
        · exact absurd hl h2
        · exact absurd hs h2

/-- A restore returns when no ECMP object of the file carries the invalid id and
every valid MPLS next hop of the file carries a label or a label stack. -/
theorem populateFromWarmBootState_returns (doc : WarmBootState) (c : Cache)
    (hecmp : ∀ o ∈ doc.warmBootCache.ecmpObjects, o.ecmpEgressId ≠ INVALID)
    (hmpls : ∀ n ∈ doc.mplsNextHops.getD [], n.egressId ≠ INVALID →
      n.label ≠ none ∨ n.stack ≠ none) :
    ∃ c2 : Cache, populateFromWarmBootState doc c = .ok c2 := by
  rw [populateFromWarmBootState_eq]
  obtain ⟨c1, h1⟩ := extractEcmpObjects_returns doc.warmBootCache.ecmpObjects
    (extractEcmpHosts doc.ecmpHosts { c with dumpedSwSwitchState_ := some doc.swSwitch }) hecmp
  rw [h1]
  obtain ⟨c4, h4⟩ := extractMplsNextHops_returns (doc.mplsNextHops.getD [])
    (extractHosts doc.hosts (extractTrunks doc.warmBootCache.trunks c1)) hmpls
  simp only [h4]
  exact ⟨_, rfl⟩

/-- The restore reads of a document its sections, with an absent MPLS-next-hop,
interface-table or QoS-policy-table section read as the empty one. -/
theorem populateFromWarmBootState_congr (d1 d2 : WarmBootState) (c : Cache)
    (h1 : d1.swSwitch = d2.swSwitch) (h2 : d1.ecmpHosts = d2.ecmpHosts)
    (h3 : d1.hosts = d2.hosts) (h4 : d1.warmBootCache = d2.warmBootCache)
    (h5 : d1.mplsNextHops.getD [] = d2.mplsNextHops.getD [])
    (h6 : d1.intfTable.getD [] = d2.intfTable.getD [])
    (h7 : d1.qosPolicyTable.getD [] = d2.qosPolicyTable.getD []) :
    populateFromWarmBootState d1 c = populateFromWarmBootState d2 c := by
  rw [populateFromWarmBootState_eq, populateFromWarmBootState_eq, h1, h2, h3, h4, h5, h6, h7]

theorem populateFromWarmBootState_mpls {doc : WarmBootState} {c c2 : Cache}
    (h : populateFromWarmBootState doc c = .ok c2) (hm : doc.mplsNextHops.getD [] = []) :
    c2.mplsNextHops2EgressIdInWarmBootFile_ = c.mplsNextHops2EgressIdInWarmBootFile_ := by
  obtain ⟨c1, c4, h1, h4, h3⟩ := populateFromWarmBootState_ok h
  rw [hm] at h4
  simp only [extractMplsNextHops, Except.ok.injEq] at h4
  have e1 : c2.mplsNextHops2EgressIdInWarmBootFile_ =
      c4.mplsNextHops2EgressIdInWarmBootFile_ := by
    rw [h3, extractQosPolicies_frame, extractIntfTable_frame]
  have e2 : c4.mplsNextHops2EgressIdInWarmBootFile_ =
      (extractTrunks doc.warmBootCache.trunks c1).mplsNextHops2EgressIdInWarmBootFile_ := by
    rw [← h4, extractHosts_frame]
  have e3 : (extractTrunks doc.warmBootCache.trunks c1).mplsNextHops2EgressIdInWarmBootFile_ =
      c.mplsNextHops2EgressIdInWarmBootFile_ := by
    rw [extractTrunks_frame, extractEcmpObjects_frame _ h1, extractEcmpHosts_frame]
  rw [e1, e2, e3]

/-! ## Claimed ACL stats -/

theorem ecmpEgressTraversalCallback_aclStat {ecmp : bcm_l3_egress_ecmp_t} {intfCount : Int}
    {intfArray : List bcm_if_t} {c c2 : Cache} {r : Int}
    (h : ecmpEgressTraversalCallback ecmp intfCount intfArray c = .ok (r, c2)) :
    c2.aclEntry2AclStat_ = c.aclEntry2AclStat_ := by
  unfold ecmpEgressTraversalCallback at h
  split at h
  · split_ifs at h
    simp only [Except.ok.injEq, Prod.mk.injEq] at h
    rw [← h.2]
  · cases h
  · split_ifs at h
    simp only [Except.ok.injEq, Prod.mk.injEq] at h
    rw [← h.2]

theorem findEgressFromHost_cache (vrf : bcm_vrf_t) (addr : IPAddress) (intf : Option bcm_if_t)
    (c : Cache) : (findEgressFromHost vrf addr intf c).2 = c := by
  simp only [findEgressFromHost]
  split_ifs
  · rfl
  · split <;> rfl
  · split <;> rfl

theorem findEgressFromLabeledHostKey_cache (key : BcmLabeledHostKey) (c : Cache) :
    (findEgressFromLabeledHostKey key c).2 = c := by
  unfold findEgressFromLabeledHostKey
  split <;> rfl

theorem findAclStat_cache (bcmAclEntry : BcmAclEntryHandle) (c : Cache) :
    (findAclStat bcmAclEntry c).2 = c := by
  unfold findAclStat
  split
  · split_ifs <;> rfl
  · rfl

theorem programmed_module_aclStat {module : Char} {switchControl : bcm_switch_control_t}
    {c c2 : Cache} (h : programmed_module module switchControl c = .ok c2) :
    c2.aclEntry2AclStat_ = c.aclEntry2AclStat_ := by
  simp only [programmed_module] at h
  by_cases hA : module = 'A'
  · rw [if_pos hA] at h
    split_ifs at h
    all_goals first | contradiction | (simp only [Except.ok.injEq] at h; rw [← h])
  · rw [if_neg hA] at h
    by_cases hB : module = 'B'
    · rw [if_pos hB] at h
      split_ifs at h
      all_goals first | contradiction | (simp only [Except.ok.injEq] at h; rw [← h])
    · rw [if_neg hB] at h
      cases h

theorem populateAclStats_find {q : HwQuery} {aclHandle k : BcmAclEntryHandle} {c c2 : Cache}
    {status : AclStatStatus} (hfind : c.aclEntry2AclStat_.find k = some status)
    (h : populateAclStats q aclHandle c = .ok c2) :
    c2.aclEntry2AclStat_.find k = some status := by
  simp only [populateAclStats] at h
  split_ifs at h
  · simp only [Except.ok.injEq] at h
    rw [← h]
    exact hfind
  · simp only [Except.ok.injEq] at h
    rw [← h]
    exact FlatMap.find_emplace_of_some _ _ hfind

/-- An operation other than `clear()` that returns leaves a claimed ACL stat
claimed. -/
theorem operation_keeps_claimed (op : Operation) {c c2 : Cache} {k : BcmAclEntryHandle}
    {status : AclStatStatus} (hclaimed : status.claimed = true)
    (hfind : c.aclEntry2AclStat_.find k = some status) (h : op.run c = .ok c2) :
    c2.aclEntry2AclStat_.find k = some status := by
  cases op with
  | populateFromWarmBootState doc =>
    have hf := restoreFrame_populate h
    unfold RestoreFrame at hf
    rw [hf]
    exact hfind
  | egressTraversalCallback platform q egressId egress =>
    simp only [Operation.run] at h
    cases hcb : BcmWarmBootCache.egressTraversalCallback platform q egressId egress c with
    | error e => rw [hcb] at h; cases h
    | ok rc =>
      rw [hcb] at h
      simp only [Except.map, Except.ok.injEq] at h
      obtain ⟨r, c3⟩ := rc
      rw [← h, (egressTraversalCallback_class hcb).2.2.1]
      exact hfind
  | ecmpEgressTraversalCallback ecmp intfCount intfArray =>
    simp only [Operation.run] at h
    cases hcb : BcmWarmBootCache.ecmpEgressTraversalCallback ecmp intfCount intfArray c with
    | error e => rw [hcb] at h; cases h
    | ok rc =>
      rw [hcb] at h
      simp only [Except.map, Except.ok.injEq] at h
      obtain ⟨r, c3⟩ := rc
      rw [← h, ecmpEgressTraversalCallback_aclStat hcb]
      exact hfind
  | hostTraversalCallback host =>
    simp only [Operation.run, Except.ok.injEq] at h
    rw [← h, hostTraversalCallback_eq]
    exact hfind
  | routeTraversalCallback platform route =>
    simp only [Operation.run, Except.ok.injEq] at h
    rw [← h, routeTraversalCallback_eq]
    split_ifs
    · exact hfind
    · exact hfind
  | populateAclStats q aclHandle =>
    exact populateAclStats_find hfind h
  | programmed_aclStat itr =>
    simp only [Operation.run, Except.ok.injEq] at h
    rw [← h]
    unfold BcmWarmBootCache.programmed_aclStat
    by_cases hk : k = itr
    · rw [hk] at hfind ⊢
      simp only
      rw [FlatMap.find_modify_self, hfind, Option.map_some', ← hclaimed]
    · simp only
      rw [FlatMap.find_modify_ne _ _ hk]
      exact hfind
  | findAclStat bcmAclEntry =>
    simp only [Operation.run, Except.ok.injEq] at h
    rw [← h, findAclStat_cache]
    exact hfind
  | findEgressFromHost vrf addr intf =>
    simp only [Operation.run, Except.ok.injEq] at h
    rw [← h, findEgressFromHost_cache]
    exact hfind
  | findEgressFromLabeledHostKey key =>
    simp only [Operation.run, Except.ok.injEq] at h
    rw [← h, findEgressFromLabeledHostKey_cache]
    exact hfind
  | programmed_module module switchControl =>
    rw [programmed_module_aclStat h]
    exact hfind
  | unitControlMatches module switchControl arg =>
    simp only [Operation.run] at h
    cases hu : BcmWarmBootCache.unitControlMatches module switchControl arg c with
    | error e => rw [hu] at h; cases h
    | ok b =>
      rw [hu] at h
      simp only [Except.map, Except.ok.injEq] at h
      rw [← h]
      exact hfind

theorem runOperations_keeps_claimed (ops : List Operation) {c c2 : Cache}
    {k : BcmAclEntryHandle} {status : AclStatStatus} (hclaimed : status.claimed = true)
    (hfind : c.aclEntry2AclStat_.find k = some status) (h : runOperations ops c = .ok c2) :
    c2.aclEntry2AclStat_.find k = some status := by
  induction ops generalizing c with
  | nil =>
    simp only [runOperations, Except.ok.injEq] at h
    rw [← h]
    exact hfind
  | cons op rest ih =>
    simp only [runOperations] at h
    cases hop : op.run c with
    | error e => rw [hop] at h; cases h
    | ok c1 =>
      rw [hop] at h
      exact ih (operation_keeps_claimed op hclaimed hfind hop) h

theorem programmed_aclStat_idem (k : BcmAclEntryHandle) (c : Cache) :
    programmed_aclStat k (programmed_aclStat k c) = programmed_aclStat k c := by
  unfold programmed_aclStat
  have hm : ∀ m : FlatMap BcmAclEntryHandle AclStatStatus,
      (m.modify k (fun status => { status with claimed := true })).modify k
        (fun status => { status with claimed := true }) =
      m.modify k (fun status => { status with claimed := true }) := by
    intro m
    apply FlatMap.ext_entries
    unfold FlatMap.modify
    simp only [List.map_map]
    apply List.map_congr_left
    intro e _
    by_cases he : e.1 = k <;> simp [he]
  simp only [hm]

/-! ## The round trip of the ECMP member map -/

theorem FlatMap.mem_of_lookup_none {K V : Type} [DecidableEq K] {k : K} {l : List (K × V)}
    (h : FlatMap.lookup k l = none) : ∀ e ∈ l, e.1 ≠ k := by
  induction l with
  | nil => intro e he; cases he
  | cons x l ih =>
    obtain ⟨a, b⟩ := x
    by_cases h1 : a = k
    · simp [FlatMap.lookup, h1] at h
    · simp only [FlatMap.lookup, h1, if_false] at h
      intro e he
      rcases List.mem_cons.1 he with h2 | h2
      · rw [h2]; exact h1
      · exact ih h e h2

theorem FlatMap.filter_ne_of_lookup_none {K V : Type} [DecidableEq K] {k : K}
    {l : List (K × V)} (h : FlatMap.lookup k l = none) :
    l.filter (fun e => decide (e.1 ≠ k)) = l := by
  apply List.filter_eq_self.2
  intro e he
  simpa using FlatMap.mem_of_lookup_none h e he

theorem foldl_insert_eq (ps : List Int) (X : Finset Int) :
    ps.foldl (fun s e => insert e s) X = X ∪ ps.toFinset := by
  induction ps generalizing X with
  | nil => simp
  | cons p ps ih =>
    rw [List.foldl_cons, ih]
    ext x
    simp only [Finset.mem_union, Finset.mem_insert, List.toFinset_cons]
    tauto

theorem insertPaths_map (id : EgressId) (paths : List Int) (c : Cache) :
    (insertPaths id paths c).hwSwitchEcmp2EgressIds_ =
      paths.foldl (fun m e => m.modifyD id ∅ (fun ids => insert e ids))
        c.hwSwitchEcmp2EgressIds_ := by
  unfold insertPaths
  induction paths generalizing c with
  | nil => rfl
  | cons p ps ih =>
    rw [List.foldl_cons, List.foldl_cons, ih]

theorem modifyD_bound (m : FlatMap EgressId EgressIds) (id : EgressId) (p : Int)
    (pre : List (EgressId × EgressIds)) (X : EgressIds) (h : m.entries = pre ++ [(id, X)]) :
    (m.modifyD id ∅ (fun ids => insert p ids)).entries = pre ++ [(id, insert p X)] := by
  have hnd := m.nodup
  rw [h, List.map_append, List.nodup_append] at hnd
  have hpre : ∀ e ∈ pre, e.1 ≠ id := by
    intro e he heq
    exact hnd.2.2 (List.mem_map.2 ⟨e, he, heq⟩) (by simp)
  have hfind : m.find id = some X := by
    unfold FlatMap.find
    rw [h, FlatMap.lookup_append (FlatMap.lookup_eq_none hpre)]
    simp [FlatMap.lookup]
  unfold FlatMap.modifyD
  rw [hfind]
  simp only [FlatMap.modify, h, List.map_append, List.map_cons, List.map_nil, if_true]
  congr 1
  conv_rhs => rw [← List.map_id pre]
  apply List.map_congr_left
  intro e he
  simp [hpre e he]

theorem foldl_modifyD_bound (ps : List Int) (m : FlatMap EgressId EgressIds) (id : EgressId)
    (pre : List (EgressId × EgressIds)) (X : EgressIds) (h : m.entries = pre ++ [(id, X)]) :
    (ps.foldl (fun m e => m.modifyD id ∅ (fun ids => insert e ids)) m).entries =
      pre ++ [(id, X ∪ ps.toFinset)] := by
  induction ps generalizing m X with
  | nil => simpa using h
  | cons p ps ih =>
    rw [List.foldl_cons, ih _ _ (modifyD_bound m id p pre X h)]
    congr 3
    ext x
    simp only [Finset.mem_union, Finset.mem_insert, List.toFinset_cons]
    tauto

theorem foldl_modifyD_unbound (ps : List Int) (m : FlatMap EgressId EgressIds) (id : EgressId)
    (hne : ps ≠ []) (h : m.find id = none) :
    (ps.foldl (fun m e => m.modifyD id ∅ (fun ids => insert e ids)) m).entries =
      m.entries ++ [(id, ps.toFinset)] := by
  cases ps with
  | nil => exact absurd rfl hne
  | cons p ps =>
    have h1 : (m.modifyD id ∅ (fun ids => insert p ids)).entries =
        m.entries ++ [(id, insert p ∅)] := by
      unfold FlatMap.modifyD
      rw [h]
      simp only [FlatMap.insert]
      rw [FlatMap.filter_ne_of_lookup_none h]
    rw [List.foldl_cons, foldl_modifyD_bound ps _ id m.entries _ h1]
    congr 3
    ext x
    simp only [Finset.mem_union, Finset.mem_insert, List.toFinset_cons, Finset.not_mem_empty,
      or_false]

/-- The loop over the paths of an ECMP object that `toFollyDynamic` wrote for a
non-empty member set binds the id, unbound before, to that member set. -/
theorem insertPaths_entries (id : EgressId) (S : EgressIds) (c : Cache) (hS : S.Nonempty)
    (h : c.hwSwitchEcmp2EgressIds_.find id = none) :
    (insertPaths id (S.sort (fun a b => a ≤ b)) c).hwSwitchEcmp2EgressIds_.entries =
      c.hwSwitchEcmp2EgressIds_.entries ++ [(id, S)] := by
  have hne : S.sort (fun a b => a ≤ b) ≠ [] := by
    intro he
    have hl := Finset.length_sort (fun a b : Int => a ≤ b) (s := S)
    rw [he] at hl
    have hc := Finset.card_pos.2 hS
    simp at hl
    omega
  rw [insertPaths_map, foldl_modifyD_unbound _ _ _ hne h, Finset.sort_toFinset]

theorem extractEcmpObjects_entries (l : List (EgressId × EgressIds)) (c : Cache)
    (hnd : (l.map Prod.fst).Nodup)
    (hfresh : ∀ e ∈ l, c.hwSwitchEcmp2EgressIds_.find e.1 = none)
    (hvalid : ∀ e ∈ l, e.1 ≠ INVALID ∧ e.2.Nonempty) :
    ∃ c2 : Cache,
      extractEcmpObjects
        (l.map fun e => { ecmpEgressId := e.1, paths := e.2.sort (fun a b => a ≤ b) }) c =
        .ok c2 ∧
      c2.hwSwitchEcmp2EgressIds_.entries = c.hwSwitchEcmp2EgressIds_.entries ++ l := by
  induction l generalizing c with
  | nil => exact ⟨c, rfl, by simp⟩
  | cons e rest ih =>
    obtain ⟨id, S⟩ := e
    rw [List.map_cons, List.nodup_cons] at hnd
    have hv := hvalid (id, S) (List.mem_cons_self _ _)
    have hf := hfresh (id, S) (List.mem_cons_self _ _)
    have hent := insertPaths_entries id S c hv.2 hf
    have hfresh2 : ∀ e ∈ rest,
        (insertPaths id (S.sort (fun a b => a ≤ b)) c).hwSwitchEcmp2EgressIds_.find e.1 =
          none := by
      intro e he
      have hne : ¬ id = e.1 := by
        intro heq
        exact hnd.1 (List.mem_map.2 ⟨e, he, heq.symm⟩)
      unfold FlatMap.find
      rw [hent, FlatMap.lookup_append (hfresh e (List.mem_cons_of_mem _ he))]
      simp [FlatMap.lookup, hne]
    obtain ⟨c2, h1, h2⟩ := ih (insertPaths id (S.sort (fun a b => a ≤ b)) c) hnd.2 hfresh2
      (fun e he => hvalid e (List.mem_cons_of_mem _ he))
    refine ⟨c2, ?_, ?_⟩
    · rw [List.map_cons]
      unfold extractEcmpObjects
      rw [if_pos hv.1]
      exact h1
    · rw [h2, hent, List.append_assoc]
      rfl

theorem getPathsForEcmp_congr {c c2 : Cache}
    (h : c.hwSwitchEcmp2EgressIds_ = c2.hwSwitchEcmp2EgressIds_) (id : EgressId) :
    getPathsForEcmp c id = getPathsForEcmp c2 id := by
  unfold getPathsForEcmp
  rw [h]

theorem populateFromWarmBootState_ecmp {doc : WarmBootState} {c c2 : Cache}
    (h : populateFromWarmBootState doc c = .ok c2) :
    ∃ c1 : Cache,
      extractEcmpObjects doc.warmBootCache.ecmpObjects
        (extractEcmpHosts doc.ecmpHosts
          { c with dumpedSwSwitchState_ := some doc.swSwitch }) = .ok c1 ∧
      c2.hwSwitchEcmp2EgressIds_ = c1.hwSwitchEcmp2EgressIds_ := by
  obtain ⟨c1, c4, h1, h4, h3⟩ := populateFromWarmBootState_ok h
  refine ⟨c1, h1, ?_⟩
  have e1 : c2.hwSwitchEcmp2EgressIds_ = c4.hwSwitchEcmp2EgressIds_ := by
    rw [h3, extractQosPolicies_frame, extractIntfTable_frame]
  have e2 : c4.hwSwitchEcmp2EgressIds_ =
      (extractHosts doc.hosts
        (extractTrunks doc.warmBootCache.trunks c1)).hwSwitchEcmp2EgressIds_ := by
    rw [extractMplsNextHops_frame _ h4]
  have e3 : (extractHosts doc.hosts
      (extractTrunks doc.warmBootCache.trunks c1)).hwSwitchEcmp2EgressIds_ =
      c1.hwSwitchEcmp2EgressIds_ := by
    rw [extractHosts_frame, extractTrunks_frame]
  rw [e1, e2, e3]

/-! ## The switch settings -/

theorem learnFlagsLoop_agree (q : HwPortQuery) (l : List Nat) (v : Nat) (hv : v ≠ 0)
    (h : ∀ p ∈ l, q.bcm_port_learn_get p = (0, v)) : learnFlagsLoop q l v = .ok v := by
  induction l with
  | nil => rfl
  | cons p rest ih =>
    unfold learnFlagsLoop
    rw [h p (List.mem_cons_self _ _)]
    simp only [BCM_FAILURE, lt_self_iff_false, decide_False, Bool.false_eq_true, if_false, hv,
      ne_eq, not_true_eq_false]
    exact ih (fun p2 hp => h p2 (List.mem_cons_of_mem _ hp))

theorem learnFlagsLoop_zeros (q : HwPortQuery) (l : List Nat)
    (h : ∀ p ∈ l, q.bcm_port_learn_get p = (0, 0)) : learnFlagsLoop q l 0 = .ok 0 := by
  induction l with
  | nil => rfl
  | cons p rest ih =>
    unfold learnFlagsLoop
    rw [h p (List.mem_cons_self _ _)]
    simp only [BCM_FAILURE, lt_self_iff_false, decide_False, Bool.false_eq_true, if_false,
      if_true]
    exact ih (fun p2 hp => h p2 (List.mem_cons_of_mem _ hp))

/-- When every port reports the same learn flags, the loop over the ports leaves
these flags. -/
theorem learnFlagsLoop_same (q : HwPortQuery) (l : List Nat) (v : Nat) (hl : l ≠ [])
    (h : ∀ p ∈ l, q.bcm_port_learn_get p = (0, v)) : learnFlagsLoop q l 0 = .ok v := by
  by_cases hv : v = 0
  · rw [hv] at h ⊢
    exact learnFlagsLoop_zeros q l h
  · cases l with
    | nil => exact absurd rfl hl
    | cons p rest =>
      unfold learnFlagsLoop
      rw [h p (List.mem_cons_self _ _)]
      simp only [BCM_FAILURE, lt_self_iff_false, decide_False, Bool.false_eq_true, if_false,
        if_true]
      exact learnFlagsLoop_agree q rest v hv (fun p2 hp => h p2 (List.mem_cons_of_mem _ hp))

/-- A first port with the learn flags 0 is not compared with the ports after it. -/
theorem learnFlagsLoop_zero_first (q : HwPortQuery) (port : Nat) (rest : List Nat)
    (h : q.bcm_port_learn_get port = (0, 0)) :
    learnFlagsLoop q (port :: rest) 0 = learnFlagsLoop q rest 0 := by
  conv_lhs => unfold learnFlagsLoop
  rw [h]
  simp only [BCM_FAILURE, lt_self_iff_false, decide_False, Bool.false_eq_true, if_false,
    if_true]

/-! ## The scan of the ACL entries -/

theorem populateMirroredAcl_priority (q : HwFieldQuery) (entry : BcmAclEntryHandle) (c : Cache) :
    (populateMirroredAcl q entry c).priority2BcmAclEntryHandle_ =
      c.priority2BcmAclEntryHandle_ := by
  unfold populateMirroredAcl
  simp only [List.foldl_cons, List.foldl_nil]
  split_ifs <;> rfl

theorem populateAclStats_not_found (q : HwQuery) (aclHandle : BcmAclEntryHandle) (c : Cache)
    (h : (q.bcm_field_entry_stat_get aclHandle).1 = BCM_E_NOT_FOUND) :
    populateAclStats q aclHandle c = .ok c := by
  unfold populateAclStats
  simp only [h, if_true]

/-- One round of the loop of `populateAcls` for an entry without stat whose
priority is not a key of the ACL index. -/
theorem populateAclsLoop_cons (f : Int → Int) (q : HwFieldQuery) (e : BcmAclEntryHandle)
    (rest : List BcmAclEntryHandle) (p : Int) (c : Cache)
    (hstat : (q.bcm_field_entry_stat_get e).1 = BCM_E_NOT_FOUND)
    (hprio : q.bcm_field_entry_prio_get e = (0, p))
    (hfind : c.priority2BcmAclEntryHandle_.find p = none) :
    populateAclsLoop f q (e :: rest) c =
      populateAclsLoop f q rest
        (populateMirroredAcl q e
          { c with
            priority2BcmAclEntryHandle_ := c.priority2BcmAclEntryHandle_.emplace (f p) e }) := by
  conv_lhs => unfold populateAclsLoop
  rw [populateAclStats_not_found _ _ _ hstat]
  simp only [hprio, BCM_FAILURE, lt_self_iff_false, decide_False, Bool.false_eq_true, if_false,
    hfind, Option.isSome_none]

/-- One round of the loop of `populateAcls` for an entry without stat whose
priority is a key of the ACL index. -/
theorem populateAclsLoop_cons_check (f : Int → Int) (q : HwFieldQuery) (e : BcmAclEntryHandle)
    (rest : List BcmAclEntryHandle) (p : Int) (c : Cache)
    (hstat : (q.bcm_field_entry_stat_get e).1 = BCM_E_NOT_FOUND)
    (hprio : q.bcm_field_entry_prio_get e = (0, p))
    (hfind : (c.priority2BcmAclEntryHandle_.find p).isSome = true) :
    populateAclsLoop f q (e :: rest) c = .error .CheckFailed := by
  conv_lhs => unfold populateAclsLoop
  rw [populateAclStats_not_found _ _ _ hstat]
  simp only [hprio, BCM_FAILURE, lt_self_iff_false, decide_False, Bool.false_eq_true, if_false,
    hfind, if_true]

/-! ## The member sets of the restored file -/

theorem FlatMap.find_modifyD {K V : Type} [DecidableEq K] (m : FlatMap K V) (k k2 : K) (d : V)
    (f : V → V) :
    (m.modifyD k2 d f).find k =
      if k = k2 then some (f ((m.find k2).getD d)) else m.find k := by
  unfold FlatMap.modifyD
  cases h : m.find k2 with
  | none =>
    simp only [Option.getD_none]
    by_cases hk : k = k2
    · rw [if_pos hk, hk]
      exact FlatMap.find_insert_self _ _ _
    · rw [if_neg hk]
      exact FlatMap.find_insert_ne _ _ hk
  | some v =>
    simp only [Option.getD_some]
    by_cases hk : k = k2
    · rw [if_pos hk, hk, FlatMap.find_modify_self, h]
      rfl
    · rw [if_neg hk]
      exact FlatMap.find_modify_ne _ _ hk

theorem memberBinding_getD (S : Finset Int) : (memberBinding S).getD ∅ = S := by
  unfold memberBinding
  split_ifs with h
  · rw [h]
    rfl
  · rfl

theorem memberBinding_insert (p : Int) (S : Finset Int) :
    memberBinding (insert p S) = some (insert p S) := by
  unfold memberBinding
  rw [if_neg (Finset.insert_ne_empty p S)]

/-- The loop over the paths of a record adds the paths to the member set of the
id of the record. -/
theorem foldl_modifyD_find (ps : List Int) (m : FlatMap EgressId EgressIds) (id : EgressId)
    (F : EgressId → Finset Int) (h : ∀ k, m.find k = memberBinding (F k)) (k : EgressId) :
    (ps.foldl (fun m e => m.modifyD id ∅ (fun ids => insert e ids)) m).find k =
      memberBinding (if k = id then F id ∪ ps.toFinset else F k) := by
  induction ps generalizing m F with
  | nil =>
    simp only [List.foldl_nil, List.toFinset_nil, Finset.union_empty]
    rw [h k]
    split_ifs with hk
    · rw [hk]
    · rfl
  | cons p ps ih =>
    rw [List.foldl_cons]
    have h1 : ∀ k2, (m.modifyD id ∅ (fun ids => insert p ids)).find k2 =
        memberBinding (if k2 = id then insert p (F id) else F k2) := by
      intro k2
      rw [FlatMap.find_modifyD, h id, memberBinding_getD]
      split_ifs with hk
      · rw [memberBinding_insert]
      · exact h k2
    rw [ih _ _ h1]
    congr 1
    by_cases hk : k = id
    · simp only [hk, if_true]
      ext x
      simp only [Finset.mem_union, Finset.mem_insert, List.toFinset_cons]
      tauto
    · simp only [hk, if_false]

theorem insertPaths_find (id : EgressId) (ps : List Int) (c : Cache)
    (F : EgressId → Finset Int)
    (h : ∀ k, c.hwSwitchEcmp2EgressIds_.find k = memberBinding (F k)) (k : EgressId) :
    (insertPaths id ps c).hwSwitchEcmp2EgressIds_.find k =
      memberBinding (if k = id then F id ∪ ps.toFinset else F k) := by
  rw [insertPaths_map]
  exact foldl_modifyD_find ps _ id F h k

theorem extractEcmpHosts_find (l : List EcmpHostDynamic) (c : Cache)
    (F : EgressId → Finset Int)
    (h : ∀ k, c.hwSwitchEcmp2EgressIds_.find k = memberBinding (F k)) (k : EgressId) :
    (extractEcmpHosts l c).hwSwitchEcmp2EgressIds_.find k =
      memberBinding (F k ∪
        ((l.filter (fun e => decide (e.ecmpEgressId = k ∧ e.ecmpEgressId ≠ INVALID))).flatMap
          (fun e => e.paths)).toFinset) := by
  induction l generalizing c F with
  | nil =>
    simp only [List.filter_nil, List.flatMap_nil, List.toFinset_nil, Finset.union_empty]
    exact h k
  | cons e rest ih =>
    unfold extractEcmpHosts
    by_cases hinv : e.ecmpEgressId = INVALID
    · rw [if_pos hinv, ih c F h]
      have hfe : (e :: rest).filter
          (fun e2 => decide (e2.ecmpEgressId = k ∧ e2.ecmpEgressId ≠ INVALID)) =
          rest.filter (fun e2 => decide (e2.ecmpEgressId = k ∧ e2.ecmpEgressId ≠ INVALID)) := by
        rw [List.filter_cons]
        simp [hinv]
      rw [hfe]
    · rw [if_neg hinv, ih _ _ (insertPaths_find e.ecmpEgressId e.paths c F h)]
      congr 1
      by_cases hk : e.ecmpEgressId = k
      · subst hk
        have hfe : (e :: rest).filter
            (fun e2 => decide (e2.ecmpEgressId = e.ecmpEgressId ∧ e2.ecmpEgressId ≠ INVALID)) =
            e :: rest.filter
              (fun e2 =>
                decide (e2.ecmpEgressId = e.ecmpEgressId ∧ e2.ecmpEgressId ≠ INVALID)) := by
          rw [List.filter_cons]
          simp [hinv]
        rw [hfe, List.flatMap_cons, List.toFinset_append]
        simp only [if_true]
        ext x
        simp only [Finset.mem_union]
        tauto
      · have hfe : (e :: rest).filter
            (fun e2 => decide (e2.ecmpEgressId = k ∧ e2.ecmpEgressId ≠ INVALID)) =
            rest.filter (fun e2 => decide (e2.ecmpEgressId = k ∧ e2.ecmpEgressId ≠ INVALID)) := by
          rw [List.filter_cons]
          simp [hk]
        have hk2 : ¬ k = e.ecmpEgressId := fun h2 => hk h2.symm
        rw [hfe]
        simp only [hk2, if_false]

theorem extractEcmpObjects_find (l : List EcmpObjectDynamic) {c c2 : Cache}
    (F : EgressId → Finset Int)
    (h : ∀ k, c.hwSwitchEcmp2EgressIds_.find k = memberBinding (F k))
    (hrun : extractEcmpObjects l c = .ok c2) (k : EgressId) :
    c2.hwSwitchEcmp2EgressIds_.find k =
      memberBinding (F k ∪
        ((l.filter (fun e => decide (e.ecmpEgressId = k))).flatMap
          (fun e => e.paths)).toFinset) := by
  induction l generalizing c F with
  | nil =>
    simp only [extractEcmpObjects, Except.ok.injEq] at hrun
    simp only [List.filter_nil, List.flatMap_nil, List.toFinset_nil, Finset.union_empty]
    rw [← hrun]
    exact h k
  | cons e rest ih =>
    unfold extractEcmpObjects at hrun
    split_ifs at hrun with hinv
    rw [ih _ (insertPaths_find e.ecmpEgressId e.paths c F h) hrun]
    congr 1
    by_cases hk : e.ecmpEgressId = k
    · subst hk
      have hfe : (e :: rest).filter (fun e2 => decide (e2.ecmpEgressId = e.ecmpEgressId)) =
          e :: rest.filter (fun e2 => decide (e2.ecmpEgressId = e.ecmpEgressId)) := by
        rw [List.filter_cons]
        simp
      rw [hfe, List.flatMap_cons, List.toFinset_append]
      simp only [if_true]
      ext x
      simp only [Finset.mem_union]
      tauto
    · have hfe : (e :: rest).filter (fun e2 => decide (e2.ecmpEgressId = k)) =
          rest.filter (fun e2 => decide (e2.ecmpEgressId = k)) := by
        rw [List.filter_cons]
        simp [hk]
      have hk2 : ¬ k = e.ecmpEgressId := fun h2 => hk h2.symm
      rw [hfe]
      simp only [hk2, if_false]

theorem extractEcmpObjects_invalid (l : List EcmpObjectDynamic) (c : Cache)
    (h : ∃ o ∈ l, o.ecmpEgressId = INVALID) : extractEcmpObjects l c = .error .CheckFailed := by
  induction l generalizing c with
  | nil =>
    obtain ⟨o, ho, _⟩ := h
    cases ho
  | cons e rest ih =>
    unfold extractEcmpObjects
    by_cases hinv : e.ecmpEgressId = INVALID
    · rw [if_neg (not_not.2 hinv)]
    · rw [if_pos hinv]
      apply ih
      obtain ⟨o, ho, hoi⟩ := h
      rcases List.mem_cons.1 ho with h2 | h2
      · rw [h2] at hoi
        exact absurd hoi hinv
      · exact ⟨o, h2, hoi⟩

theorem extractEcmpHosts_skip (l : List EcmpHostDynamic) (c : Cache) :
    extractEcmpHosts (l.filter (fun e => decide (e.ecmpEgressId ≠ INVALID))) c =
      extractEcmpHosts l c := by
  induction l generalizing c with
  | nil => rfl
  | cons e rest ih =>
    rw [List.filter_cons]
    by_cases hinv : e.ecmpEgressId = INVALID
    · have hd : ¬ decide (e.ecmpEgressId ≠ INVALID) = true := by simp [hinv]
      rw [if_neg hd]
      conv_rhs => unfold extractEcmpHosts
      rw [if_pos hinv]
      exact ih c
    · have hd : decide (e.ecmpEgressId ≠ INVALID) = true := by simp [hinv]
      rw [if_pos hd]
      conv_lhs => unfold extractEcmpHosts
      conv_rhs => unfold extractEcmpHosts
      rw [if_neg hinv, if_neg hinv]
      exact ih _

/-! ## The properties -/

/-- C1: in the trace of every run of `clear()`, from every cache and on every
hardware, all route and host-table deletions come before all ECMP-group
destroys, these before all egress destroys, these before all L3-interface
deletions, these before all L2-station deletions, and these before all VLAN
destroys. -/
theorem clear_dependency_order (hw : Hw) (c : Cache) :
    Precedes (runClear hw c).2.trace (fun x => isRouteDelete x || isHostDelete x) isEcmpDestroy ∧
    Precedes (runClear hw c).2.trace isEcmpDestroy isEgressDestroy ∧
    Precedes (runClear hw c).2.trace isEgressDestroy isIntfDelete ∧
    Precedes (runClear hw c).2.trace isIntfDelete isStationDelete ∧
    Precedes (runClear hw c).2.trace isStationDelete isVlanDestroy := by
  have hs := runClear_rank_sorted hw c
  refine ⟨precedes_of_rank hs ?_, precedes_of_rank hs ?_, precedes_of_rank hs ?_,
    precedes_of_rank hs ?_, precedes_of_rank hs ?_⟩
  · intro a b ha hb
    have h2 := sweepRank_isEcmpDestroy hb
    rcases Bool.or_eq_true_iff.1 ha with h | h
    · have h1 := sweepRank_isRouteDelete h
      omega
    · have h1 := sweepRank_isHostDelete h
      omega
  · intro a b ha hb
    have h1 := sweepRank_isEcmpDestroy ha
    have h2 := sweepRank_isEgressDestroy hb
    omega
  · intro a b ha hb
    have h1 := sweepRank_isEgressDestroy ha
    have h2 := sweepRank_isIntfDelete hb
    omega
  · intro a b ha hb
    have h1 := sweepRank_isIntfDelete ha
    have h2 := sweepRank_isStationDelete hb
    omega
  · intro a b ha hb
    have h1 := sweepRank_isStationDelete ha
    have h2 := sweepRank_isVlanDestroy hb
    omega

/-- Witness of C1: in the complete run on `sampleCache` the host-table deletion
is the fourth call and the ECMP-group destroy the fifth. -/
theorem clear_dependency_order_witness :
    (runClear hwOk sampleCache).2.trace[3]? =
      some (HwCall.l3_host_delete { l3a_ip_addr := 167772162, l3a_intf := 100002 }) ∧
    (runClear hwOk sampleCache).2.trace[4]? =
      some (HwCall.l3_egress_ecmp_destroy { ecmp_intf := 200000 }) ∧
    3 < 4 :=
  ⟨by decide!, by decide!,
    (clear_dependency_order hwOk sampleCache).1 3 4
      (HwCall.l3_host_delete { l3a_ip_addr := 167772162, l3a_intf := 100002 })
      (HwCall.l3_egress_ecmp_destroy { ecmp_intf := 200000 }) (by decide!) (by decide!) rfl rfl⟩

/-- C2: when `clear()` runs to completion, the deletions issued for each class
are, one for one and in iteration order, the entries that the index of the
class held at the start (the route primitive serves the prefix-route and the
host-route index, the interface primitive the MPLS-tunnel and the L3-interface
index), and afterwards each of these indices and the ACL-stat index is empty. -/
theorem clear_deletes_every_entry (hw : Hw) (c : Cache)
    (h : (runClear hw c).1 = .ok ()) :
    ((runClear hw c).2.trace.filter isRouteDelete =
        c.vrfPrefix2Route_.entries.map (fun e => HwCall.l3_route_delete e.2) ++
          c.vrfAndIP2Route_.entries.map (fun e => HwCall.l3_route_delete e.2)) ∧
    ((runClear hw c).2.trace.filter isHostDelete =
        c.vrfIp2Host_.entries.map (fun e => HwCall.l3_host_delete e.2)) ∧
    ((runClear hw c).2.trace.filter isEcmpDestroy =
        c.egressIds2Ecmp_.entries.map (fun e => HwCall.l3_egress_ecmp_destroy e.2)) ∧
    ((runClear hw c).2.trace.filter isEgressDestroy =
        c.egressId2Egress_.entries.map (fun e => HwCall.l3_egress_destroy e.1)) ∧
    ((runClear hw c).2.trace.filter isIntfDelete =
        c.labelStackKey2TunnelId_.entries.map (fun e => HwCall.l3_intf_delete
          { l3a_intf_id := e.2, l3a_flags := BCM_L3_WITH_ID }) ++
          c.vlanAndMac2Intf_.entries.map (fun e => HwCall.l3_intf_delete e.2)) ∧
    ((runClear hw c).2.trace.filter isTunnelClear =
        c.labelStackKey2TunnelId_.entries.map
          (fun e => HwCall.mpls_tunnel_initiator_clear e.2)) ∧
    ((runClear hw c).2.trace.filter isStationDelete =
        c.vlan2Station_.entries.map (fun e => HwCall.l2_station_delete e.1)) ∧
    ((runClear hw c).2.trace.filter isAclDestroy =
        c.priority2BcmAclEntryHandle_.entries.map (fun e => HwCall.field_entry_destroy e.2)) ∧
    ((runClear hw c).2.trace.filter isLabelSwitchDelete =
        c.label2LabelActions_.entries.map (fun e => HwCall.mpls_tunnel_switch_delete e.2)) ∧
    (runClear hw c).2.cache.vrfPrefix2Route_.entries = [] ∧
    (runClear hw c).2.cache.vrfAndIP2Route_.entries = [] ∧
    (runClear hw c).2.cache.vrfIp2Host_.entries = [] ∧
    (runClear hw c).2.cache.egressIds2Ecmp_.entries = [] ∧
    (runClear hw c).2.cache.egressId2Egress_.entries = [] ∧
    (runClear hw c).2.cache.vlanAndMac2Intf_.entries = [] ∧
    (runClear hw c).2.cache.vlan2Station_.entries = [] ∧
    (runClear hw c).2.cache.priority2BcmAclEntryHandle_.entries = [] ∧
    (runClear hw c).2.cache.label2LabelActions_.entries = [] ∧
    (runClear hw c).2.cache.labelStackKey2TunnelId_.entries = [] ∧
    (runClear hw c).2.cache.aclEntry2AclStat_.entries = [] := by
  obtain ⟨ht, hc, _⟩ := runClear_ok hw c h
  rw [ht, hc]
  exact ⟨clearPlan_filter_isRouteDelete _ c, clearPlan_filter_isHostDelete _ c,
    clearPlan_filter_isEcmpDestroy _ c, clearPlan_filter_isEgressDestroy _ c,
    clearPlan_filter_isIntfDelete _ c, clearPlan_filter_isTunnelClear _ c,
    clearPlan_filter_isStationDelete _ c, clearPlan_filter_isAclDestroy _ c,
    clearPlan_filter_isLabelSwitchDelete _ c, rfl, rfl, rfl, rfl, rfl, rfl, rfl, rfl, rfl,
    rfl, rfl⟩

/-- Witness of C2: on `sampleCache` and hardware that never fails, `clear()`
runs to completion, issues the two route deletions and leaves no route. -/
theorem clear_deletes_every_entry_witness :
    (runClear hwOk sampleCache).1 = .ok () ∧
    (runClear hwOk sampleCache).2.trace.filter isRouteDelete =
      [HwCall.l3_route_delete { l3a_subnet := 167772160 },
       HwCall.l3_route_delete { l3a_subnet := 167772161 }] ∧
    (runClear hwOk sampleCache).2.cache.vrfPrefix2Route_.entries = [] :=
  ⟨by decide!, (clear_deletes_every_entry hwOk sampleCache (by decide!)).1,
    (clear_deletes_every_entry hwOk sampleCache (by decide!)).2.2.2.2.2.2.2.2.2.1⟩

/-- C3: `clear()` never destroys the default VLAN of the hardware; when it runs
to completion it has destroyed every other VLAN of the VLAN index exactly once,
and the VLAN index afterwards holds the entry of the default VLAN if it held
one before, and no other entry. -/
theorem clear_vlan_sweep (hw : Hw) (c : Cache) :
    HwCall.vlan_destroy hw.defaultVlan ∉ (runClear hw c).2.trace ∧
    ((runClear hw c).1 = .ok () →
      (∀ v info, (v, info) ∈ c.vlan2VlanInfo_.entries → v ≠ hw.defaultVlan →
        (runClear hw c).2.trace.count (HwCall.vlan_destroy v) = 1) ∧
      (∀ v info, (v, info) ∈ (runClear hw c).2.cache.vlan2VlanInfo_.entries ↔
        ((v, info) ∈ c.vlan2VlanInfo_.entries ∧ v = hw.defaultVlan))) := by
  refine ⟨?_, ?_⟩
  · intro hmem
    have h1 : HwCall.vlan_destroy hw.defaultVlan ∈
        (clearPlan hw.defaultVlan c).filter isVlanDestroy :=
      List.mem_filter.2 ⟨(runClear_trace hw c).mem hmem, rfl⟩
    rw [clearPlan_filter_isVlanDestroy] at h1
    simp only [List.mem_map, List.mem_filter] at h1
    obtain ⟨e, ⟨_, hne⟩, heq⟩ := h1
    injection heq with h2
    simp [h2] at hne
  · intro hok
    obtain ⟨ht, hc, _⟩ := runClear_ok hw c hok
    refine ⟨?_, ?_⟩
    · intro v info hv hne
      have e1 : ∀ l : List (VlanID × VlanInfo), l.map (fun e => HwCall.vlan_destroy e.1) =
          (l.map Prod.fst).map HwCall.vlan_destroy := fun l => by
        simp [List.map_map, Function.comp_def]
      rw [ht, count_clearPlan_vlan_destroy, e1]
      rw [List.count_map_of_injective _ _ (fun a b hab => by injection hab)]
      apply List.count_eq_one_of_mem (FlatMap.nodup_filter _ _)
      exact List.mem_map.2 ⟨(v, info), List.mem_filter.2 ⟨hv, by simpa using hne⟩, rfl⟩
    · intro v info
      rw [hc]
      simp [clearPost, FlatMap.filter, List.mem_filter]

/-- Witness of C3: on `sampleCache`, whose VLAN index holds the default VLAN 1
and the VLANs 5 and 6, a complete run destroys VLAN 5 once and keeps only VLAN 1. -/
theorem clear_vlan_sweep_witness :
    (runClear hwOk sampleCache).1 = .ok () ∧
    (runClear hwOk sampleCache).2.trace.count (HwCall.vlan_destroy 5) = 1 ∧
    ((5, (⟨5, 6, 6⟩ : VlanInfo)) ∈ (runClear hwOk sampleCache).2.cache.vlan2VlanInfo_.entries ↔
      ((5, (⟨5, 6, 6⟩ : VlanInfo)) ∈ sampleCache.vlan2VlanInfo_.entries ∧ 5 = hwOk.defaultVlan)) :=
  ⟨by decide!,
    ((clear_vlan_sweep hwOk sampleCache).2 (by decide!)).1 5 ⟨5, 6, 6⟩ (by decide!) (by decide!),
    ((clear_vlan_sweep hwOk sampleCache).2 (by decide!)).2 5 ⟨5, 6, 6⟩⟩

/-- C4: for every content of the ACL-entry-to-stat index, `clear()` never
destroys a stat that a claimed entry carries, destroys no stat twice, and, when
it runs to completion, destroys exactly once every stat of the index that no
claimed entry carries, however many entries share the stat. -/
theorem clear_acl_stat_destroyed_once (hw : Hw) (c : Cache) :
    (∀ h, (∃ e ∈ c.aclEntry2AclStat_.entries, e.2.claimed = true ∧ e.2.stat = h) →
      (runClear hw c).2.trace.count (HwCall.field_stat_destroy h) = 0) ∧
    (∀ h, (runClear hw c).2.trace.count (HwCall.field_stat_destroy h) ≤ 1) ∧
    ((runClear hw c).1 = .ok () →
      ∀ h, (∃ e ∈ c.aclEntry2AclStat_.entries, e.2.stat = h) →
        (∀ e ∈ c.aclEntry2AclStat_.entries, e.2.stat = h → e.2.claimed = false) →
        (runClear hw c).2.trace.count (HwCall.field_stat_destroy h) = 1) := by
  refine ⟨?_, ?_, ?_⟩
  · intro h hcl
    have h1 := count_trace_le hw c (HwCall.field_stat_destroy h)
    rw [count_clearPlan_stat_destroy, count_destroyCalls_of_used _ _
      ((mem_claimedStats _ _).2 (Or.inr hcl))] at h1
    exact Nat.le_zero.1 h1
  · intro h
    have h1 := count_trace_le hw c (HwCall.field_stat_destroy h)
    rw [count_clearPlan_stat_destroy] at h1
    exact le_trans h1 (count_destroyCalls_le_one h _ _)
  · intro hok h hex hun
    obtain ⟨ht, _, _⟩ := runClear_ok hw c hok
    rw [ht, count_clearPlan_stat_destroy]
    apply count_destroyCalls_of_fresh _ _ _ hex
    rw [mem_claimedStats]
    rintro (h1 | ⟨e, he, hc, hs⟩)
    · simp at h1
    · rw [hun e he hs] at hc
      cases hc

/-- Witness of C4: on `sampleCache` a complete run destroys stat 7, shared by two
unclaimed entries, exactly once, and does not destroy stat 8, which a claimed
entry carries although an unclaimed entry carries it too. -/
theorem clear_acl_stat_destroyed_once_witness :
    (runClear hwOk sampleCache).1 = .ok () ∧
    (runClear hwOk sampleCache).2.trace.count (HwCall.field_stat_destroy 7) = 1 ∧
    (runClear hwOk sampleCache).2.trace.count (HwCall.field_stat_destroy 8) = 0 :=
  ⟨by decide!,
    (clear_acl_stat_destroyed_once hwOk sampleCache).2.2 (by decide!) 7
      ⟨(10, ⟨7, false⟩), by decide!, rfl⟩ (by decide!),
    (clear_acl_stat_destroyed_once hwOk sampleCache).1 8 ⟨(12, ⟨8, true⟩), by decide!, rfl, rfl⟩⟩

/-- C5: in the trace of every run of `clear()`, a destroy of an ACL stat comes
after a detach of that stat from every ACL entry of the index that carries it,
and no detach is issued for an entry that is marked claimed. -/
theorem clear_acl_stat_detached_first (hw : Hw) (c : Cache) :
    (∀ (j : Nat) (h : BcmAclStatHandle),
      (runClear hw c).2.trace[j]? = some (HwCall.field_stat_destroy h) →
      ∀ e ∈ c.aclEntry2AclStat_.entries, e.2.stat = h →
        ∃ i, i < j ∧
          (runClear hw c).2.trace[i]? = some (HwCall.field_entry_stat_detach e.1 h)) ∧
    (∀ e ∈ c.aclEntry2AclStat_.entries, e.2.claimed = true →
      HwCall.field_entry_stat_detach e.1 e.2.stat ∉ (runClear hw c).2.trace) := by
  have hpre := runClear_trace hw c
  refine ⟨?_, ?_⟩
  · intro j h hj e he hst
    have hpj := getElem?_of_isPrefix hpre hj
    have hnot := mem_clearPlan_of_isStatDestroy (List.mem_iff_getElem?.2 ⟨j, hpj⟩)
    obtain ⟨acl, status⟩ := e
    obtain ⟨st, cl⟩ := status
    simp only at hst
    subst hst
    have hcl : cl = false := by
      cases cl with
      | false => rfl
      | true => exact absurd ((mem_claimedStats _ _).2 (Or.inr ⟨_, he, rfl, rfl⟩)) hnot
    subst hcl
    have hdp : HwCall.field_entry_stat_detach acl st ∈ clearPlan hw.defaultVlan c :=
      mem_clearPlan_of_isStatDetach.2 he
    obtain ⟨i, hi⟩ := List.mem_iff_getElem?.1 hdp
    have hord : Precedes (clearPlan hw.defaultVlan c) isStatDetach isStatDestroy :=
      precedes_of_rank (clearPlan_rankSorted hw.defaultVlan c).2 (by
        intro a b ha hb
        cases a <;> cases b <;> simp_all [isStatDetach, isStatDestroy, sweepRank])
    have hij : i < j := hord i j _ _ hi hpj rfl rfl
    have hjl : j < (runClear hw c).2.trace.length := (List.getElem?_eq_some.1 hj).1
    exact ⟨i, hij, getElem?_isPrefix_of_lt hpre (lt_trans hij hjl) hi⟩
  · intro e he hc hmem
    obtain ⟨acl, status⟩ := e
    have h1 := mem_clearPlan_of_isStatDetach.1 (hpre.mem hmem)
    have h2 := FlatMap.value_unique _ h1 he
    rw [← h2] at hc
    cases hc

/-- Witness of C5: in the complete run on `sampleCache` stat 7 is destroyed by
call 18, after its detach from ACL entry 11, and stat 8 is never detached from
the claimed ACL entry 12. -/
theorem clear_acl_stat_detached_first_witness :
    (runClear hwOk sampleCache).2.trace[18]? = some (HwCall.field_stat_destroy 7) ∧
    (∃ i, i < 18 ∧
      (runClear hwOk sampleCache).2.trace[i]? = some (HwCall.field_entry_stat_detach 11 7)) ∧
    HwCall.field_entry_stat_detach 12 8 ∉ (runClear hwOk sampleCache).2.trace :=
  ⟨by decide!,
    (clear_acl_stat_detached_first hwOk sampleCache).1 18 7 (by decide!) (11, ⟨7, false⟩)
      (by decide!) rfl,
    (clear_acl_stat_detached_first hwOk sampleCache).2 (12, ⟨8, true⟩) (by decide!) rfl⟩

/-- C6 (the code at a failing input): a failed deletion of a label-switch action,
and a failed clear of an MPLS tunnel initiator, end `clear()` with the exception
`BcmError`, which is not a process abort, while a failed route deletion ends it
with the abort of `bcmLogFatal`. -/
theorem clear_mpls_failure_is_exception :
    (runClear (hwFailing isLabelSwitchDelete) sampleCache).1 = .error (.BcmError (-1)) ∧
    (runClear (hwFailing isTunnelClear) sampleCache).1 = .error (.BcmError (-1)) ∧
    (Failure.BcmError (-1)).isFatal = false ∧
    (runClear (hwFailing isRouteDelete) sampleCache).1 = .error (.LogFatal (-1)) ∧
    (Failure.LogFatal (-1)).isFatal = true := by
  decide!

/-- C7 as stated fails: on hardware where the query for the default VLAN fails,
no deletion and no detach of the run fails, and yet `clear()` ends in a fatal
abort although the five checked indices are empty at its end. -/
theorem clear_fatal_without_residual :
    ¬ (NoFailure (hwFailing isVlanDefaultGet) (fun call => !isVlanDefaultGet call)
          (runClear (hwFailing isVlanDefaultGet) sampleCache).2.trace →
        ((∃ e, (runClear (hwFailing isVlanDefaultGet) sampleCache).1 = .error e ∧
            e.isFatal = true) ↔
          ¬ residualFree (runClear (hwFailing isVlanDefaultGet) sampleCache).2.cache)) := by
  have h1 : NoFailure (hwFailing isVlanDefaultGet) (fun call => !isVlanDefaultGet call)
      (runClear (hwFailing isVlanDefaultGet) sampleCache).2.trace := by
    intro pre call _ hne
    cases call <;> simp [hwFailing, isVlanDefaultGet] at hne ⊢
  have h2 : (runClear (hwFailing isVlanDefaultGet) sampleCache).1 =
      .error (.LogFatal (-1)) := by decide!
  have h3 : residualFree (runClear (hwFailing isVlanDefaultGet) sampleCache).2.cache := by
    decide!
  intro h
  exact ((h h1).1 ⟨_, h2, rfl⟩) h3

/-- C7, amended: `clear()` never changes the mirrored-port, mirrored-ACL,
mirror-destination, QoS-key and QoS-map indices; and when no hardware call of
the run fails (no deletion, no detach and not the query for the default VLAN),
it ends in a fatal abort if and only if one of these five indices is non-empty
at its end, and it returns otherwise. -/
theorem clear_residual_check (hw : Hw) (c : Cache) :
    sameResidual c (runClear hw c).2.cache ∧
    (NoFailure hw (fun _ => true) (runClear hw c).2.trace →
      (((∃ e, (runClear hw c).1 = .error e ∧ e.isFatal = true) ↔
          ¬ residualFree (runClear hw c).2.cache) ∧
        ((runClear hw c).1 = .ok () ↔ residualFree (runClear hw c).2.cache))) := by
  have hs := runClear_residual hw c
  refine ⟨hs, ?_⟩
  intro hok
  rw [residualFree_congr hs]
  rcases hr : (runClear hw c).1 with e | u
  · rcases runClear_error hw c e hr with ⟨_, pre, call, htr, hneg⟩ | ⟨he, hres⟩
    · exact absurd (hok pre call (by rw [htr]) rfl) (not_le.2 hneg)
    · subst he
      refine ⟨⟨fun _ => hres, fun _ => ⟨_, rfl, rfl⟩⟩, ⟨?_, fun h => absurd h hres⟩⟩
      intro h
      cases h
  · have hres := (runClear_ok hw c hr).2.2
    refine ⟨⟨?_, fun h => absurd hres h⟩, ⟨fun _ => hres, fun _ => rfl⟩⟩
    rintro ⟨e, h1, _⟩
    cases h1

/-- Witness of C7, amended: on hardware that never fails, `sampleCache`, which
has no residual mirror or QoS entry, is swept to completion, and the cache with
an unclaimed mirrored port ends `clear()` in a fatal abort. -/
theorem clear_residual_check_witness :
    NoFailure hwOk (fun _ => true) (runClear hwOk sampleCache).2.trace ∧
    (runClear hwOk sampleCache).1 = .ok () ∧
    NoFailure hwOk (fun _ => true) (runClear hwOk mirrorLeftCache).2.trace ∧
    (∃ e, (runClear hwOk mirrorLeftCache).1 = .error e ∧ e.isFatal = true) :=
  ⟨fun _ _ _ _ => le_refl 0,
    (((clear_residual_check hwOk sampleCache).2 (fun _ _ _ _ => le_refl 0)).2).2 (by decide!),
    fun _ _ _ _ => le_refl 0,
    (((clear_residual_check hwOk mirrorLeftCache).2 (fun _ _ _ _ => le_refl 0)).1).2
      (by decide!)⟩

/-- C8 as stated fails: on `sampleCache` the first five calls of `clear()` are the
prefix-route deletion, the host-route deletion, the label-switch-action
deletion, the host-table deletion and the ECMP-group destroy, so the ECMP-group
destroys do not all come before the host-table deletions. -/
theorem clear_documented_order_fails :
    (runClear hwOk sampleCache).2.trace.take 5 =
      [HwCall.l3_route_delete { l3a_subnet := 167772160 },
       HwCall.l3_route_delete { l3a_subnet := 167772161 },
       HwCall.mpls_tunnel_switch_delete { label := 1001 },
       HwCall.l3_host_delete { l3a_ip_addr := 167772162, l3a_intf := 100002 },
       HwCall.l3_egress_ecmp_destroy { ecmp_intf := 200000 }] ∧
    ¬ Precedes (runClear hwOk sampleCache).2.trace isEcmpDestroy isHostDelete := by
  refine ⟨by decide!, ?_⟩
  intro h
  have h1 := h 4 3 (HwCall.l3_egress_ecmp_destroy { ecmp_intf := 200000 })
    (HwCall.l3_host_delete { l3a_ip_addr := 167772162, l3a_intf := 100002 })
    (by decide!) (by decide!) rfl rfl
  omega

/-- C8, amended: the calls of every run of `clear()` are a beginning of
`clearPlan`, which lists all prefix-route deletions, then all host-route
deletions, the label-switch-action deletions, the host-table deletions, the
ECMP-group destroys, the egress destroys, for each MPLS tunnel the initiator
clear and the interface deletion, then the L3-interface deletions, the
L2-station deletions, the query for the default VLAN, the VLAN destroys, the
ACL-stat detaches, the ACL-stat destroys and the ACL-entry destroys; a run that
completes has issued exactly `clearPlan`. -/
theorem clear_sweep_order (hw : Hw) (c : Cache) :
    (runClear hw c).2.trace <+: clearPlan hw.defaultVlan c ∧
    ((runClear hw c).1 = .ok () → (runClear hw c).2.trace = clearPlan hw.defaultVlan c) :=
  ⟨runClear_trace hw c, fun h => (runClear_ok hw c h).1⟩

/-- Witness of C8, amended: the complete run on `sampleCache`. -/
theorem clear_sweep_order_witness :
    (runClear hwOk sampleCache).1 = .ok () ∧
    (runClear hwOk sampleCache).2.trace = clearPlan hwOk.defaultVlan sampleCache :=
  ⟨by decide!, (clear_sweep_order hwOk sampleCache).2 (by decide!)⟩

/-- C9 as stated fails: the warm-boot file binds ECMP id 200001 to a non-empty
member set, but an ECMP object is already recorded under that set, and the
callback for 200001 ends in a failed `CHECK` instead of returning success. -/
theorem ecmp_callback_duplicate_members_fatal :
    sharedMembersCache.hwSwitchEcmp2EgressIds_.find 200001 = some {100002, 100003} ∧
    0 < ({100002, 100003} : EgressIds).card ∧
    ecmpEgressTraversalCallback { ecmp_intf := 200001 } 2 [100002, 100003] sharedMembersCache =
      .error .CheckFailed := by
  decide!

/-- C9, amended: when the warm-boot file binds the reported ECMP id to a
non-empty member set `S` under which no ECMP object is recorded yet, the
callback returns success and records the hardware ECMP object under key `S`,
whatever interface array and interface count hardware reports; when an ECMP
object is already recorded under `S` it fails a `CHECK`; and for every bound
id the outcome of the callback does not depend on the interface array or the
interface count. -/
theorem ecmp_callback_records_snapshot_members (cache : Cache) (ecmp : bcm_l3_egress_ecmp_t)
    (S : EgressIds) (hbound : cache.hwSwitchEcmp2EgressIds_.find ecmp.ecmp_intf = some S)
    (intfCount : Int) (intfArray : List bcm_if_t) :
    (0 < S.card → cache.egressIds2Ecmp_.find S = none →
      ecmpEgressTraversalCallback ecmp intfCount intfArray cache =
        .ok (0, { cache with egressIds2Ecmp_ := cache.egressIds2Ecmp_.insert S ecmp }) ∧
      (cache.egressIds2Ecmp_.insert S ecmp).find S = some ecmp) ∧
    ((cache.egressIds2Ecmp_.find S).isSome = true →
      ecmpEgressTraversalCallback ecmp intfCount intfArray cache = .error .CheckFailed) ∧
    (∀ (intfCount2 : Int) (intfArray2 : List bcm_if_t),
      ecmpEgressTraversalCallback ecmp intfCount intfArray cache =
        ecmpEgressTraversalCallback ecmp intfCount2 intfArray2 cache) := by
  have hne := FlatMap.isEmpty_of_find hbound
  have hp : getPathsForEcmp cache ecmp.ecmp_intf = .ok S := by
    simp [getPathsForEcmp, hne, hbound]
  refine ⟨?_, ?_, ?_⟩
  · intro hcard hfresh
    refine ⟨?_, FlatMap.find_insert_self _ _ _⟩
    simp [ecmpEgressTraversalCallback, hp, hcard, hfresh]
  · intro hdup
    by_cases hcard : 0 < S.card
    · simp [ecmpEgressTraversalCallback, hp, hcard, hdup]
    · simp [ecmpEgressTraversalCallback, hp, hcard]
  · intro n2 a2
    simp [ecmpEgressTraversalCallback, hp]

/-- Witness of C9, amended: ECMP id 200256 is bound to two members, hardware
reports no interface at all, and the object is recorded under the two members. -/
theorem ecmp_callback_records_snapshot_members_witness :
    oneEcmpCache.hwSwitchEcmp2EgressIds_.find 200256 = some {100002, 100003} ∧
    ecmpEgressTraversalCallback { ecmp_intf := 200256 } 0 [] oneEcmpCache =
      .ok (0, { oneEcmpCache with egressIds2Ecmp_ :=
        oneEcmpCache.egressIds2Ecmp_.insert {100002, 100003} { ecmp_intf := 200256 } }) :=
  ⟨by decide!,
    ((ecmp_callback_records_snapshot_members oneEcmpCache { ecmp_intf := 200256 }
      {100002, 100003} (by decide!) 0 []).1 (by decide!) (by decide!)).1⟩

/-- C10 as stated fails: the warm-boot file binds an ECMP id but not the reported
id 200257, hardware reports an interface count of zero, and the callback
returns success and leaves the cache unchanged instead of raising an error. -/
theorem ecmp_callback_unbound_zero_count_skipped :
    oneEcmpCache.hwSwitchEcmp2EgressIds_.isEmpty = false ∧
    oneEcmpCache.hwSwitchEcmp2EgressIds_.find 200257 = none ∧
    ecmpEgressTraversalCallback { ecmp_intf := 200257 } 0 [] oneEcmpCache =
      .ok (0, oneEcmpCache) := by
  decide!

/-- C10, amended: for a non-empty ECMP member map of the warm-boot file, the
callback raises an error exactly when the reported ECMP id is not bound and
hardware reports a non-zero interface count; for an id that is not bound and an
interface count of zero it returns success and leaves the cache unchanged; and
it completes without failure exactly in that case and when the id is bound to
a non-empty member set under which no ECMP object is recorded yet. -/
theorem ecmp_callback_error_iff (cache : Cache) (ecmp : bcm_l3_egress_ecmp_t)
    (intfCount : Int) (intfArray : List bcm_if_t)
    (hmap : cache.hwSwitchEcmp2EgressIds_.isEmpty = false) :
    (ecmpEgressTraversalCallback ecmp intfCount intfArray cache = .error .FbossError ↔
      (cache.hwSwitchEcmp2EgressIds_.find ecmp.ecmp_intf = none ∧ intfCount ≠ 0)) ∧
    (cache.hwSwitchEcmp2EgressIds_.find ecmp.ecmp_intf = none → intfCount = 0 →
      ecmpEgressTraversalCallback ecmp intfCount intfArray cache = .ok (0, cache)) ∧
    ((∃ r, ecmpEgressTraversalCallback ecmp intfCount intfArray cache = .ok r) ↔
      ((cache.hwSwitchEcmp2EgressIds_.find ecmp.ecmp_intf = none ∧ intfCount = 0) ∨
        ∃ S, cache.hwSwitchEcmp2EgressIds_.find ecmp.ecmp_intf = some S ∧ 0 < S.card ∧
          cache.egressIds2Ecmp_.find S = none)) := by
  cases hf : cache.hwSwitchEcmp2EgressIds_.find ecmp.ecmp_intf with
  | none =>
    have hp : getPathsForEcmp cache ecmp.ecmp_intf = .error .FbossError := by
      simp [getPathsForEcmp, hmap, hf]
    by_cases hc : intfCount = 0
    · simp [ecmpEgressTraversalCallback, hp, hc]
    · simp [ecmpEgressTraversalCallback, hp, hc]
  | some S =>
    have hp : getPathsForEcmp cache ecmp.ecmp_intf = .ok S := by
      simp [getPathsForEcmp, hmap, hf]
    by_cases hcard : 0 < S.card
    · have hne := Finset.card_pos.1 hcard
      cases hfr : cache.egressIds2Ecmp_.find S with
      | none => simp [ecmpEgressTraversalCallback, hp, hcard, hfr, hne]
      | some v => simp [ecmpEgressTraversalCallback, hp, hcard, hfr]
    · have hne : ¬ S.Nonempty := fun h => hcard (Finset.card_pos.2 h)
      simp [ecmpEgressTraversalCallback, hp, hcard, hne]

/-- Witness of C10, amended: the reported id 200257 is not bound and hardware
reports two interfaces, so the callback raises `FbossError`. -/
theorem ecmp_callback_error_iff_witness :
    oneEcmpCache.hwSwitchEcmp2EgressIds_.isEmpty = false ∧
    ecmpEgressTraversalCallback { ecmp_intf := 200257 } 2 [100002, 100003] oneEcmpCache =
      .error .FbossError :=
  ⟨by decide!,
    ((ecmp_callback_error_iff oneEcmpCache { ecmp_intf := 200257 } 2 [100002, 100003]
      (by decide!)).1).2 ⟨by decide!, by decide⟩⟩

/-- C11 (counterexample): a second egress object that carries the discard flag
and whose id the restored snapshot does not hold does not become the drop
egress. From the restored sample cache the scan records the discarding egress
100000 as drop egress; the discarding egress 100001, visited for the first
time, then aborts the process. -/
theorem egress_callback_second_drop_fatal :
    populateFromWarmBootState sampleState {} = .ok restoredCache ∧
    egressTraversalCallback samplePlatform sampleQuery 100000 dropEgress restoredCache =
      .ok (0, { restoredCache with dropEgressId_ := 100000 }) ∧
    (100001 : EgressId) ∉ restoredCache.egressIdsInWarmBootFile_ ∧
    restoredCache.egressId2Egress_.find 100001 = none ∧
    dropEgress.flags &&& BCM_L3_DST_DISCARD ≠ 0 ∧
    egressTraversalCallback samplePlatform sampleQuery 100001 dropEgress
      { restoredCache with dropEgressId_ := 100000 } = .error .CheckFailed := by
  refine ⟨by decide!, by decide!, by decide!, by decide!, by decide!, by decide!⟩

/-- C11 (amended): on the first visit of an egress id (the id is not yet a key of
the egress index) `egressTraversalCallback` does exactly one of these. If the
id is among the egress ids of the restored snapshot, the egress is recorded in
the egress index under its id, whatever its flags, and the callback returns 0.
Otherwise, if it carries the discard flag, it becomes the drop egress when no
drop egress is recorded yet, and the callback aborts when one is. Otherwise,
if it carries a to-CPU flag, it becomes the to-CPU egress when none is recorded
yet, and the callback aborts when one is. Otherwise the callback aborts. The
two other records are left as they were. -/
theorem egress_callback_classification (platform : Platform) (q : HwQuery) (egressId : EgressId)
    (egress : bcm_l3_egress_t) (cache : Cache)
    (hfirst : cache.egressId2Egress_.find egressId = none) :
    (egressId ∈ cache.egressIdsInWarmBootFile_ →
      ∃ c2 : Cache, egressTraversalCallback platform q egressId egress cache = .ok (0, c2) ∧
        c2.egressId2Egress_ = cache.egressId2Egress_.insert egressId egress ∧
        c2.egressId2Egress_.find egressId = some egress ∧
        c2.dropEgressId_ = cache.dropEgressId_ ∧ c2.toCPUEgressId_ = cache.toCPUEgressId_) ∧
    (egressId ∉ cache.egressIdsInWarmBootFile_ → egress.flags &&& BCM_L3_DST_DISCARD ≠ 0 →
      (cache.dropEgressId_ = INVALID →
        ∃ c2 : Cache, egressTraversalCallback platform q egressId egress cache = .ok (0, c2) ∧
          c2.dropEgressId_ = egressId ∧ c2.egressId2Egress_ = cache.egressId2Egress_ ∧
          c2.toCPUEgressId_ = cache.toCPUEgressId_) ∧
      (cache.dropEgressId_ ≠ INVALID →
        egressTraversalCallback platform q egressId egress cache = .error .CheckFailed)) ∧
    (egressId ∉ cache.egressIdsInWarmBootFile_ → ¬ egress.flags &&& BCM_L3_DST_DISCARD ≠ 0 →
      egress.flags &&& (BCM_L3_L2TOCPU ||| BCM_L3_COPY_TO_CPU) ≠ 0 →
      (cache.toCPUEgressId_ = INVALID →
        ∃ c2 : Cache, egressTraversalCallback platform q egressId egress cache = .ok (0, c2) ∧
          c2.toCPUEgressId_ = egressId ∧ c2.egressId2Egress_ = cache.egressId2Egress_ ∧
          c2.dropEgressId_ = cache.dropEgressId_) ∧
      (cache.toCPUEgressId_ ≠ INVALID →
        egressTraversalCallback platform q egressId egress cache = .error .CheckFailed)) ∧
    (egressId ∉ cache.egressIdsInWarmBootFile_ → ¬ egress.flags &&& BCM_L3_DST_DISCARD ≠ 0 →
      ¬ egress.flags &&& (BCM_L3_L2TOCPU ||| BCM_L3_COPY_TO_CPU) ≠ 0 →
      egressTraversalCallback platform q egressId egress cache = .error .CheckFailed) := by
  have h0 : ¬ (cache.egressId2Egress_.find egressId).isSome = true := by
    rw [hfirst]
    simp
  refine ⟨?_, ?_, ?_, ?_⟩
  · intro h1
    refine ⟨populateLabelStack2TunnelId platform q egress
      { cache with egressId2Egress_ := cache.egressId2Egress_.insert egressId egress },
      ?_, ?_, ?_, ?_, ?_⟩
    · unfold egressTraversalCallback
      rw [if_neg h0, if_pos h1]
    · rw [populateLabelStack2TunnelId_frame]
    · rw [populateLabelStack2TunnelId_frame]
      exact FlatMap.find_insert_self _ _ _
    · rw [populateLabelStack2TunnelId_frame]
    · rw [populateLabelStack2TunnelId_frame]
  · intro h1 h2
    refine ⟨?_, ?_⟩
    · intro h3
      have h4 : ¬ cache.dropEgressId_ ≠ INVALID := not_not.2 h3
      refine ⟨populateLabelStack2TunnelId platform q egress
        { cache with dropEgressId_ := egressId }, ?_, ?_, ?_, ?_⟩
      · unfold egressTraversalCallback
        rw [if_neg h0, if_neg h1, if_pos h2, if_neg h4]
      · rw [populateLabelStack2TunnelId_frame]
      · rw [populateLabelStack2TunnelId_frame]
      · rw [populateLabelStack2TunnelId_frame]
    · intro h3
      unfold egressTraversalCallback
      rw [if_neg h0, if_neg h1, if_pos h2, if_pos h3]
  · intro h1 h2 h5
    refine ⟨?_, ?_⟩
    · intro h3
      have h4 : ¬ cache.toCPUEgressId_ ≠ INVALID := not_not.2 h3
      refine ⟨populateLabelStack2TunnelId platform q egress
        { cache with toCPUEgressId_ := egressId }, ?_, ?_, ?_, ?_⟩
      · unfold egressTraversalCallback
        rw [if_neg h0, if_neg h1, if_neg h2, if_pos h5, if_neg h4]
      · rw [populateLabelStack2TunnelId_frame]
      · rw [populateLabelStack2TunnelId_frame]
      · rw [populateLabelStack2TunnelId_frame]
    · intro h3
      unfold egressTraversalCallback
      rw [if_neg h0, if_neg h1, if_neg h2, if_pos h5, if_pos h3]
  · intro h1 h2 h5
    unfold egressTraversalCallback
    rw [if_neg h0, if_neg h1, if_neg h2, if_neg h5]

/-- C11 (witness): on the restored sample cache the snapshot egress 100002 is
recorded in the egress index although it carries the discard flag. -/
theorem egress_callback_classification_witness :
    restoredCache.egressId2Egress_.find 100002 = none ∧
    (100002 : EgressId) ∈ restoredCache.egressIdsInWarmBootFile_ ∧
    ∃ c2 : Cache,
      egressTraversalCallback samplePlatform sampleQuery 100002 dropEgress restoredCache =
        .ok (0, c2) ∧
      c2.egressId2Egress_ = restoredCache.egressId2Egress_.insert 100002 dropEgress ∧
      c2.egressId2Egress_.find 100002 = some dropEgress ∧
      c2.dropEgressId_ = restoredCache.dropEgressId_ ∧
      c2.toCPUEgressId_ = restoredCache.toCPUEgressId_ :=
  ⟨by decide!, by decide!,
    (egress_callback_classification samplePlatform sampleQuery 100002 dropEgress restoredCache
      (by decide!)).1 (by decide!)⟩

/-- C12: during one scan, the second invocation of `egressTraversalCallback` for
an egress object aborts the process. Whatever the first visit of a valid egress
id recorded (an egress of the snapshot, the drop egress or the to-CPU egress),
and whatever other egress objects the scan visited successfully in between, the
second visit of the same egress object fails its check. -/
theorem egress_callback_second_visit_fatal (platform : Platform) (q : HwQuery)
    (egressId : EgressId) (egress : bcm_l3_egress_t)
    (between : List (EgressId × bcm_l3_egress_t)) (c0 c1 c2 : Cache) (r : Int)
    (hvalid : egressId ≠ INVALID)
    (hfirst : egressTraversalCallback platform q egressId egress c0 = .ok (r, c1))
    (hbetween : bcm_l3_egress_traverse platform q between c1 = .ok c2) :
    egressTraversalCallback platform q egressId egress c2 = .error .CheckFailed ∧
      Failure.CheckFailed.isFatal = true :=
  ⟨visited_fatal (visited_traverse between (visited_after_first hvalid hfirst) hbetween), rfl⟩

/-- C12 (witness): the drop egress 100000 is visited, then the snapshot egress
100002 and the to-CPU egress 100001; each of the three aborts the scan on its
second visit. -/
theorem egress_callback_second_visit_fatal_witness :
    (egressTraversalCallback samplePlatform sampleQuery 100000 dropEgress
        { restoredCache with
          egressId2Egress_ := ⟨[(100002, { intf := 3 })], by decide⟩
          dropEgressId_ := 100000
          toCPUEgressId_ := 100001 } = .error .CheckFailed ∧
      Failure.CheckFailed.isFatal = true) ∧
    (egressTraversalCallback samplePlatform sampleQuery 100002 { intf := 3 }
        { restoredCache with
          egressId2Egress_ := ⟨[(100002, { intf := 3 })], by decide⟩
          dropEgressId_ := 100000
          toCPUEgressId_ := 100001 } = .error .CheckFailed ∧
      Failure.CheckFailed.isFatal = true) ∧
    (egressTraversalCallback samplePlatform sampleQuery 100001 cpuEgress
        { restoredCache with
          egressId2Egress_ := ⟨[(100002, { intf := 3 })], by decide⟩
          dropEgressId_ := 100000
          toCPUEgressId_ := 100001 } = .error .CheckFailed ∧
      Failure.CheckFailed.isFatal = true) :=
  ⟨egress_callback_second_visit_fatal samplePlatform sampleQuery 100000 dropEgress
      [(100002, { intf := 3 }), (100001, cpuEgress)] restoredCache
      { restoredCache with dropEgressId_ := 100000 } _ 0 (by decide) (by decide!) (by decide!),
    egress_callback_second_visit_fatal samplePlatform sampleQuery 100002 { intf := 3 }
      [(100001, cpuEgress)] { restoredCache with dropEgressId_ := 100000 }
      { restoredCache with
        egressId2Egress_ := ⟨[(100002, { intf := 3 })], by decide⟩
        dropEgressId_ := 100000 } _ 0 (by decide) (by decide!) (by decide!),
    egress_callback_second_visit_fatal samplePlatform sampleQuery 100001 cpuEgress
      [] { restoredCache with
        egressId2Egress_ := ⟨[(100002, { intf := 3 })], by decide⟩
        dropEgressId_ := 100000 }
      { restoredCache with
        egressId2Egress_ := ⟨[(100002, { intf := 3 })], by decide⟩
        dropEgressId_ := 100000
        toCPUEgressId_ := 100001 } _ 0 (by decide) (by decide!) (by decide!)⟩

/-- C13: a second registration under an already-bound key raises nothing and
keeps the later entry. When `hostTraversalCallback` is invoked for a second
host entry with the (vrf, IP) of the first, it returns 0 and the host index
binds the key to the second entry; when `routeTraversalCallback` is invoked
for a second route with the (vrf, prefix, mask) of the first, it returns 0
and the route index that holds the key binds it to the second route. -/
theorem host_and_route_callbacks_keep_later_entry (platform : Platform) (cache : Cache)
    (host host2 : bcm_l3_host_t) (route route2 : bcm_l3_route_t)
    (hhost : hostResourceKey host2 = hostResourceKey host)
    (hroute : routeResourceKey route2 = routeResourceKey route) :
    ((hostTraversalCallback host cache).2.vrfIp2Host_.find (hostResourceKey host) = some host ∧
      (hostTraversalCallback host2 (hostTraversalCallback host cache).2).1 = 0 ∧
      (hostTraversalCallback host2 (hostTraversalCallback host cache).2).2.vrfIp2Host_.find
        (hostResourceKey host) = some host2) ∧
    ((routeTraversalCallback platform route2
        (routeTraversalCallback platform route cache).2).1 = 0 ∧
      if (platform.canUseHostTableForHostRoutes && hasFullWidthMask route) = true then
        (routeTraversalCallback platform route cache).2.vrfAndIP2Route_.find
          ((routeResourceKey route).1, (routeResourceKey route).2.1) = some route ∧
        (routeTraversalCallback platform route2
          (routeTraversalCallback platform route cache).2).2.vrfAndIP2Route_.find
          ((routeResourceKey route).1, (routeResourceKey route).2.1) = some route2
      else
        (routeTraversalCallback platform route cache).2.vrfPrefix2Route_.find
          (routeResourceKey route) = some route ∧
        (routeTraversalCallback platform route2
          (routeTraversalCallback platform route cache).2).2.vrfPrefix2Route_.find
          (routeResourceKey route) = some route2) := by
  refine ⟨⟨?_, rfl, ?_⟩, ?_⟩
  · rw [hostTraversalCallback_eq]
    exact FlatMap.find_insert_self _ _ _
  · rw [hostTraversalCallback_eq, hostTraversalCallback_eq, hhost]
    exact FlatMap.find_insert_self _ _ _
  · rw [routeTraversalCallback_eq platform route2, routeTraversalCallback_eq platform route,
      hasFullWidthMask_congr hroute, hroute]
    by_cases hp : (platform.canUseHostTableForHostRoutes && hasFullWidthMask route) = true
    · simp only [if_pos hp]
      exact ⟨trivial, FlatMap.find_insert_self _ _ _, FlatMap.find_insert_self _ _ _⟩
    · simp only [if_neg hp]
      exact ⟨trivial, FlatMap.find_insert_self _ _ _, FlatMap.find_insert_self _ _ _⟩

/-- C13 (witness): the host 10.0.0.1 of vrf 0 is reported twice, with the egress
100002 and then with the egress 100009, and the route 10.1.0.0/16 of vrf 0
likewise; both callbacks return 0 and keep the later entry. -/
theorem host_and_route_callbacks_keep_later_entry_witness :
    (hostTraversalCallback { l3a_ip_addr := 167772161, l3a_intf := 100009 }
      (hostTraversalCallback { l3a_ip_addr := 167772161, l3a_intf := 100002 } {}).2) =
      (0, { vrfIp2Host_ :=
        ⟨[((0, .v4 167772161), { l3a_ip_addr := 167772161, l3a_intf := 100009 })],
          by decide⟩ }) ∧
    (routeTraversalCallback samplePlatform
      { l3a_subnet := 167837696, l3a_ip_mask := 4294901760, l3a_intf := 100009 }
      (routeTraversalCallback samplePlatform
        { l3a_subnet := 167837696, l3a_ip_mask := 4294901760, l3a_intf := 100002 } {}).2) =
      (0, { vrfPrefix2Route_ :=
        ⟨[((0, .v4 167837696, .v4 4294901760),
          { l3a_subnet := 167837696, l3a_ip_mask := 4294901760, l3a_intf := 100009 })],
          by decide⟩ }) ∧
    (hostTraversalCallback { l3a_ip_addr := 167772161, l3a_intf := 100009 }
      (hostTraversalCallback { l3a_ip_addr := 167772161, l3a_intf := 100002 }
        {}).2).2.vrfIp2Host_.find
      (hostResourceKey { l3a_ip_addr := 167772161, l3a_intf := 100002 }) =
        some { l3a_ip_addr := 167772161, l3a_intf := 100009 } :=
  ⟨by decide!, by decide!,
    (host_and_route_callbacks_keep_later_entry samplePlatform {}
      { l3a_ip_addr := 167772161, l3a_intf := 100002 }
      { l3a_ip_addr := 167772161, l3a_intf := 100009 }
      { l3a_subnet := 167837696, l3a_ip_mask := 4294901760, l3a_intf := 100002 }
      { l3a_subnet := 167837696, l3a_ip_mask := 4294901760, l3a_intf := 100009 }
      (by decide!) (by decide!)).1.2.2⟩

/-- C14: in every cache that a restore into a fresh cache followed by a
sequence of successful `egressTraversalCallback` invocations leaves, the drop
egress id and the to-CPU egress id are not keys of the egress index; and no
run of `clear()` from that cache, on any hardware, issues an egress destroy
for the drop egress or for the to-CPU egress. -/
theorem drop_and_cpu_egress_never_indexed (platform : Platform) (q : HwQuery) (hw : Hw)
    (doc : WarmBootState) (scanned : List (EgressId × bcm_l3_egress_t)) (c1 c2 : Cache)
    (hpopulate : populateFromWarmBootState doc {} = .ok c1)
    (hscan : bcm_l3_egress_traverse platform q scanned c1 = .ok c2) :
    c2.egressId2Egress_.find c2.dropEgressId_ = none ∧
    c2.egressId2Egress_.find c2.toCPUEgressId_ = none ∧
    HwCall.l3_egress_destroy c2.dropEgressId_ ∉ (runClear hw c2).2.trace ∧
    HwCall.l3_egress_destroy c2.toCPUEgressId_ ∉ (runClear hw c2).2.trace := by
  have hi := scanInvariant_not_indexed
    (scanInvariant_traverse scanned (scanInvariant_populate hpopulate) hscan)
  exact ⟨hi.1, hi.2, clear_never_destroys_unindexed hw c2 _ hi.1,
    clear_never_destroys_unindexed hw c2 _ hi.2⟩

/-- C14 (witness): after the restore of the sample file and the scan of the
sample egress objects, the drop egress 100000 and the to-CPU egress 100001 are
not in the egress index and `clear()` destroys neither. -/
theorem drop_and_cpu_egress_never_indexed_witness :
    populateFromWarmBootState sampleState {} = .ok restoredCache ∧
    bcm_l3_egress_traverse samplePlatform sampleQuery sampleEgresses restoredCache =
      .ok scannedCache ∧
    scannedCache.dropEgressId_ = 100000 ∧ scannedCache.toCPUEgressId_ = 100001 ∧
    scannedCache.egressId2Egress_.find scannedCache.dropEgressId_ = none ∧
    scannedCache.egressId2Egress_.find scannedCache.toCPUEgressId_ = none ∧
    HwCall.l3_egress_destroy scannedCache.dropEgressId_ ∉
      (runClear hwOk scannedCache).2.trace ∧
    HwCall.l3_egress_destroy scannedCache.toCPUEgressId_ ∉
      (runClear hwOk scannedCache).2.trace :=
  ⟨by decide!, by decide!, rfl, rfl,
    drop_and_cpu_egress_never_indexed samplePlatform sampleQuery hwOk sampleState
      sampleEgresses restoredCache scannedCache (by decide!) (by decide!)⟩

/-- C15 (counterexample): the sample file binds the link-local address `fe80::1`
of vrf 0 to the valid egress id 100003 (its egress is on interface 7), in one
host entry, and the scan visited the egress 100003; yet `findEgressFromHost`
for that vrf and address returns not-found when it is given no interface or
the interface 8. It returns the entry when it is given the interface 7. -/
theorem find_egress_from_host_link_local_miss :
    populateFromWarmBootState sampleState {} = .ok restoredCache ∧
    bcm_l3_egress_traverse samplePlatform sampleQuery sampleEgresses restoredCache =
      .ok scannedCache ∧
    ({ egressId := 100003, ip := linkLocalAddress, vrf := 0, egress := some (some 7) } :
      HostDynamic) ∈ sampleState.hosts ∧
    ((100003 : EgressId), ({ intf := 7 } : bcm_l3_egress_t)) ∈ sampleEgresses ∧
    findEgressFromHost 0 linkLocalAddress (some 7) scannedCache =
      (some (100003, { intf := 7 }), scannedCache) ∧
    findEgressFromHost 0 linkLocalAddress none scannedCache = (none, scannedCache) ∧
    findEgressFromHost 0 linkLocalAddress (some 8) scannedCache = (none, scannedCache) := by
  refine ⟨by decide!, by decide!, by decide!, by decide!, by decide!, by decide!, by decide!⟩

/-- C15 (amended): after a restore into a fresh cache and a scan of the egress
objects that both returned, `findEgressFromHost` returns the egress entry of a
host of the file: for every host entry of the file with a valid egress id `e`
whose key (vrf, address, and for a v6 link-local address the interface of its
egress object) no other valid host entry binds to another id, and whose egress
the scan visited, `findEgressFromHost(vrf, ip, intf)` returns the entry with id
`e` and the visited egress record, provided that for a v6 link-local address
`intf` is the recorded interface (for any other address `intf` is ignored).
For a key that no valid host entry of the file binds it returns not-found. In
both cases it returns normally and leaves the cache as it was. -/
theorem find_egress_from_host_keyed_by_interface (platform : Platform) (q : HwQuery)
    (doc : WarmBootState) (scanned : List (EgressId × bcm_l3_egress_t)) (c1 c2 : Cache)
    (hpopulate : populateFromWarmBootState doc {} = .ok c1)
    (hscan : bcm_l3_egress_traverse platform q scanned c1 = .ok c2) :
    (∀ (h : HostDynamic) (egress : bcm_l3_egress_t) (intf : Option bcm_if_t),
      h ∈ doc.hosts → h.egressId ≠ INVALID →
      (∀ h2 ∈ doc.hosts, h2.egressId ≠ INVALID → hostKey h2 = hostKey h →
        h2.egressId = h.egressId) →
      (h.egressId, egress) ∈ scanned →
      ((h.ip.isV6 && h.ip.isLinkLocal) = true → intf = hostIntf h) →
      findEgressFromHost h.vrf h.ip intf c2 = (some (h.egressId, egress), c2)) ∧
    (∀ (vrf : bcm_vrf_t) (addr : IPAddress) (intf : Option bcm_if_t),
      (∀ h ∈ doc.hosts, h.egressId ≠ INVALID →
        hostKey h ≠ (vrf, addr, if (addr.isV6 && addr.isLinkLocal) = true then intf else none)) →
      findEgressFromHost vrf addr intf c2 = (none, c2)) := by
  obtain ⟨c0, hc0, hmap⟩ := populateFromWarmBootState_hosts hpopulate
  obtain ⟨hfile, hvrf, _⟩ := traverse_fields scanned hscan
  have hkey : ∀ (addr : IPAddress) (intf : Option bcm_if_t),
      (if (!addr.isV6 || !addr.isLinkLocal) = true then none else intf) =
        if (addr.isV6 && addr.isLinkLocal) = true then intf else none := by
    intro addr intf
    cases addr.isV6 <;> cases addr.isLinkLocal <;> rfl
  refine ⟨?_, ?_⟩
  · intro h egress intf hmem hvalid hfun hvisit hintf
    have hfind : c2.vrfIp2EgressFromBcmHostInWarmBootFile_.find (hostKey h) =
        some h.egressId := by
      rw [hvrf, hmap]
      exact extractHosts_find_hit _ _ h hmem hvalid hfun
    have hidx : c2.egressId2Egress_.find h.egressId = some egress := by
      apply traverse_records scanned _ hvisit hscan
      rw [populateFromWarmBootState_file hpopulate]
      exact Or.inr (Or.inl ⟨h, hmem, hvalid, rfl⟩)
    have hk : (h.vrf, h.ip, if (h.ip.isV6 && h.ip.isLinkLocal) = true then intf else none) =
        hostKey h := by
      unfold hostKey
      by_cases hl : (h.ip.isV6 && h.ip.isLinkLocal) = true
      · rw [if_pos hl, hintf hl]
      · rw [if_neg hl]
        unfold hostIntf
        rw [if_neg hl]
    unfold findEgressFromHost
    rw [if_neg (FlatMap.size_pos_of_find hfind)]
    simp only [hkey, hk, hfind, findEgress, hidx, Option.map_some']
  · intro vrf addr intf hmiss
    unfold findEgressFromHost
    by_cases hs : c2.vrfIp2EgressFromBcmHostInWarmBootFile_.size = 0
    · rw [if_pos hs]
    · rw [if_neg hs]
      have hfind : c2.vrfIp2EgressFromBcmHostInWarmBootFile_.find
          (vrf, addr, if (addr.isV6 && addr.isLinkLocal) = true then intf else none) = none := by
        rw [hvrf, hmap, extractHosts_find_miss _ _ _ hmiss, hc0]
        rfl
      simp only [hkey, hfind]

/-- C15 (witness): on the sample file and scan, the v4 host 10.0.0.1 is found
whatever interface is given, and the link-local host on interface 7 is found
with interface 7. -/
theorem find_egress_from_host_keyed_by_interface_witness :
    populateFromWarmBootState sampleState {} = .ok restoredCache ∧
    bcm_l3_egress_traverse samplePlatform sampleQuery sampleEgresses restoredCache =
      .ok scannedCache ∧
    findEgressFromHost 0 (.v4 167772161) (some 9) scannedCache =
      (some (100002, { intf := 3 }), scannedCache) ∧
    findEgressFromHost 0 linkLocalAddress (some 7) scannedCache =
      (some (100003, { intf := 7 }), scannedCache) ∧
    findEgressFromHost 0 (.v4 167772162) none scannedCache = (none, scannedCache) :=
  ⟨by decide!, by decide!,
    (find_egress_from_host_keyed_by_interface samplePlatform sampleQuery sampleState
      sampleEgresses restoredCache scannedCache (by decide!) (by decide!)).1
      { egressId := 100002, ip := .v4 167772161, vrf := 0, egress := some (some 5) }
      { intf := 3 } (some 9) (by decide!) (by decide) (by decide!) (by decide!) (by decide!),
    (find_egress_from_host_keyed_by_interface samplePlatform sampleQuery sampleState
      sampleEgresses restoredCache scannedCache (by decide!) (by decide!)).1
      { egressId := 100003, ip := linkLocalAddress, vrf := 0, egress := some (some 7) }
      { intf := 7 } (some 7) (by decide!) (by decide) (by decide!) (by decide!) (by decide!),
    (find_egress_from_host_keyed_by_interface samplePlatform sampleQuery sampleState
      sampleEgresses restoredCache scannedCache (by decide!) (by decide!)).2
      0 (.v4 167772162) none (by decide!)⟩

/-- C16: `populateFromWarmBootState` reads an absent MPLS-next-hop section, an
absent interface-table section and an absent QoS-policy-table section as the
empty section: on every cache the outcome for the document without the section
is the outcome for the same document with the section present and empty. The
restore of such a document returns (when the sections that are present are
well formed: no ECMP object with the invalid id, and a label or a label stack
on every valid MPLS next hop), and after the restore of a document without
MPLS-next-hop section into a cache without MPLS next hops
`findEgressFromLabeledHostKey` returns not-found for every key and leaves the
cache as it was. -/
theorem populate_absent_section_as_empty (doc : WarmBootState) (cache : Cache)
    (hecmp : ∀ o ∈ doc.warmBootCache.ecmpObjects, o.ecmpEgressId ≠ INVALID)
    (hmpls : ∀ n ∈ doc.mplsNextHops.getD [], n.egressId ≠ INVALID →
      n.label ≠ none ∨ n.stack ≠ none) :
    (populateFromWarmBootState { doc with mplsNextHops := none } cache =
        populateFromWarmBootState { doc with mplsNextHops := some [] } cache ∧
      ∃ c2 : Cache, populateFromWarmBootState { doc with mplsNextHops := none } cache = .ok c2 ∧
        (cache.mplsNextHops2EgressIdInWarmBootFile_ = FlatMap.empty →
          ∀ key : BcmLabeledHostKey, findEgressFromLabeledHostKey key c2 = (none, c2))) ∧
    (populateFromWarmBootState { doc with intfTable := none } cache =
        populateFromWarmBootState { doc with intfTable := some [] } cache ∧
      ∃ c2 : Cache, populateFromWarmBootState { doc with intfTable := none } cache = .ok c2) ∧
    (populateFromWarmBootState { doc with qosPolicyTable := none } cache =
        populateFromWarmBootState { doc with qosPolicyTable := some [] } cache ∧
      ∃ c2 : Cache,
        populateFromWarmBootState { doc with qosPolicyTable := none } cache = .ok c2) ∧
    ∃ c2 : Cache,
      populateFromWarmBootState
        { doc with mplsNextHops := none, intfTable := none, qosPolicyTable := none }
        cache = .ok c2 := by
  have hnone : ∀ n ∈ (none : Option (List MplsNextHopDynamic)).getD [],
      n.egressId ≠ INVALID → n.label ≠ none ∨ n.stack ≠ none := by
    intro n hn
    cases hn
  refine ⟨⟨?_, ?_⟩, ⟨?_, ?_⟩, ⟨?_, ?_⟩, ?_⟩
  · exact populateFromWarmBootState_congr _ _ cache rfl rfl rfl rfl rfl rfl rfl
  · obtain ⟨c2, h2⟩ := populateFromWarmBootState_returns
      { doc with mplsNextHops := none } cache hecmp hnone
    refine ⟨c2, h2, ?_⟩
    intro hempty key
    have hm := populateFromWarmBootState_mpls h2 rfl
    unfold findEgressFromLabeledHostKey
    rw [hm, hempty, FlatMap.find_empty]
  · exact populateFromWarmBootState_congr _ _ cache rfl rfl rfl rfl rfl rfl rfl
  · exact populateFromWarmBootState_returns { doc with intfTable := none } cache hecmp hmpls
  · exact populateFromWarmBootState_congr _ _ cache rfl rfl rfl rfl rfl rfl rfl
  · exact populateFromWarmBootState_returns { doc with qosPolicyTable := none } cache hecmp hmpls
  · exact populateFromWarmBootState_returns
      { doc with mplsNextHops := none, intfTable := none, qosPolicyTable := none } cache hecmp
      hnone

/-- C16 (witness): the sample file has none of the three sections; its restore
returns the restored sample cache, as does the restore of the same file with
the three sections present and empty, and no MPLS key is found. -/
theorem populate_absent_section_as_empty_witness :
    sampleState.mplsNextHops = none ∧ sampleState.intfTable = none ∧
    sampleState.qosPolicyTable = none ∧
    populateFromWarmBootState sampleState {} = .ok restoredCache ∧
    populateFromWarmBootState
      { sampleState with mplsNextHops := some [], intfTable := some [],
                         qosPolicyTable := some [] } {} = .ok restoredCache ∧
    findEgressFromLabeledHostKey
      { vrf := 0, label := some 1001, stack := [], addr := .v4 167772161, intfID := 5 }
      restoredCache = (none, restoredCache) ∧
    (populateFromWarmBootState { sampleState with mplsNextHops := none } {} =
        populateFromWarmBootState { sampleState with mplsNextHops := some [] } {} ∧
      ∃ c2 : Cache,
        populateFromWarmBootState { sampleState with mplsNextHops := none } {} = .ok c2 ∧
        (({} : Cache).mplsNextHops2EgressIdInWarmBootFile_ = FlatMap.empty →
          ∀ key : BcmLabeledHostKey, findEgressFromLabeledHostKey key c2 = (none, c2))) :=
  ⟨rfl, rfl, rfl, by decide!, by decide!, by decide!,
    (populate_absent_section_as_empty sampleState {} (by decide!) (by decide!)).1⟩

/-- C17 (counterexample): the round trip does not rebuild a map that binds an
ECMP id to the empty member set. `toFollyDynamic` writes the object of the id
200256 with no paths, and the restore of that section binds only the id
200257: `getPathsForEcmp` returned the empty set for 200256 at capture time and
raises `FbossError` after the restore. -/
theorem ecmp_round_trip_drops_empty_member_set :
    getPathsForEcmp emptyMemberCache 200256 = .ok ∅ ∧
    toFollyDynamic [] emptyMemberCache =
      { ecmpObjects := [{ ecmpEgressId := 200256, paths := [] },
          { ecmpEgressId := 200257, paths := [100002] }],
        trunks := some [] } ∧
    populateFromWarmBootState { warmBootCache := toFollyDynamic [] emptyMemberCache } {} =
      .ok { dumpedSwSwitchState_ := some 0,
            hwSwitchEcmp2EgressIds_ := ⟨[(200257, {100002})], by decide⟩ } ∧
    getPathsForEcmp
      { dumpedSwSwitchState_ := some 0,
        hwSwitchEcmp2EgressIds_ := ⟨[(200257, {100002})], by decide⟩ } 200256 =
      .error .FbossError := by
  refine ⟨by decide!, by decide!, by decide!, by decide!⟩

/-- C17 (amended): round trip of the ECMP member map. For every map from valid
ECMP ids to non-empty member-id sets, the restore into a fresh cache of a
document whose warm-boot-cache section is the one that `toFollyDynamic`
produces from that map, with an empty ECMP-host section (and well-formed MPLS
next hops), returns and rebuilds exactly that map, so `getPathsForEcmp`
returns for every id what it returned at capture time. -/
theorem ecmp_round_trip_restores_members (m : FlatMap EgressId EgressIds)
    (trunkTable : List (AggregatePortID × Int)) (captured : Cache) (doc : WarmBootState)
    (hcaptured : captured.hwSwitchEcmp2EgressIds_ = m)
    (hvalid : ∀ e ∈ m.entries, e.1 ≠ INVALID ∧ e.2.Nonempty)
    (hdoc : doc.warmBootCache = toFollyDynamic trunkTable captured)
    (hhosts : doc.ecmpHosts = [])
    (hmpls : ∀ n ∈ doc.mplsNextHops.getD [], n.egressId ≠ INVALID →
      n.label ≠ none ∨ n.stack ≠ none) :
    ∃ c2 : Cache, populateFromWarmBootState doc {} = .ok c2 ∧
      c2.hwSwitchEcmp2EgressIds_ = m ∧
      ∀ id : EgressId, getPathsForEcmp c2 id = getPathsForEcmp captured id := by
  have hobj : doc.warmBootCache.ecmpObjects =
      m.entries.map fun e =>
        { ecmpEgressId := e.1, paths := e.2.sort (fun a b => a ≤ b) } := by
    rw [hdoc, ← hcaptured]
    rfl
  have hecmp : ∀ o ∈ doc.warmBootCache.ecmpObjects, o.ecmpEgressId ≠ INVALID := by
    intro o ho
    rw [hobj] at ho
    obtain ⟨e, he, rfl⟩ := List.mem_map.1 ho
    exact (hvalid e he).1
  obtain ⟨c2, h2⟩ := populateFromWarmBootState_returns doc {} hecmp hmpls
  obtain ⟨c1, h1, h3⟩ := populateFromWarmBootState_ecmp h2
  obtain ⟨c3, h4, h5⟩ := extractEcmpObjects_entries m.entries
    (extractEcmpHosts doc.ecmpHosts { ({} : Cache) with dumpedSwSwitchState_ := some doc.swSwitch })
    m.nodup
    (by
      intro e _
      rw [hhosts]
      rfl)
    hvalid
  rw [← hobj, h1] at h4
  simp only [Except.ok.injEq] at h4
  have h6 : c2.hwSwitchEcmp2EgressIds_ = m := by
    apply FlatMap.ext_entries
    rw [h3, h4, h5, hhosts]
    rfl
  refine ⟨c2, h2, h6, ?_⟩
  intro id
  exact getPathsForEcmp_congr (h6.trans hcaptured.symm) id

/-- C17 (witness): the map that binds the ECMP ids 200256 and 200257 to the
members 100002 and 100003 survives the round trip. -/
theorem ecmp_round_trip_restores_members_witness :
    (∀ e ∈ twoEcmpCache.hwSwitchEcmp2EgressIds_.entries, e.1 ≠ INVALID ∧ e.2.Nonempty) ∧
    ∃ c2 : Cache,
      populateFromWarmBootState { warmBootCache := toFollyDynamic [] twoEcmpCache } {} =
        .ok c2 ∧
      c2.hwSwitchEcmp2EgressIds_ = twoEcmpCache.hwSwitchEcmp2EgressIds_ ∧
      ∀ id : EgressId, getPathsForEcmp c2 id = getPathsForEcmp twoEcmpCache id :=
  ⟨by decide!,
    ecmp_round_trip_restores_members twoEcmpCache.hwSwitchEcmp2EgressIds_ [] twoEcmpCache
      { warmBootCache := toFollyDynamic [] twoEcmpCache } rfl (by decide!) rfl rfl
      (by decide!)⟩

/-- C18: `routeTraversalCallback` returns 0 and inserts the scanned route into
exactly one of the two route indices. When the platform allows host routes in
the host table and the mask of the route is the full-width mask of its address
family (/32 for IPv4, /128 for IPv6), the route is bound in the host-route
index under (vrf, address) and the prefix-route index is left as it was; in
every other case the route is bound in the prefix-route index under
(vrf, address, mask) and the host-route index is left as it was. -/
theorem route_callback_exactly_one_index (platform : Platform) (route : bcm_l3_route_t)
    (cache : Cache) :
    (routeTraversalCallback platform route cache).1 = 0 ∧
    ((platform.canUseHostTableForHostRoutes = true ∧ hasFullWidthMask route = true) →
      (routeTraversalCallback platform route cache).2.vrfAndIP2Route_ =
        cache.vrfAndIP2Route_.insert ((routeResourceKey route).1, (routeResourceKey route).2.1)
          route ∧
      (routeTraversalCallback platform route cache).2.vrfAndIP2Route_.find
        ((routeResourceKey route).1, (routeResourceKey route).2.1) = some route ∧
      (routeTraversalCallback platform route cache).2.vrfPrefix2Route_ =
        cache.vrfPrefix2Route_) ∧
    (¬ (platform.canUseHostTableForHostRoutes = true ∧ hasFullWidthMask route = true) →
      (routeTraversalCallback platform route cache).2.vrfPrefix2Route_ =
        cache.vrfPrefix2Route_.insert (routeResourceKey route) route ∧
      (routeTraversalCallback platform route cache).2.vrfPrefix2Route_.find
        (routeResourceKey route) = some route ∧
      (routeTraversalCallback platform route cache).2.vrfAndIP2Route_ =
        cache.vrfAndIP2Route_) := by
  rw [routeTraversalCallback_eq]
  by_cases hp : (platform.canUseHostTableForHostRoutes && hasFullWidthMask route) = true
  · have h2 : platform.canUseHostTableForHostRoutes = true ∧ hasFullWidthMask route = true := by
      simpa using hp
    rw [if_pos hp]
    exact ⟨rfl, fun _ => ⟨rfl, FlatMap.find_insert_self _ _ _, rfl⟩, fun h => absurd h2 h⟩
  · have h2 : ¬ (platform.canUseHostTableForHostRoutes = true ∧
        hasFullWidthMask route = true) := by
      simpa using hp
    rw [if_neg hp]
    exact ⟨rfl, fun h => absurd h h2, fun _ => ⟨rfl, FlatMap.find_insert_self _ _ _, rfl⟩⟩

/-- C19: claiming an ACL stat is monotonic and idempotent. After
`programmed(itr)` for the ACL-stat entry of an ACL handle, the entry is claimed
(with the stat it had) and `findAclStat` for that handle returns not-found; a
second `programmed(itr)` leaves the cache that the first one left; and after
any sequence of operations other than `clear()` that returns, the entry is
still bound and claimed. -/
theorem acl_stat_claim_monotonic (cache : Cache) (itr : BcmAclEntryHandle)
    (status : AclStatStatus) (hbound : cache.aclEntry2AclStat_.find itr = some status) :
    (programmed_aclStat itr cache).aclEntry2AclStat_.find itr =
      some { status with claimed := true } ∧
    findAclStat itr (programmed_aclStat itr cache) = (none, programmed_aclStat itr cache) ∧
    programmed_aclStat itr (programmed_aclStat itr cache) = programmed_aclStat itr cache ∧
    ∀ (ops : List Operation) (c2 : Cache),
      runOperations ops (programmed_aclStat itr cache) = .ok c2 →
      c2.aclEntry2AclStat_.find itr = some { status with claimed := true } ∧
      findAclStat itr c2 = (none, c2) := by
  have h1 : (programmed_aclStat itr cache).aclEntry2AclStat_.find itr =
      some { status with claimed := true } := by
    unfold programmed_aclStat
    simp only
    rw [FlatMap.find_modify_self, hbound, Option.map_some']
  have h2 : ∀ c : Cache,
      c.aclEntry2AclStat_.find itr = some { status with claimed := true } →
      findAclStat itr c = (none, c) := by
    intro c hc
    unfold findAclStat
    rw [hc]
    rfl
  refine ⟨h1, h2 _ h1, programmed_aclStat_idem itr cache, ?_⟩
  intro ops c2 hops
  have h3 := runOperations_keeps_claimed ops rfl h1 hops
  exact ⟨h3, h2 _ h3⟩

/-- C19 (witness): the stat 7 of the ACL entry 10 is claimed; a restore, a
second scan of the ACL entry (hardware reports the stat 7 again) and a second
claim leave it claimed. -/
theorem acl_stat_claim_monotonic_witness :
    aclStatCache.aclEntry2AclStat_.find 10 = some { stat := 7, claimed := false } ∧
    findAclStat 10 aclStatCache = (some (10, { stat := 7, claimed := false }), aclStatCache) ∧
    (programmed_aclStat 10 aclStatCache).aclEntry2AclStat_.find 10 =
      some { stat := 7, claimed := true } ∧
    findAclStat 10 (programmed_aclStat 10 aclStatCache) =
      (none, programmed_aclStat 10 aclStatCache) ∧
    programmed_aclStat 10 (programmed_aclStat 10 aclStatCache) =
      programmed_aclStat 10 aclStatCache ∧
    ∀ (ops : List Operation) (c2 : Cache),
      runOperations ops (programmed_aclStat 10 aclStatCache) = .ok c2 →
      c2.aclEntry2AclStat_.find 10 = some { stat := 7, claimed := true } ∧
      findAclStat 10 c2 = (none, c2) :=
  ⟨by decide!, by decide!,
    acl_stat_claim_monotonic aclStatCache 10 { stat := 7, claimed := false } (by decide!)⟩

/-- C20 (counterexample): module A holds the switch control 5; the first
`programmed('A', 5)` returns and erases it, the second fails
`CHECK_EQ(numErased, 1)` and aborts the process. -/
theorem rtag7_second_claim_fatal :
    unitControlMatches 'A' 5 1 rtag7Cache = .ok true ∧
    programmed_module 'A' 5 rtag7Cache = .ok {} ∧
    programmed_module 'A' 5 {} = .error .CheckFailed ∧
    Failure.CheckFailed.isFatal = true := by
  refine ⟨by decide!, by decide!, by decide!, rfl⟩

/-- C20 (amended): for module 'A' or 'B' and every switch control held in the
state of that module, `programmed(module, c)` called once returns and erases
the switch control from the state of the module, so that `unitControlMatches`
no longer matches it for any value; a second call does not return: it fails
`CHECK_EQ(numErased, 1)`, a process abort. -/
theorem rtag7_claim_erases_once (module : Char) (switchControl : bcm_switch_control_t)
    (arg : Int) (cache : Cache) (hmodule : module = 'A' ∨ module = 'B')
    (hheld : unitControlMatches module switchControl arg cache = .ok true) :
    ∃ c1 : Cache, programmed_module module switchControl cache = .ok c1 ∧
      (∀ arg2 : Int, unitControlMatches module switchControl arg2 c1 = .ok false) ∧
      programmed_module module switchControl c1 = .error .CheckFailed ∧
      Failure.CheckFailed.isFatal = true := by
  have hAB : ('B' : Char) ≠ 'A' := by decide
  rcases hmodule with rfl | rfl
  · have hf : cache.moduleAState_.find switchControl = some arg := by
      simpa [unitControlMatches] using hheld
    refine ⟨{ cache with moduleAState_ := cache.moduleAState_.erase switchControl }, ?_, ?_, ?_,
      rfl⟩
    · simp [programmed_module, hf]
    · intro arg2
      simp [unitControlMatches, FlatMap.find_erase_self]
    · simp [programmed_module, FlatMap.find_erase_self]
  · have hf : cache.moduleBState_.find switchControl = some arg := by
      simpa [unitControlMatches, hAB] using hheld
    refine ⟨{ cache with moduleBState_ := cache.moduleBState_.erase switchControl }, ?_, ?_, ?_,
      rfl⟩
    · simp [programmed_module, hf, hAB]
    · intro arg2
      simp [unitControlMatches, FlatMap.find_erase_self, hAB]
    · simp [programmed_module, FlatMap.find_erase_self, hAB]

/-- C20 (witness): the switch control 5 of module A, held with value 1. -/
theorem rtag7_claim_erases_once_witness :
    unitControlMatches 'A' 5 1 rtag7Cache = .ok true ∧
    ∃ c1 : Cache, programmed_module 'A' 5 rtag7Cache = .ok c1 ∧
      (∀ arg2 : Int, unitControlMatches 'A' 5 arg2 c1 = .ok false) ∧
      programmed_module 'A' 5 c1 = .error .CheckFailed ∧
      Failure.CheckFailed.isFatal = true :=
  ⟨by decide!, rtag7_claim_erases_once 'A' 5 1 rtag7Cache (Or.inl rfl) (by decide!)⟩

/-- C21: `findEgressFromHost` takes the interface into account only for IPv6
link-local addresses. For every cache, every vrf, every address that is not
an IPv6 link-local address and every two optional interfaces,
`findEgressFromHost` returns the same for both. -/
theorem find_egress_from_host_ignores_interface (vrf : bcm_vrf_t) (addr : IPAddress)
    (i j : Option bcm_if_t) (cache : Cache)
    (haddr : ¬ (addr.isV6 = true ∧ addr.isLinkLocal = true)) :
    findEgressFromHost vrf addr i cache = findEgressFromHost vrf addr j cache := by
  have h : (!addr.isV6 || !addr.isLinkLocal) = true := by
    cases h1 : addr.isV6 <;> cases h2 : addr.isLinkLocal <;> simp_all
  unfold findEgressFromHost
  simp only [h, if_true]

/-- C21 (witness): the v4 host 10.0.0.1 of the scanned sample cache is found
with the interface 9 as it is with no interface. -/
theorem find_egress_from_host_ignores_interface_witness :
    ¬ ((IPAddress.v4 167772161).isV6 = true ∧ (IPAddress.v4 167772161).isLinkLocal = true) ∧
    findEgressFromHost 0 (.v4 167772161) none scannedCache =
      (some (100002, { intf := 3 }), scannedCache) ∧
    findEgressFromHost 0 (.v4 167772161) (some 9) scannedCache =
      findEgressFromHost 0 (.v4 167772161) none scannedCache :=
  ⟨by decide, by decide!,
    find_egress_from_host_ignores_interface 0 (.v4 167772161) (some 9) none scannedCache
      (by decide)⟩

/-- C22: `populateAcls` does not fail for two field entries of one priority. The
field group holds two entries (without stats) whose priorities are equal, `p`,
and the ACL index is empty. When the conversion `swPriorityToHwPriority`
changes `p`, `populateAcls` returns and the ACL index holds the first entry
alone, under the converted priority: the `CHECK` looks the priority up as
hardware reports it while the index is keyed by the converted priority. Only
when the conversion leaves `p` as it is does the `CHECK` fail. -/
theorem populate_acls_same_priority_unchecked (swPriorityToHwPriority : Int → Int)
    (q : HwFieldQuery) (groupId : Int) (e1 e2 : BcmAclEntryHandle) (p : Int)
    (l0 : List BcmAclEntryHandle) (n : Int) (cache : Cache)
    (hcount : q.bcm_field_entry_multi_get groupId 0 = (0, l0, 2))
    (hentries : q.bcm_field_entry_multi_get groupId 2 = (0, [e1, e2], n))
    (hstat1 : (q.bcm_field_entry_stat_get e1).1 = BCM_E_NOT_FOUND)
    (hstat2 : (q.bcm_field_entry_stat_get e2).1 = BCM_E_NOT_FOUND)
    (hprio1 : q.bcm_field_entry_prio_get e1 = (0, p))
    (hprio2 : q.bcm_field_entry_prio_get e2 = (0, p))
    (hfresh : cache.priority2BcmAclEntryHandle_ = FlatMap.empty) :
    (swPriorityToHwPriority p ≠ p →
      ∃ c2 : Cache, populateAcls swPriorityToHwPriority q groupId cache = .ok c2 ∧
        c2.priority2BcmAclEntryHandle_.entries = [(swPriorityToHwPriority p, e1)]) ∧
    (swPriorityToHwPriority p = p →
      populateAcls swPriorityToHwPriority q groupId cache = .error .CheckFailed) := by
  have hrun : populateAcls swPriorityToHwPriority q groupId cache =
      populateAclsLoop swPriorityToHwPriority q [e2]
        (populateMirroredAcl q e1
          { cache with
            priority2BcmAclEntryHandle_ :=
              cache.priority2BcmAclEntryHandle_.emplace (swPriorityToHwPriority p) e1 }) := by
    unfold populateAcls
    have h2 : (2 : Int).toNat = 2 := rfl
    have hl : (List.range 2).map (fun i => [e1, e2].getD i 0) = [e1, e2] := rfl
    simp only [hcount, hentries, h2, hl, BCM_FAILURE, lt_self_iff_false, decide_False,
      Bool.false_eq_true, if_false, OfNat.ofNat_ne_zero]
    exact populateAclsLoop_cons _ q e1 [e2] p cache hstat1 hprio1 (by rw [hfresh]; rfl)
  have hidx : (populateMirroredAcl q e1
      { cache with
        priority2BcmAclEntryHandle_ :=
          cache.priority2BcmAclEntryHandle_.emplace (swPriorityToHwPriority p) e1
      }).priority2BcmAclEntryHandle_.entries = [(swPriorityToHwPriority p, e1)] := by
    rw [populateMirroredAcl_priority, hfresh]
    rfl
  refine ⟨?_, ?_⟩
  · intro hne
    have hfind : (populateMirroredAcl q e1
        { cache with
          priority2BcmAclEntryHandle_ :=
            cache.priority2BcmAclEntryHandle_.emplace (swPriorityToHwPriority p) e1
        }).priority2BcmAclEntryHandle_.find p = none := by
      unfold FlatMap.find
      rw [hidx]
      simp [FlatMap.lookup, hne]
    rw [hrun, populateAclsLoop_cons _ q e2 [] p _ hstat2 hprio2 hfind]
    refine ⟨_, rfl, ?_⟩
    rw [populateMirroredAcl_priority]
    have h3 : ∀ m : FlatMap Int BcmAclEntryHandle,
        m.entries = [(swPriorityToHwPriority p, e1)] →
        (m.emplace (swPriorityToHwPriority p) e2).entries = [(swPriorityToHwPriority p, e1)] := by
      intro m hm
      unfold FlatMap.emplace FlatMap.find
      rw [hm]
      simp [FlatMap.lookup, hm]
    exact h3 _ hidx
  · intro heq
    have hfind : ((populateMirroredAcl q e1
        { cache with
          priority2BcmAclEntryHandle_ :=
            cache.priority2BcmAclEntryHandle_.emplace (swPriorityToHwPriority p) e1
        }).priority2BcmAclEntryHandle_.find p).isSome = true := by
      unfold FlatMap.find
      rw [hidx]
      simp [FlatMap.lookup, heq]
    rw [hrun, populateAclsLoop_cons_check _ q e2 [] p _ hstat2 hprio2 hfind]

/-- C22 (witness): the field group holds the entries 10 and 11, both with the
priority 5, and the conversion negates the priority: `populateAcls` returns and
the ACL index holds the entry 10 alone, under the priority -5. -/
theorem populate_acls_same_priority_unchecked_witness :
    populateAcls (fun priority => -priority) samePriorityQuery 128 {} =
      .ok { priority2BcmAclEntryHandle_ := ⟨[(-5, 10)], by decide⟩ } ∧
    ∃ c2 : Cache, populateAcls (fun priority => -priority) samePriorityQuery 128 {} = .ok c2 ∧
      c2.priority2BcmAclEntryHandle_.entries = [((fun priority : Int => -priority) 5, 10)] :=
  ⟨by decide!,
    (populate_acls_same_priority_unchecked (fun priority => -priority) samePriorityQuery 128
      10 11 5 [10, 11] 2 {} rfl rfl rfl rfl rfl rfl rfl).1 (by decide)⟩

/-- C23: `populateSwitchSettings` does not raise an error for every list of
ports in which two ports differ. When the first port reports the learn flags 0
and every port after it (there is one at least) reports `ARL | FWD`, it returns
and sets the mode to HARDWARE; the same with `ARL | PENDING` and SOFTWARE. When
all ports report the same flags it does what the claim says: HARDWARE for
`ARL | FWD`, SOFTWARE for `ARL | PENDING`, the error `FbossError` for any other
value. -/
theorem switch_settings_zero_first_port_accepted (q : HwPortQuery) (cache : Cache) :
    (∀ (port : Nat) (rest : List Nat), q.ports = port :: rest → rest ≠ [] →
      q.bcm_port_learn_get port = (0, 0) →
      ((∀ p ∈ rest, q.bcm_port_learn_get p = (0, BCM_PORT_LEARN_ARL ||| BCM_PORT_LEARN_FWD)) →
        populateSwitchSettings q cache =
          .ok { cache with l2LearningMode_ := some L2LearningMode.HARDWARE }) ∧
      ((∀ p ∈ rest,
          q.bcm_port_learn_get p = (0, BCM_PORT_LEARN_ARL ||| BCM_PORT_LEARN_PENDING)) →
        populateSwitchSettings q cache =
          .ok { cache with l2LearningMode_ := some L2LearningMode.SOFTWARE })) ∧
    (∀ v : Nat, q.ports ≠ [] → (∀ p ∈ q.ports, q.bcm_port_learn_get p = (0, v)) →
      populateSwitchSettings q cache =
        if v = BCM_PORT_LEARN_ARL ||| BCM_PORT_LEARN_FWD then
          .ok { cache with l2LearningMode_ := some L2LearningMode.HARDWARE }
        else if v = BCM_PORT_LEARN_ARL ||| BCM_PORT_LEARN_PENDING then
          .ok { cache with l2LearningMode_ := some L2LearningMode.SOFTWARE }
        else .error .FbossError) := by
  refine ⟨?_, ?_⟩
  · intro port rest hports hrest hfirst
    refine ⟨?_, ?_⟩
    · intro hothers
      unfold populateSwitchSettings
      rw [hports, learnFlagsLoop_zero_first q port rest hfirst,
        learnFlagsLoop_same q rest _ hrest hothers]
      rfl
    · intro hothers
      unfold populateSwitchSettings
      rw [hports, learnFlagsLoop_zero_first q port rest hfirst,
        learnFlagsLoop_same q rest _ hrest hothers]
      rfl
  · intro v hne hall
    unfold populateSwitchSettings
    rw [learnFlagsLoop_same q q.ports v hne hall]

/-- C23 (witness): the port 1 reports the learn flags 0 and the port 2 reports
`ARL | FWD`: the two ports differ and `populateSwitchSettings` returns with the
mode HARDWARE. In the other order of the two ports it raises the error. -/
theorem switch_settings_zero_first_port_accepted_witness :
    zeroFirstPorts.bcm_port_learn_get 1 ≠ zeroFirstPorts.bcm_port_learn_get 2 ∧
    populateSwitchSettings zeroFirstPorts {} =
      .ok { l2LearningMode_ := some L2LearningMode.HARDWARE } ∧
    populateSwitchSettings zeroLastPorts {} = .error .FbossError :=
  ⟨by decide,
    ((switch_settings_zero_first_port_accepted zeroFirstPorts {}).1 1 [2] rfl (by decide)
      (by decide)).1 (by decide),
    by decide!⟩

/-- C24: `programmedMirroredPort(itr)` for an entry of the mirrored-port index.
When the mirror handle of the entry is an sFlow mirror, it removes from the
index every entry whose flags and handle both equal those of the entry,
whatever the port, and keeps every other entry as it was; when the handle is
not an sFlow mirror, it removes the entry itself and keeps every other entry
as it was. In both cases it changes nothing else in the cache. -/
theorem programmed_mirrored_port_removes (q : HwMirrorQuery)
    (itr : (bcm_gport_t × Nat) × BcmMirrorHandle) (cache : Cache)
    (hitr : itr ∈ cache.mirroredPort2Handle_.entries) :
    (isSflowMirror q itr.2 = .ok true →
      ∃ c2 : Cache, programmedMirroredPort q itr cache = .ok c2 ∧
        (∀ e : (bcm_gport_t × Nat) × BcmMirrorHandle,
          e ∈ c2.mirroredPort2Handle_.entries ↔
            e ∈ cache.mirroredPort2Handle_.entries ∧ ¬ (e.1.2 = itr.1.2 ∧ e.2 = itr.2)) ∧
        itr ∉ c2.mirroredPort2Handle_.entries ∧
        c2 = { cache with mirroredPort2Handle_ := c2.mirroredPort2Handle_ }) ∧
    (isSflowMirror q itr.2 = .ok false →
      ∃ c2 : Cache, programmedMirroredPort q itr cache = .ok c2 ∧
        (∀ e : (bcm_gport_t × Nat) × BcmMirrorHandle,
          e ∈ c2.mirroredPort2Handle_.entries ↔
            e ∈ cache.mirroredPort2Handle_.entries ∧ e ≠ itr) ∧
        itr ∉ c2.mirroredPort2Handle_.entries ∧
        c2 = { cache with mirroredPort2Handle_ := c2.mirroredPort2Handle_ }) := by
  refine ⟨?_, ?_⟩
  · intro hs
    refine ⟨{ cache with
      mirroredPort2Handle_ :=
        cache.mirroredPort2Handle_.filter
          (fun currItr => !(decide (currItr.1.2 = itr.1.2) && decide (currItr.2 = itr.2))) },
      ?_, ?_, ?_, rfl⟩
    · unfold programmedMirroredPort
      simp only [hs]
    · intro e
      simp only [FlatMap.filter, List.mem_filter, Bool.not_eq_true', Bool.and_eq_false_imp,
        decide_eq_true_eq, decide_eq_false_iff_not, not_and]
    · simp [FlatMap.filter, List.mem_filter]
  · intro hs
    have hkey : ∀ e : (bcm_gport_t × Nat) × BcmMirrorHandle,
        e ∈ cache.mirroredPort2Handle_.entries → (e.1 ≠ itr.1 ↔ e ≠ itr) := by
      intro e he
      constructor
      · intro h1 h2
        exact h1 (by rw [h2])
      · intro h1 h2
        apply h1
        obtain ⟨k, v⟩ := e
        obtain ⟨k2, v2⟩ := itr
        simp only at h2
        subst h2
        rw [FlatMap.value_unique _ he hitr]
    refine ⟨{ cache with mirroredPort2Handle_ := cache.mirroredPort2Handle_.erase itr.1 },
      ?_, ?_, ?_, rfl⟩
    · unfold programmedMirroredPort
      simp only [hs]
    · intro e
      simp only [FlatMap.erase, FlatMap.filter, List.mem_filter, decide_eq_true_eq]
      constructor
      · rintro ⟨h1, h2⟩
        exact ⟨h1, (hkey e h1).1 h2⟩
      · rintro ⟨h1, h2⟩
        exact ⟨h1, (hkey e h1).2 h2⟩
    · simp [FlatMap.erase, FlatMap.filter, List.mem_filter]

/-- C24 (witness): the destination 9 is an sFlow mirror and the destination 4 is
not. Claiming the entry of port 5 (flags 1, destination 9) also removes the
entry of port 6 with the same flags and destination, and keeps the two entries
of port 7; claiming the entry of port 7 with destination 4 removes that entry
alone. -/
theorem programmed_mirrored_port_removes_witness :
    programmedMirroredPort sflowQuery ((5, 1), 9) mirroredPortsCache =
      .ok { mirroredPort2Handle_ := ⟨[((7, 2), 9), ((7, 1), 4)], by decide⟩ } ∧
    programmedMirroredPort sflowQuery ((7, 1), 4) mirroredPortsCache =
      .ok { mirroredPort2Handle_ := ⟨[((5, 1), 9), ((6, 1), 9), ((7, 2), 9)], by decide⟩ } ∧
    ∃ c2 : Cache, programmedMirroredPort sflowQuery ((5, 1), 9) mirroredPortsCache = .ok c2 ∧
      (∀ e : (bcm_gport_t × Nat) × BcmMirrorHandle,
        e ∈ c2.mirroredPort2Handle_.entries ↔
          e ∈ mirroredPortsCache.mirroredPort2Handle_.entries ∧
            ¬ (e.1.2 = (1 : Nat) ∧ e.2 = (9 : BcmMirrorHandle))) ∧
      ((5, 1), 9) ∉ c2.mirroredPort2Handle_.entries ∧
      c2 = { mirroredPortsCache with mirroredPort2Handle_ := c2.mirroredPort2Handle_ } :=
  ⟨by decide!, by decide!,
    (programmed_mirrored_port_removes sflowQuery ((5, 1), 9) mirroredPortsCache
      (by decide!)).1 (by decide!)⟩

/-- C25: `findQosMap(policy, type)` returns a hit only on an exact match. When
the snapshot does not bind (policy name, type), it returns not-found. When the
snapshot binds it to a map id and the scan found the map of that id, it
returns that map if every (traffic class, attribute) rule of the policy for
the type exists in the map and the size of the map is the number of distinct
rules of the policy, and not-found if a rule is missing or the sizes differ.
It returns a hit in no other case, and whenever it returns it leaves the cache,
both QoS indices included, as it was. -/
theorem find_qos_map_exact_match (qosPolicy : QosPolicy) (type : BcmQosMapType)
    (cache : Cache) :
    (cache.qosMapKey2QosMapId_.find (qosPolicy.getName, type) = none →
      findQosMap qosPolicy type cache = .ok (none, cache)) ∧
    (∀ (id : Int) (qosMap : BcmQosMap) (entries : Finset (Nat × Nat)),
      cache.qosMapKey2QosMapId_.find (qosPolicy.getName, type) = some id →
      cache.qosMapId2QosMap_.find id = some qosMap →
      mapEntries qosPolicy type = some entries →
      (((∀ entry ∈ entries, qosMap.ruleExists entry.1 entry.2 = true) ∧
          qosMap.size = entries.card) →
        findQosMap qosPolicy type cache = .ok (some (id, qosMap), cache)) ∧
      (¬ ((∀ entry ∈ entries, qosMap.ruleExists entry.1 entry.2 = true) ∧
          qosMap.size = entries.card) →
        findQosMap qosPolicy type cache = .ok (none, cache))) ∧
    (∀ (id : Int) (qosMap : BcmQosMap) (c2 : Cache),
      findQosMap qosPolicy type cache = .ok (some (id, qosMap), c2) ↔
        c2 = cache ∧ cache.qosMapKey2QosMapId_.find (qosPolicy.getName, type) = some id ∧
        cache.qosMapId2QosMap_.find id = some qosMap ∧
        ∃ entries : Finset (Nat × Nat), mapEntries qosPolicy type = some entries ∧
          (∀ entry ∈ entries, qosMap.ruleExists entry.1 entry.2 = true) ∧
          qosMap.size = entries.card) ∧
    (∀ (r : Option (Int × BcmQosMap)) (c2 : Cache),
      findQosMap qosPolicy type cache = .ok (r, c2) →
      c2 = cache ∧ c2.qosMapKey2QosMapId_ = cache.qosMapKey2QosMapId_ ∧
        c2.qosMapId2QosMap_ = cache.qosMapId2QosMap_) := by
  have hmatch : ∀ (id : Int) (qosMap : BcmQosMap) (entries : Finset (Nat × Nat)),
      cache.qosMapKey2QosMapId_.find (qosPolicy.getName, type) = some id →
      cache.qosMapId2QosMap_.find id = some qosMap →
      mapEntries qosPolicy type = some entries →
      findQosMap qosPolicy type cache =
        if (∀ entry ∈ entries, qosMap.ruleExists entry.1 entry.2 = true) ∧
            qosMap.size = entries.card then .ok (some (id, qosMap), cache)
        else .ok (none, cache) := by
    intro id qosMap entries h1 h2 h3
    unfold findQosMap
    simp only [h1, h2, h3]
    by_cases hr : ∀ entry ∈ entries, qosMap.ruleExists entry.1 entry.2 = true
    · have hn : ¬ ∃ entry ∈ entries, qosMap.ruleExists entry.1 entry.2 = false := by
        rintro ⟨entry, he, hf⟩
        rw [hr entry he] at hf
        cases hf
      rw [if_neg hn]
      by_cases hs : qosMap.size = entries.card
      · rw [if_neg (not_not.2 hs), if_pos ⟨hr, hs⟩]
      · rw [if_pos hs, if_neg (fun h => hs h.2)]
    · have hn : ∃ entry ∈ entries, qosMap.ruleExists entry.1 entry.2 = false := by
        by_contra hc
        apply hr
        intro entry he
        cases hv : qosMap.ruleExists entry.1 entry.2 with
        | true => rfl
        | false => exact absurd ⟨entry, he, hv⟩ hc
      rw [if_pos hn, if_neg (fun h => hr h.1)]
  have hcases : ∀ (r : Option (Int × BcmQosMap)) (c2 : Cache),
      findQosMap qosPolicy type cache = .ok (r, c2) →
      c2 = cache ∧ (∀ (id : Int) (qosMap : BcmQosMap), r = some (id, qosMap) →
        cache.qosMapKey2QosMapId_.find (qosPolicy.getName, type) = some id ∧
        cache.qosMapId2QosMap_.find id = some qosMap ∧
        ∃ entries : Finset (Nat × Nat), mapEntries qosPolicy type = some entries ∧
          (∀ entry ∈ entries, qosMap.ruleExists entry.1 entry.2 = true) ∧
          qosMap.size = entries.card) := by
    intro r c2 h
    cases h1 : cache.qosMapKey2QosMapId_.find (qosPolicy.getName, type) with
    | none =>
      unfold findQosMap at h
      simp only [h1, Except.ok.injEq, Prod.mk.injEq] at h
      refine ⟨h.2.symm, ?_⟩
      intro id qosMap hr
      rw [← h.1] at hr
      cases hr
    | some id0 =>
      cases h2 : cache.qosMapId2QosMap_.find id0 with
      | none =>
        unfold findQosMap at h
        simp only [h1, h2] at h
        cases h
      | some qosMap0 =>
        cases h3 : mapEntries qosPolicy type with
        | none =>
          unfold findQosMap at h
          simp only [h1, h2, h3] at h
          cases h
        | some entries =>
          rw [hmatch id0 qosMap0 entries h1 h2 h3] at h
          split_ifs at h with hc
          · simp only [Except.ok.injEq, Prod.mk.injEq] at h
            refine ⟨h.2.symm, ?_⟩
            intro id qosMap hr
            rw [← h.1] at hr
            simp only [Option.some.injEq, Prod.mk.injEq] at hr
            rw [← hr.1, ← hr.2]
            exact ⟨rfl, h2, entries, rfl, hc.1, hc.2⟩
          · simp only [Except.ok.injEq, Prod.mk.injEq] at h
            refine ⟨h.2.symm, ?_⟩
            intro id qosMap hr
            rw [← h.1] at hr
            cases hr
  refine ⟨?_, ?_, ?_, ?_⟩
  · intro h1
    unfold findQosMap
    simp only [h1]
  · intro id qosMap entries h1 h2 h3
    rw [hmatch id qosMap entries h1 h2 h3]
    exact ⟨fun hc => if_pos hc, fun hc => if_neg hc⟩
  · intro id qosMap c2
    constructor
    · intro h
      obtain ⟨hc, hr⟩ := hcases _ _ h
      exact ⟨hc, hr id qosMap rfl⟩
    · rintro ⟨hc, h1, h2, entries, h3, h4, h5⟩
      rw [hmatch id qosMap entries h1 h2 h3, if_pos ⟨h4, h5⟩, hc]
  · intro r c2 h
    obtain ⟨hc, _⟩ := hcases _ _ h
    rw [hc]
    exact ⟨rfl, rfl, rfl⟩

/-- C25 (witness): the policy has two distinct DSCP rules. The scanned map 3 with
exactly these rules is a hit; the same map with a third rule is not; and the
ingress MPLS map of the policy, which the snapshot does not bind, is not
found. -/
theorem find_qos_map_exact_match_witness :
    findQosMap samplePolicy BcmQosMapType.IP_INGRESS qosCache =
      .ok (some (3, { flags := 0, handle := 3, rules := [(0, 10), (1, 20)] }), qosCache) ∧
    findQosMap samplePolicy BcmQosMapType.IP_INGRESS qosExtraRuleCache =
      .ok (none, qosExtraRuleCache) ∧
    findQosMap samplePolicy BcmQosMapType.MPLS_INGRESS qosCache = .ok (none, qosCache) :=
  ⟨by decide!, by decide!,
    (find_qos_map_exact_match samplePolicy BcmQosMapType.MPLS_INGRESS qosCache).1
      (by decide!)⟩

/-- C26: after a restore into a fresh cache that returned, every ECMP id is
bound to the union of the paths that the ECMP-host section and the
ECMP-object section list for it, and is not bound when they list none. The
records of the ECMP-host section with the invalid id are skipped: the restore
does the same without them. A record of the ECMP-object section with the
invalid id fails the `CHECK` of the restore, a process abort, whatever the
document and the cache. -/
theorem populate_member_sets_are_unions (doc : WarmBootState) (c2 : Cache)
    (hpopulate : populateFromWarmBootState doc {} = .ok c2) :
    (∀ id : EgressId,
      c2.hwSwitchEcmp2EgressIds_.find id = memberBinding (pathsListedFor doc id)) ∧
    (∀ (id : EgressId) (S : EgressIds),
      c2.hwSwitchEcmp2EgressIds_.find id = some S → S = pathsListedFor doc id) ∧
    (∀ cache : Cache,
      populateFromWarmBootState
        { doc with
          ecmpHosts := doc.ecmpHosts.filter (fun e => decide (e.ecmpEgressId ≠ INVALID)) }
        cache = populateFromWarmBootState doc cache) ∧
    (∀ (doc2 : WarmBootState) (cache : Cache),
      (∃ o ∈ doc2.warmBootCache.ecmpObjects, o.ecmpEgressId = INVALID) →
      populateFromWarmBootState doc2 cache = .error .CheckFailed ∧
        Failure.CheckFailed.isFatal = true) := by
  have h1 : ∀ id : EgressId,
      c2.hwSwitchEcmp2EgressIds_.find id = memberBinding (pathsListedFor doc id) := by
    intro id
    obtain ⟨c1, hc1, heq⟩ := populateFromWarmBootState_ecmp hpopulate
    have h0 : ∀ k, ({ ({} : Cache) with
        dumpedSwSwitchState_ := some doc.swSwitch }).hwSwitchEcmp2EgressIds_.find k =
        memberBinding ((fun _ => ∅) k) := by
      intro k
      rfl
    rw [heq, extractEcmpObjects_find _ _ (extractEcmpHosts_find doc.ecmpHosts _ _ h0) hc1]
    unfold pathsListedFor
    rw [Finset.empty_union]
  refine ⟨h1, ?_, ?_, ?_⟩
  · intro id S hS
    have h2 := h1 id
    rw [hS] at h2
    unfold memberBinding at h2
    split_ifs at h2
    simp only [Option.some.injEq] at h2
    exact h2
  · intro cache
    rw [populateFromWarmBootState_eq, populateFromWarmBootState_eq]
    simp only [extractEcmpHosts_skip]
  · intro doc2 cache hinv
    rw [populateFromWarmBootState_eq, extractEcmpObjects_invalid _ _ hinv]
    exact ⟨rfl, rfl⟩

/-- C26 (witness): the sample file lists the path 100002 for the ECMP id 200256
in the ECMP-host section and the path 100003 in the ECMP-object section; the
restore binds 200256 to both, and the path 100009 of the record with the invalid
id is bound nowhere. -/
theorem populate_member_sets_are_unions_witness :
    populateFromWarmBootState ecmpState {} = .ok ecmpRestoredCache ∧
    (100002 : Int) ∈ pathsListedFor ecmpState 200256 ∧
    (100003 : Int) ∈ pathsListedFor ecmpState 200256 ∧
    (100009 : Int) ∉ pathsListedFor ecmpState INVALID ∧
    ∀ id : EgressId,
      ecmpRestoredCache.hwSwitchEcmp2EgressIds_.find id =
        memberBinding (pathsListedFor ecmpState id) :=
  ⟨by decide!, by decide!, by decide!, by decide!,
    (populate_member_sets_are_unions ecmpState ecmpRestoredCache (by decide!)).1⟩

end BcmWarmBootCache

namespace BcmPortIngressBufferManager

open BcmWarmBootCache (Failure BCM_FAILURE)

/-! ## Programming priority groups -/

theorem writeCosqTypeToHw_ok {hw : Hw} (hok : hw.WritesSucceed) (cosq : Int)
    (type : bcm_cosq_control_t) (value : Int) (s : State) :
    writeCosqTypeToHw hw cosq type value s =
      .ok { s with writes := s.writes ++ [⟨cosq, type, value⟩] } := by
  unfold writeCosqTypeToHw
  simp only [hok s.writes ⟨cosq, type, value⟩, Bool.false_eq_true, if_false]

theorem programPg_ok {hw : Hw} (hok : hw.WritesSucceed) (cfg : PortPgConfig) (cosq : Int)
    (s : State) :
    programPg hw cfg cosq s =
      .ok { s with writes := s.writes ++ settingsWrites hw cfg cosq } := by
  obtain ⟨id, sf, mn, hd, rs⟩ := cfg
  cases sf <;> cases hd <;> cases rs <;>
    simp [programPg, settingsWrites, writeCosqTypeToHw_ok hok, bind, Except.bind, pure,
      Except.pure]

theorem resetLoop_ok {hw : Hw} (hok : hw.WritesSucceed) (l : List Int) (s : State) :
    resetLoop hw l s =
      .ok { s with
        writes := s.writes ++ l.flatMap (settingsWrites hw hw.getDefaultPgSettings) } := by
  induction l generalizing s with
  | nil => simp [resetLoop]
  | cons pgId rest ih =>
    simp [resetLoop, resetPgToDefault, programPg_ok hok, bind, Except.bind, ih,
      List.append_assoc]

theorem programLoop_ok {hw : Hw} (hok : hw.WritesSucceed) (cfgs : List PortPgConfig)
    (newPgList : PgIdSet) (s : State) :
    programLoop hw cfgs newPgList s =
      .ok (newPgList ∪ idSet cfgs,
        { s with
          writes := s.writes ++ cfgs.flatMap (fun cfg => settingsWrites hw cfg cfg.getID) }) := by
  induction cfgs generalizing newPgList s with
  | nil => simp [programLoop, idSet]
  | cons cfg rest ih =>
    have hset : insert cfg.getID newPgList ∪ idSet rest = newPgList ∪ idSet (cfg :: rest) := by
      ext x
      simp only [idSet, List.map_cons, List.toFinset_cons, Finset.mem_union, Finset.mem_insert]
      tauto
    simp [programLoop, programPg_ok hok, bind, Except.bind, ih, List.append_assoc, hset]

/-- C27: `programIngressBuffers` when no write fails, for a port and the set
`P = s.pgIdListInHw_` of programmed priority groups. Without configs and with
`P` empty it returns with the state as it was: no write, `P` unchanged. Without
configs and with `P` not empty it writes the default settings on every priority
group of `P` and the set becomes empty. With configs of id set `N` it writes
every config on the priority group of its id, then the default settings on the
priority groups of `P \ N`, and the set becomes `N`. The priority groups that
are reset are the members of the set, each one once. -/
theorem program_ingress_buffers_cases (hw : Hw) (port : Port) (s : State)
    (hok : hw.WritesSucceed) :
    (port.getPortPgConfigs = none → s.pgIdListInHw_ = ∅ →
      programIngressBuffers hw port s = .ok s) ∧
    (port.getPortPgConfigs = none → s.pgIdListInHw_ ≠ ∅ →
      programIngressBuffers hw port s = .ok
        { pgIdListInHw_ := ∅
          writes := s.writes ++
            (PgIdSet.elements s.pgIdListInHw_).flatMap
              (settingsWrites hw hw.getDefaultPgSettings) }) ∧
    (∀ cfgs : List PortPgConfig, port.getPortPgConfigs = some cfgs →
      programIngressBuffers hw port s = .ok
        { pgIdListInHw_ := idSet cfgs
          writes := s.writes ++
            cfgs.flatMap (fun cfg => settingsWrites hw cfg cfg.getID) ++
            (PgIdSet.elements (s.pgIdListInHw_ \ idSet cfgs)).flatMap
              (settingsWrites hw hw.getDefaultPgSettings) }) ∧
    (∀ (S : PgIdSet) (pgId : Int), pgId ∈ PgIdSet.elements S ↔ pgId ∈ S) ∧
    (∀ S : PgIdSet, (PgIdSet.elements S).Nodup) := by
  refine ⟨?_, ?_, ?_, ?_, ?_⟩
  · intro hcfg hP
    simp [programIngressBuffers, hcfg, hP]
  · intro hcfg hP
    simp [programIngressBuffers, hcfg, hP, resetPgsToDefault, resetLoop_ok hok, bind,
      Except.bind, pure, Except.pure]
  · intro cfgs hcfg
    simp [programIngressBuffers, hcfg, reprogramPgs, programLoop_ok hok, resetLoop_ok hok,
      bind, Except.bind, pure, Except.pure]
  · intro S pgId
    exact Finset.mem_sort _
  · intro S
    exact Finset.sort_nodup _ _

/-- C27 (witness): on the sample hardware, with the priority groups 1 and 2
programmed and configs for the priority groups 1 and 3, the call writes the two
configs, resets the priority group 2, and leaves the set of 1 and 3. -/
theorem program_ingress_buffers_cases_witness :
    samplePgHw.WritesSucceed ∧
    PgIdSet.elements (samplePgState.pgIdListInHw_ \ ({1, 3} : Finset Int)) = [2] ∧
    programIngressBuffers samplePgHw samplePgPort samplePgState = .ok
      { pgIdListInHw_ := {1, 3}
        writes :=
          [⟨1, .bcmCosqControlIngressPortPGSharedDynamicEnable, 1⟩,
           ⟨1, .bcmCosqControlDropLimitAlpha, 3⟩,
           ⟨1, .bcmCosqControlIngressPortPGMinLimitBytes, 100⟩,
           ⟨1, .bcmCosqControlIngressPortPGHeadroomLimitBytes, 0⟩,
           ⟨3, .bcmCosqControlIngressPortPGSharedDynamicEnable, 0⟩,
           ⟨3, .bcmCosqControlIngressPortPGMinLimitBytes, 200⟩,
           ⟨3, .bcmCosqControlIngressPortPGHeadroomLimitBytes, 50⟩,
           ⟨3, .bcmCosqControlIngressPortPGResetOffsetBytes, 10⟩,
           ⟨2, .bcmCosqControlIngressPortPGSharedDynamicEnable, 1⟩,
           ⟨2, .bcmCosqControlDropLimitAlpha, 9⟩,
           ⟨2, .bcmCosqControlIngressPortPGMinLimitBytes, 0⟩,
           ⟨2, .bcmCosqControlIngressPortPGHeadroomLimitBytes, 0⟩,
           ⟨2, .bcmCosqControlIngressPortPGResetOffsetBytes, 0⟩] } := by
  have hok : samplePgHw.WritesSucceed := fun _ _ => rfl
  refine ⟨hok, by decide!, ?_⟩
  rw [(program_ingress_buffers_cases samplePgHw samplePgPort samplePgState hok).2.2.1 _ rfl]
  decide!

end BcmPortIngressBufferManager

namespace SaiMirrorManager

open BcmWarmBootCache (FlatMap)

/-! ## Adding, removing and changing mirrors -/

theorem addMirror_error_state (env : SaiEnv) (mirror : Mirror) (m : State) (e : SaiFailure)
    (h : (addMirror env mirror m).1 = .error e) : (addMirror env mirror m).2 = m := by
  revert h
  cases h1 : m.mirrorHandles_.find mirror.getID with
  | some _ => simp [addMirror, h1]
  | none =>
    cases h2 : mirror.getEgressPort with
    | none => simp [addMirror, h1, h2]
    | some egressPort =>
      cases h3 : env.getPortHandle egressPort with
      | none => simp [addMirror, h1, h2, h3]
      | some monitorPort =>
        cases h4 : addMirrorSession env mirror monitorPort with
        | error e2 => simp [addMirror, h1, h2, h3, h4]
        | ok saiMirror => simp [addMirror, h1, h2, h3, h4]

theorem addMirror_ok_find (env : SaiEnv) (mirror : Mirror) (m m2 : State)
    (h : addMirror env mirror m = (.ok (), m2)) :
    ∃ handle, m2.mirrorHandles_.find mirror.getID = some (some handle) := by
  revert h
  cases h1 : m.mirrorHandles_.find mirror.getID with
  | some _ => simp [addMirror, h1]
  | none =>
    cases h2 : mirror.getEgressPort with
    | none => simp [addMirror, h1, h2]
    | some egressPort =>
      cases h3 : env.getPortHandle egressPort with
      | none => simp [addMirror, h1, h2, h3]
      | some monitorPort =>
        cases h4 : addMirrorSession env mirror monitorPort with
        | error e2 => simp [addMirror, h1, h2, h3, h4]
        | ok saiMirror =>
          intro h
          simp only [addMirror, h1, h2, h3, h4, Prod.mk.injEq, true_and] at h
          refine ⟨⟨saiMirror⟩, ?_⟩
          rw [← h]
          simp only [FlatMap.emplace, h1]
          exact FlatMap.find_insert_self _ _ _

/-- C28: `addMirror` throws `FbossError` when a mirror with the same id is
held, and when the egress port of the mirror has no SAI port handle; whenever
it throws, the mirror handles are as before. `removeMirror` throws `FbossError`
when the id is not held, again with the mirror handles as before. After an
`addMirror` that returned, `removeMirror` of the same mirror returns, and then
`getMirrorHandle` of its id returns null. -/
theorem add_remove_mirror_errors (env : SaiEnv) (mirror : Mirror) (m : State) :
    (m.mirrorHandles_.find mirror.getID ≠ none →
      addMirror env mirror m = (.error .FbossError, m)) ∧
    (∀ egressPort, mirror.getEgressPort = some egressPort →
      env.getPortHandle egressPort = none →
      addMirror env mirror m = (.error .FbossError, m)) ∧
    (∀ e, (addMirror env mirror m).1 = .error e → (addMirror env mirror m).2 = m) ∧
    (m.mirrorHandles_.find mirror.getID = none →
      removeMirror mirror m = (.error .FbossError, m)) ∧
    (∀ m2, addMirror env mirror m = (.ok (), m2) →
      ∃ m3, removeMirror mirror m2 = (.ok (), m3) ∧
        getMirrorHandle mirror.getID m3 = .ok none) := by
  refine ⟨?_, ?_, ?_, ?_, ?_⟩
  · intro hfind
    unfold addMirror
    split
    · rfl
    · rename_i hnone
      exact absurd hnone hfind
  · intro egressPort hport hhandle
    unfold addMirror
    split
    · rfl
    · simp only [hport, hhandle]
  · intro e he
    exact addMirror_error_state env mirror m e he
  · intro hfind
    unfold removeMirror
    simp only [hfind]
  · intro m2 hadd
    obtain ⟨handle, hfind⟩ := addMirror_ok_find env mirror m m2 hadd
    refine ⟨{ m2 with mirrorHandles_ := m2.mirrorHandles_.erase mirror.getID }, ?_, ?_⟩
    · unfold removeMirror
      simp only [hfind]
    · unfold getMirrorHandle getMirrorHandleImpl
      simp only [FlatMap.find_erase_self]

/-- C28 (witness): in the sample environment the sample mirror is added to the
empty manager; adding it again throws, adding a mirror to a port without handle
throws, and after its removal the handle of its id is null. -/
theorem add_remove_mirror_errors_witness :
    addMirror sampleEnv sampleMirror {} = (.ok (), sampleMirrors) ∧
    addMirror sampleEnv sampleMirror sampleMirrors = (.error .FbossError, sampleMirrors) ∧
    addMirror sampleEnv sampleMirrorNoHandle {} = (.error .FbossError, {}) ∧
    removeMirror sampleMirror {} = (.error .FbossError, {}) ∧
    ∃ m3, removeMirror sampleMirror sampleMirrors = (.ok (), m3) ∧
      getMirrorHandle sampleMirror.getID m3 = .ok none :=
  ⟨by decide!,
    (add_remove_mirror_errors sampleEnv sampleMirror sampleMirrors).1 (by decide!),
    (add_remove_mirror_errors sampleEnv sampleMirrorNoHandle {}).2.1 9 rfl rfl,
    (add_remove_mirror_errors sampleEnv sampleMirror {}).2.2.2.1 (by decide!),
    (add_remove_mirror_errors sampleEnv sampleMirror {}).2.2.2.2 sampleMirrors (by decide!)⟩

/-- C29: `changeMirror` is not atomic. When the old mirror is held and adding
the new mirror to the manager without the old one throws, `changeMirror`
throws that error and leaves the manager without the old mirror: the old id has
no handle any more, and the mirror handles differ from those before the call.
This is so when the egress port of the new mirror has no SAI port handle: then
the error is `FbossError`. -/
theorem change_mirror_not_atomic (env : SaiEnv) (oldMirror newMirror : Mirror) (m : State)
    (hold : m.mirrorHandles_.find oldMirror.getID ≠ none) :
    (∀ e,
      (addMirror env newMirror
        { m with mirrorHandles_ := m.mirrorHandles_.erase oldMirror.getID }).1 = .error e →
      changeMirror env oldMirror newMirror m =
        (.error e, { m with mirrorHandles_ := m.mirrorHandles_.erase oldMirror.getID }) ∧
      getMirrorHandle oldMirror.getID (changeMirror env oldMirror newMirror m).2 = .ok none ∧
      (changeMirror env oldMirror newMirror m).2 ≠ m) ∧
    (∀ egressPort, newMirror.getEgressPort = some egressPort →
      env.getPortHandle egressPort = none →
      (changeMirror env oldMirror newMirror m).1 = .error .FbossError ∧
      (changeMirror env oldMirror newMirror m).2 =
        { m with mirrorHandles_ := m.mirrorHandles_.erase oldMirror.getID } ∧
      (changeMirror env oldMirror newMirror m).2 ≠ m) := by
  have hremove : removeMirror oldMirror m =
      (.ok (), { m with mirrorHandles_ := m.mirrorHandles_.erase oldMirror.getID }) := by
    unfold removeMirror
    split
    · rename_i hnone
      exact absurd hnone hold
    · rfl
  have hchange : changeMirror env oldMirror newMirror m =
      addMirror env newMirror
        { m with mirrorHandles_ := m.mirrorHandles_.erase oldMirror.getID } := by
    unfold changeMirror
    rw [hremove]
  have hne : ({ m with mirrorHandles_ := m.mirrorHandles_.erase oldMirror.getID } : State)
      ≠ m := by
    intro heq
    apply hold
    have h2 : ({ m with
        mirrorHandles_ := m.mirrorHandles_.erase oldMirror.getID } : State).mirrorHandles_.find
          oldMirror.getID = m.mirrorHandles_.find oldMirror.getID := by
      rw [heq]
    rw [← h2]
    exact FlatMap.find_erase_self _ _
  have hgeneral : ∀ e,
      (addMirror env newMirror
        { m with mirrorHandles_ := m.mirrorHandles_.erase oldMirror.getID }).1 = .error e →
      changeMirror env oldMirror newMirror m =
        (.error e, { m with mirrorHandles_ := m.mirrorHandles_.erase oldMirror.getID }) := by
    intro e he
    rw [hchange]
    exact Prod.ext he (addMirror_error_state env newMirror _ e he)
  refine ⟨?_, ?_⟩
  · intro e he
    have h := hgeneral e he
    refine ⟨h, ?_, ?_⟩
    · rw [h]
      unfold getMirrorHandle getMirrorHandleImpl
      simp only [FlatMap.find_erase_self]
    · rw [h]
      exact hne
  · intro egressPort hport hhandle
    have he : (addMirror env newMirror
        { m with mirrorHandles_ := m.mirrorHandles_.erase oldMirror.getID }).1 =
        .error .FbossError := by
      unfold addMirror
      split
      · rfl
      · simp only [hport, hhandle]
    have h := hgeneral _ he
    rw [h]
    exact ⟨rfl, rfl, hne⟩

/-- C29 (witness): the manager holds the sample mirror; changing it to the
mirror to the port 9, which has no handle, throws and leaves the manager
empty. -/
theorem change_mirror_not_atomic_witness :
    sampleMirrors.mirrorHandles_.find sampleMirror.getID ≠ none ∧
    (changeMirror sampleEnv sampleMirror sampleMirrorNoHandle sampleMirrors).1 =
      .error .FbossError ∧
    (changeMirror sampleEnv sampleMirror sampleMirrorNoHandle sampleMirrors).2 = {} ∧
    (changeMirror sampleEnv sampleMirror sampleMirrorNoHandle sampleMirrors).2 ≠
      sampleMirrors := by
  have h := (change_mirror_not_atomic sampleEnv sampleMirror sampleMirrorNoHandle sampleMirrors
    (by decide!)).2 9 rfl rfl
  exact ⟨by decide!, h.1, by decide!, h.2.2⟩

end SaiMirrorManager
